import Mathlib

/-!
# Photo manager backend: session tokens, middleware and resource authorization

A shallow embedding of `auth.go`, `middleware.go`, `handlers.go`, `config.go` and
`types.go`, followed by the theorems that settle the specification's claims.

Modelling conventions.

* Go strings that reach the program from a JSON decoder or from the URL are Lean strings
  (Unicode text); `[]byte(s)` is the UTF-8 encoding. The login handed to `GenerateJWT`, an
  arbitrary Go string, is a byte string.
* `int`/`int64` values are `Int`; `wrapInt64` is applied where Go arithmetic can wrap.
* A `time.Time` is the number of nanoseconds since the Unix epoch.
* A `float64` is the rational number it denotes (JSON carries neither NaN nor infinities);
  `int64(f)` is taken as on amd64.
* Byte-level encodings done by libraries (base64url, JSON text, cookie headers) are not
  re-implemented: a token string, a request body and a cookie are represented by what the
  library decoder makes of them.
* Hash functions are parameters (`Runtime`); HMAC is built from them as `crypto/hmac` does.
  SHA-256 is also given as a function, checked on published test vectors, for examples
  with the digest that the program uses.
* `sql.DB` is a pair of row lists; each query is the list operation it denotes.
-/

namespace PhotoManager

/-! ## Go runtime values -/

/-- Byte strings; every element is meant to be below 256. -/
abbrev Bytes := List Nat

/-- UTF-8 encoding of one Unicode scalar value. -/
def utf8EncodeRune (c : Nat) : Bytes :=
  if c < 0x80 then [c]
  else if c < 0x800 then [0xC0 + c / 64, 0x80 + c % 64]
  else if c < 0x10000 then [0xE0 + c / 4096, 0x80 + c / 64 % 64, 0x80 + c % 64]
  else [0xF0 + c / 262144, 0x80 + c / 4096 % 64, 0x80 + c / 64 % 64, 0x80 + c % 64]

/-- Go conversion `[]byte(s)`. -/
def bytesOf (s : String) : Bytes :=
  s.toList.flatMap (fun c => utf8EncodeRune c.toNat)

/-- A continuation byte of UTF-8. -/
def utf8_isCont (b : Nat) : Bool := decide (0x80 ≤ b ∧ b ≤ 0xBF)

/-- Go `utf8.DecodeRune` on the front of a byte string: the code point and its width.
A byte that starts no valid encoding (overlong forms and surrogates included) gives
`RuneError`, U+FFFD, with width 1. -/
def utf8_DecodeRune : Bytes → Nat × Nat
  | [] => (0xFFFD, 0)
  | b0 :: rest =>
    if b0 < 0x80 then (b0, 1)
    else if 0xC2 ≤ b0 ∧ b0 ≤ 0xDF then
      match rest with
      | b1 :: _ =>
        if utf8_isCont b1 then ((b0 - 0xC0) * 64 + (b1 - 0x80), 2) else (0xFFFD, 1)
      | _ => (0xFFFD, 1)
    else if 0xE0 ≤ b0 ∧ b0 ≤ 0xEF then
      match rest with
      | b1 :: b2 :: _ =>
        if (if b0 = 0xE0 then 0xA0 else 0x80) ≤ b1 ∧ b1 ≤ (if b0 = 0xED then 0x9F else 0xBF) ∧
            utf8_isCont b2 = true then
          ((b0 - 0xE0) * 4096 + (b1 - 0x80) * 64 + (b2 - 0x80), 3)
        else (0xFFFD, 1)
      | _ => (0xFFFD, 1)
    else if 0xF0 ≤ b0 ∧ b0 ≤ 0xF4 then
      match rest with
      | b1 :: b2 :: b3 :: _ =>
        if (if b0 = 0xF0 then 0x90 else 0x80) ≤ b1 ∧ b1 ≤ (if b0 = 0xF4 then 0x8F else 0xBF) ∧
            utf8_isCont b2 = true ∧ utf8_isCont b3 = true then
          ((b0 - 0xF0) * 262144 + (b1 - 0x80) * 4096 + (b2 - 0x80) * 64 + (b3 - 0x80), 4)
        else (0xFFFD, 1)
      | _ => (0xFFFD, 1)
    else (0xFFFD, 1)

/-- Go conversion `[]rune(s)`: the code points decoded from front to back, U+FFFD for
every byte that starts no valid encoding. `fuel` bounds the number of steps. -/
def runesFrom : Nat → Bytes → List Char
  | 0, _ => []
  | fuel + 1, b =>
    match b with
    | [] => []
    | b0 :: rest =>
      Char.ofNat (utf8_DecodeRune (b0 :: rest)).1 ::
        runesFrom fuel ((b0 :: rest).drop (utf8_DecodeRune (b0 :: rest)).2)

/-- Library `encoding/json`: the text that a decoder reads back from what `Marshal`
writes for the Go string `s`. Valid UTF-8 is kept; every byte that starts no valid
encoding is written as `\ufffd` and comes back as U+FFFD. -/
def json_String (s : Bytes) : String := String.mk (runesFrom s.length s)

/-- Two's-complement wrap of an integer into the `int64` range. -/
def wrapInt64 (n : Int) : Int := (n + 2 ^ 63) % 2 ^ 64 - 2 ^ 63

/-- Instants: nanoseconds since the Unix epoch. -/
abbrev Time := Int

/-- Go `time.Minute`, a `time.Duration` in nanoseconds. -/
def time_Minute : Int := 60000000000

/-- Go `t.Unix()`: whole seconds since the epoch, rounded down. -/
def Time.Unix (t : Time) : Int := t / 1000000000

/-- Truncation toward zero. -/
def truncate (q : Rat) : Int := if 0 ≤ q then ⌊q⌋ else ⌈q⌉

/-- Go conversion `int64(f)` of a `float64`: truncation toward zero. For a value outside
the `int64` range Go leaves the result implementation-dependent; on amd64 the instruction
`CVTTSD2SQ` yields the smallest `int64`, -2^63, which is what the model returns. -/
def toInt64 (f : Rat) : Int :=
  let z := truncate f
  if -(2 ^ 63) ≤ z ∧ z < 2 ^ 63 then z else -(2 ^ 63)

/-- Go `time.Unix(sec, nsec)`, as nanoseconds since the Unix epoch: whole seconds of
`nsec` are carried into `sec`, and a `time.Time` keeps its seconds in an `int64` counted
from the year 1, 62135596800 seconds before the epoch, with wrapping arithmetic. -/
def time_Unix (sec nsec : Int) : Time :=
  (wrapInt64 (sec + nsec / 1000000000 + 62135596800) - 62135596800) * 1000000000 +
    nsec % 1000000000

/-- The `float64` that `encoding/json` decodes from the decimal text of an `int64`:
the nearest value with a 53-bit significand, ties to even. `e` is the binary exponent of
the last significand bit (0 up to 2^53, at most 11 for an `int64`). -/
def float64OfInt64 (n : Int) : Rat :=
  let a := n.natAbs
  let e := ((List.range 12).find? (fun e => decide (a < 2 ^ (53 + e)))).getD 11
  let q := a / 2 ^ e
  let r := a % 2 ^ e
  let m := if 2 ^ e < 2 * r ∨ (2 * r = 2 ^ e ∧ q % 2 = 1) then q + 1 else q
  if n < 0 then ((-((m * 2 ^ e : Nat) : Int) : Int) : Rat) else (((m * 2 ^ e : Nat) : Int) : Rat)

/-! ## JSON values and claims -/

/-- A JSON value as `encoding/json` decodes it into `any`: numbers are `float64`.
The contents of arrays and objects play no role in this program. -/
inductive JSONValue
  | null
  | bool (b : Bool)
  | number (f : Rat)
  | string (s : String)
  | array
  | object
  deriving DecidableEq

/-- The type `jwt.MapClaims` (`map[string]any`); the nil map is the empty list. -/
abbrev MapClaims := List (String × JSONValue)

/-- Map indexing `m[k]`: `none` is the nil interface of a missing key. -/
def MapClaims.get (m : MapClaims) (k : String) : Option JSONValue := List.lookup k m

/-! ## config.go -/

structure JWTConfig where
  SecretKey : String
  TimeoutMinutes : Int
  deriving DecidableEq

structure PhotosConfig where
  Directory : String
  deriving DecidableEq

structure Config where
  JWT : JWTConfig
  Photos : PhotosConfig
  deriving DecidableEq

/-- Source: `func (j JWTConfig) Timeout() time.Duration`, an `int64` product that may wrap. -/
def JWTConfig.Timeout (j : JWTConfig) : Int := wrapInt64 (j.TimeoutMinutes * time_Minute)

/-! ## Library model: crypto/hmac and golang-jwt v5 -/

/-- What the model takes as given from the libraries: the three SHA-2 digests behind
HS256/HS384/HS512 and the bytes of the signing string (base64url header, a dot,
base64url JSON payload) that `SignedString` builds for the claims `exp`, `user_id`,
`user_login`. -/
structure Runtime where
  SHA256 : Bytes → Bytes
  SHA384 : Bytes → Bytes
  SHA512 : Bytes → Bytes
  SigningString : Int → Int → Bytes → Bytes

/-- Library `crypto/hmac` (RFC 2104), the key block of `hmac.New` over a digest `sum`
with block size `blockSize`: a key longer than a block is hashed first, and the key is
copied into a zeroed block. -/
def hmac_block (sum : Bytes → Bytes) (blockSize : Nat) (key : Bytes) : Bytes :=
  let key := if blockSize < key.length then sum key else key
  (key ++ List.replicate (blockSize - key.length) 0).take blockSize

/-- Library `crypto/hmac`: the message of the outer digest call, the key block xored with
the outer pad followed by the digest of the key block xored with the inner pad and the
message. -/
def hmac_outer (sum : Bytes → Bytes) (blockSize : Nat) (key msg : Bytes) : Bytes :=
  let block := hmac_block sum blockSize key
  block.map (fun b => Nat.xor b 0x5c) ++ sum (block.map (fun b => Nat.xor b 0x36) ++ msg)

/-- Library `crypto/hmac` (RFC 2104) over a digest `sum` with block size `blockSize`:
the tag is `sum (opad ++ sum (ipad ++ msg))`. -/
def hmac_Sum (sum : Bytes → Bytes) (blockSize : Nat) (key msg : Bytes) : Bytes :=
  sum (hmac_outer sum blockSize key msg)

/-- Library `crypto/sha256` (FIPS 180-4): the round constants. -/
def sha256_K : List Nat :=
  [0x428a2f98, 0x71374491, 0xb5c0fbcf, 0xe9b5dba5, 0x3956c25b, 0x59f111f1, 0x923f82a4, 0xab1c5ed5,
   0xd807aa98, 0x12835b01, 0x243185be, 0x550c7dc3, 0x72be5d74, 0x80deb1fe, 0x9bdc06a7, 0xc19bf174,
   0xe49b69c1, 0xefbe4786, 0x0fc19dc6, 0x240ca1cc, 0x2de92c6f, 0x4a7484aa, 0x5cb0a9dc, 0x76f988da,
   0x983e5152, 0xa831c66d, 0xb00327c8, 0xbf597fc7, 0xc6e00bf3, 0xd5a79147, 0x06ca6351, 0x14292967,
   0x27b70a85, 0x2e1b2138, 0x4d2c6dfc, 0x53380d13, 0x650a7354, 0x766a0abb, 0x81c2c92e, 0x92722c85,
   0xa2bfe8a1, 0xa81a664b, 0xc24b8b70, 0xc76c51a3, 0xd192e819, 0xd6990624, 0xf40e3585, 0x106aa070,
   0x19a4c116, 0x1e376c08, 0x2748774c, 0x34b0bcb5, 0x391c0cb3, 0x4ed8aa4a, 0x5b9cca4f, 0x682e6ff3,
   0x748f82ee, 0x78a5636f, 0x84c87814, 0x8cc70208, 0x90befffa, 0xa4506ceb, 0xbef9a3f7, 0xc67178f2]

/-- Library `crypto/sha256`: the initial hash value. -/
def sha256_H0 : List Nat :=
  [0x6a09e667, 0xbb67ae85, 0x3c6ef372, 0xa54ff53a, 0x510e527f, 0x9b05688c, 0x1f83d9ab, 0x5be0cd19]

/-- Rotation of a 32-bit word to the right. -/
def rotr32 (x n : Nat) : Nat := (x >>> n) ||| ((x <<< (32 - n)) % 4294967296)

/-- Library `crypto/sha256`: the message followed by the byte 80, zero bytes up to 56
modulo 64, and the length in bits as eight bytes, most significant first. -/
def sha256_pad (msg : Bytes) : Bytes :=
  msg ++ [0x80] ++ List.replicate ((119 - msg.length % 64) % 64) 0 ++
    (List.range 8).map (fun i => 8 * msg.length / 256 ^ (7 - i) % 256)

/-- The first `fuel` pieces of `n` bytes of a byte string. -/
def chunks (n : Nat) : Nat → Bytes → List Bytes
  | 0, _ => []
  | fuel + 1, b => if b = [] then [] else b.take n :: chunks n fuel (b.drop n)

/-- The number that a byte string spells, most significant byte first. -/
def word32 (b : Bytes) : Nat := b.foldl (fun acc x => acc * 256 + x) 0

/-- Library `crypto/sha256`: `n` more words of the message schedule, newest word first. -/
def sha256_schedule : Nat → List Nat → List Nat
  | 0, w => w
  | n + 1, w =>
    let w2 := w.getD 1 0
    let w7 := w.getD 6 0
    let w15 := w.getD 14 0
    let w16 := w.getD 15 0
    let s0 := (rotr32 w15 7 ^^^ rotr32 w15 18) ^^^ (w15 >>> 3)
    let s1 := (rotr32 w2 17 ^^^ rotr32 w2 19) ^^^ (w2 >>> 10)
    sha256_schedule n (((s1 + w7 + s0 + w16) % 4294967296) :: w)

/-- Library `crypto/sha256`: one round on the eight working variables, with the round
constant and the schedule word. -/
def sha256_round (s : List Nat) (kw : Nat × Nat) : List Nat :=
  match s with
  | [a, b, c, d, e, f, g, h] =>
    let S1 := (rotr32 e 6 ^^^ rotr32 e 11) ^^^ rotr32 e 25
    let ch := (e &&& f) ^^^ ((4294967295 - e) &&& g)
    let t1 := (h + S1 + ch + kw.1 + kw.2) % 4294967296
    let S0 := (rotr32 a 2 ^^^ rotr32 a 13) ^^^ rotr32 a 22
    let maj := ((a &&& b) ^^^ (a &&& c)) ^^^ (b &&& c)
    let t2 := (S0 + maj) % 4294967296
    [(t1 + t2) % 4294967296, a, b, c, (d + t1) % 4294967296, e, f, g]
  | _ => s

/-- Library `crypto/sha256`: the compression of one 64-byte block into the hash value. -/
def sha256_compress (h : List Nat) (block : Bytes) : List Nat :=
  let w := (sha256_schedule 48 ((chunks 4 16 block).map word32).reverse).reverse
  let s := (sha256_K.zip w).foldl sha256_round h
  List.zipWith (fun x y => (x + y) % 4294967296) h s

/-- Library `sha256.Sum256`: the SHA-256 digest of a byte string, 32 bytes. -/
def sha256_Sum256 (msg : Bytes) : Bytes :=
  let p := sha256_pad msg
  let h := (chunks 64 (p.length / 64) p).foldl sha256_compress sha256_H0
  h.flatMap (fun x => [x / 16777216 % 256, x / 65536 % 256, x / 256 % 256, x % 256])

/-- Signing methods registered by golang-jwt. Only the HMAC family accepts the `[]byte`
key that the key function of `parseJWT` returns. -/
inductive SigningMethod
  | HS256
  | HS384
  | HS512
  | notHMAC
  deriving DecidableEq

/-- Library `jwt.GetSigningMethod`; `none` when the name is not registered. -/
def GetSigningMethod (alg : String) : Option SigningMethod :=
  if alg = "HS256" then some .HS256
  else if alg = "HS384" then some .HS384
  else if alg = "HS512" then some .HS512
  else if alg ∈ ["RS256", "RS384", "RS512", "PS256", "PS384", "PS512",
      "ES256", "ES384", "ES512", "EdDSA", "none"] then some .notHMAC
  else none

/-- Library `SigningMethodHMAC.Sign` with a `[]byte` key; `none` for the other methods. -/
def SigningMethod.Sign (rt : Runtime) (m : SigningMethod) (signingString key : Bytes) :
    Option Bytes :=
  match m with
  | .HS256 => some (hmac_Sum rt.SHA256 64 key signingString)
  | .HS384 => some (hmac_Sum rt.SHA384 128 key signingString)
  | .HS512 => some (hmac_Sum rt.SHA512 128 key signingString)
  | .notHMAC => none

/-- Library `Method.Verify(signingString, sig, key)` with a `[]byte` key: the HMAC methods
compare the tag, every other method rejects the key type. -/
def SigningMethod.Verify (rt : Runtime) (m : SigningMethod) (signingString sig key : Bytes) :
    Bool :=
  match m.Sign rt signingString key with
  | some tag => decide (sig = tag)
  | none => false

/-- Errors that claim validation collects. -/
inductive ClaimError
  | ErrTokenExpired
  | ErrTokenNotValidYet
  | ErrInvalidType
  deriving DecidableEq

/-- Go `error` values that occur in the modelled code. -/
inductive Error
  | ErrTokenMalformed
  | ErrTokenUnverifiable
  | ErrTokenSignatureInvalid
  | ErrTokenInvalidClaims (errs : List ClaimError)
  | ErrInvalidKey
  | ErrNoCookie
  | ErrNoRows
  deriving DecidableEq

/-- What `Parser.ParseUnverified` recovers from a token string: `malformed` when the string
does not consist of three dot-separated base64url segments with JSON objects in the first
two, otherwise the decoded header and claims, the bytes of the first two segments joined
by a dot, and the decoded signature. -/
inductive TokenString
  | malformed
  | segments (Header : List (String × JSONValue)) (Claims : MapClaims)
      (signingString : Bytes) (Signature : Bytes)
  deriving DecidableEq

/-- The type `jwt.Token`. -/
structure Token where
  Header : List (String × JSONValue)
  Claims : MapClaims
  Signature : Bytes
  Valid : Bool
  deriving DecidableEq

/-- Library `newNumericDateFromSeconds`, in whole seconds since the epoch:
`math.Modf` splits `f`, `time.Unix(int64(round), int64(frac*1e9))` builds the instant and
`Truncate(time.Second)` rounds it down. The product `frac*1e9` is taken exactly; the
rounding of the `float64` product moves it by less than a nanosecond and never onto the
next second. -/
def newNumericDateFromSeconds (f : Rat) : Int :=
  let round : Int := truncate f
  let frac : Rat := f - round
  let t : Time := time_Unix (toInt64 round) (toInt64 (frac * 1000000000))
  t.Unix

/-- Library `MapClaims.parseNumericDate`: no date when the key is missing or the number
is 0, an error when the value is not a number. -/
def parseNumericDate (m : MapClaims) (key : String) : Except ClaimError (Option Int) :=
  match m.get key with
  | none => .ok none
  | some (.number f) => if f = 0 then .ok none else .ok (some (newNumericDateFromSeconds f))
  | some _ => .error .ErrInvalidType

/-- Library `Validator.verifyExpiresAt` with `required = false` and no leeway:
`cmp.Before(exp)` must hold. -/
def verifyExpiresAt (claims : MapClaims) (cmp : Time) : Option ClaimError :=
  match parseNumericDate claims "exp" with
  | .error e => some e
  | .ok none => none
  | .ok (some exp) => if cmp < exp * 1000000000 then none else some .ErrTokenExpired

/-- Library `Validator.verifyNotBefore` with `required = false` and no leeway:
`!cmp.Before(nbf)` must hold. -/
def verifyNotBefore (claims : MapClaims) (cmp : Time) : Option ClaimError :=
  match parseNumericDate claims "nbf" with
  | .error e => some e
  | .ok none => none
  | .ok (some nbf) => if cmp < nbf * 1000000000 then some .ErrTokenNotValidYet else none

/-- Library `Validator.Validate` as configured by `jwt.Parse` without options: `exp` and
`nbf` are checked, nothing else is expected. The errors are collected. -/
def Validate (claims : MapClaims) (now : Time) : List ClaimError :=
  (verifyExpiresAt claims now).toList ++ (verifyNotBefore claims now).toList

/-- Library `jwt.Parse(tokenString, keyFunc)` for a key function that returns the byte
string `key` and no error. The clock reading `now` is the `time.Now()` of the validator. -/
def jwt_Parse (rt : Runtime) (now : Time) (tokenString : TokenString) (key : Bytes) :
    Option Token × Option Error :=
  match tokenString with
  | .malformed => (none, some .ErrTokenMalformed)
  | .segments header claims signingString sig =>
    let token : Token := ⟨header, claims, sig, false⟩
    match header.lookup "alg" with
    | some (.string alg) =>
      match GetSigningMethod alg with
      | none => (some token, some .ErrTokenUnverifiable)
      | some method =>
        if method.Verify rt signingString sig key then
          match Validate claims now with
          | [] => (some { token with Valid := true }, none)
          | errs => (some token, some (.ErrTokenInvalidClaims errs))
        else (some token, some .ErrTokenSignatureInvalid)
    | _ => (some token, some .ErrTokenUnverifiable)

/-! ## auth.go -/

/-- Source: `GenerateJWT`. `now` is the reading of `time.Now()` and `userLogin` is a Go
string, that is, any byte string. The returned token string is given by its segments; the
claims appear as a decoder reads them back from the JSON text written by the encoder: the
integers as `float64` values, the login with U+FFFD in the place of every byte that is not
part of valid UTF-8. -/
def GenerateJWT (rt : Runtime) (cfg : Config) (now : Time) (userID : Int) (userLogin : Bytes) :
    TokenString × Option Error :=
  let exp := Time.Unix (now + cfg.JWT.Timeout)
  let signingString := rt.SigningString exp userID userLogin
  (.segments [("alg", .string "HS256"), ("typ", .string "JWT")]
      [("exp", .number (float64OfInt64 exp)), ("user_id", .number (float64OfInt64 userID)),
        ("user_login", .string (json_String userLogin))]
      signingString
      (hmac_Sum rt.SHA256 64 (bytesOf cfg.JWT.SecretKey) signingString),
    none)

/-- Source: `parseJWT`. The Go pair `(claims, err)`; nil claims are `[]`. The type
assertion `token.Claims.(jwt.MapClaims)` cannot fail, since `jwt.Parse` decodes into
`MapClaims`, so its `ErrInvalidKey` branch is not reached. -/
def parseJWT (rt : Runtime) (cfg : Config) (now : Time) (tokenStr : TokenString) :
    MapClaims × Option Error :=
  match jwt_Parse rt now tokenStr (bytesOf cfg.JWT.SecretKey) with
  | (some token, none) => if token.Valid then (token.Claims, none) else ([], none)
  | (_, err) => ([], err)

/-! ## net/http, context and database/sql -/

/-- Keys of `context.WithValue`: values of the named type `contextKey` and plain strings
are different keys even when they spell the same text. -/
inductive ContextKey
  | contextKey (s : String)
  | string (s : String)
  deriving DecidableEq

/-- Source: `const ctxKeyLogin contextKey = "user_login"`. -/
def ctxKeyLogin : ContextKey := .contextKey "user_login"

/-- Source: `const ctxKeyID contextKey = "user_id"`. -/
def ctxKeyID : ContextKey := .contextKey "user_id"

/-- Values stored in a request context by the middleware. -/
inductive ContextValue
  | int64 (n : Int)
  | string (s : String)
  | bool (b : Bool)
  deriving DecidableEq

/-- A `context.Context`: the chain of `WithValue` bindings, innermost first. -/
abbrev Context := List (ContextKey × ContextValue)

/-- Go `context.WithValue(ctx, key, val)`. -/
def Context.WithValue (ctx : Context) (key : ContextKey) (val : ContextValue) : Context :=
  (key, val) :: ctx

/-- Go `ctx.Value(key)`; `none` is the nil interface. -/
def Context.Value (ctx : Context) (key : ContextKey) : Option ContextValue :=
  List.lookup key ctx

/-- Source: `type ManageBanRequest`. -/
structure ManageBanRequest where
  Login : String
  Banned : Int
  deriving DecidableEq

/-- Source: `type UpdatePublicRequest`. -/
structure UpdatePublicRequest where
  Filename : String
  Public : Int
  deriving DecidableEq

/-- Source: `type Photo`. -/
structure Photo where
  Filename : String
  Public : Bool
  deriving DecidableEq

/-- Source: `type UserResponse`. -/
structure UserResponse where
  Login : String
  IsBanned : Bool
  deriving DecidableEq

/-- A cookie of the request; the value of a cookie is kept as the token string it is. -/
structure Cookie where
  Name : String
  Value : TokenString
  deriving DecidableEq

/-- A request body, given by the outcome of `json.NewDecoder(r.Body).Decode(&req)` for each
target type used by the handlers; `none` stands for a decoding error. -/
structure Body where
  asManageBanRequest : Option ManageBanRequest
  asUpdatePublicRequest : Option UpdatePublicRequest
  deriving DecidableEq

/-- The parts of `http.Request` that the handlers read. -/
structure Request where
  Method : String
  Path : String
  Cookies : List Cookie
  Body : Body
  ctx : Context
  deriving DecidableEq

/-- Go `r.Cookie(name)`: the first cookie with that name, or `http.ErrNoCookie`. -/
def Request.Cookie (r : Request) (name : String) : Option Cookie × Option Error :=
  match r.Cookies.find? (fun c => decide (c.Name = name)) with
  | some c => (some c, none)
  | none => (none, some .ErrNoCookie)

/-- Go `r.WithContext(ctx)`. -/
def Request.WithContext (r : Request) (ctx : Context) : Request := { r with ctx := ctx }

/-- What a handler writes to its `http.ResponseWriter`. -/
inductive Response
  | Error (error : String) (code : Nat)
  | Photos (photos : List Photo)
  | Users (users : List UserResponse)
  | Message (code : Nat) (fields : List (String × String))
  | File (name : String)
  | Redirect (location : String) (code : Nat)
  | Aborted
  deriving DecidableEq

/-- Go `http.Error(w, error, code)`. -/
def http_Error (error : String) (code : Nat) : Response := .Error error code

/-- A row of table `users`. -/
structure UserRow where
  ID : Int
  login : String
  password : String
  isAdmin : Int
  isBanned : Int
  deriving DecidableEq

/-- A row of table `photos`. -/
structure PhotoRow where
  ID : Int
  imagePath : String
  imageIsPublic : Int
  userID : Int
  deriving DecidableEq

/-- The database behind `*sql.DB`: both tables in row order. -/
structure DB where
  users : List UserRow
  photos : List PhotoRow
  deriving DecidableEq

/-- What handlers can change: the database and the files under the photo directory. -/
structure World where
  db : DB
  files : List String
  deriving DecidableEq

/-- Go `http.HandlerFunc`, run against the world it may change. -/
abbrev HandlerFunc := Request → World → Response × World

/-- Go `strings.Split(s, sep)` for a one-character separator, on character lists. -/
def splitChars (sep : Char) : List Char → List (List Char)
  | [] => [[]]
  | c :: cs =>
    match splitChars sep cs with
    | [] => [[]]
    | p :: ps => if c = sep then [] :: p :: ps else (c :: p) :: ps

/-- Go `strings.Split(s, "/")`. -/
def strings_Split (s : String) (sep : Char) : List String :=
  (splitChars sep s.toList).map String.mk

/-- Go `filepath.Base(path)` with the slash separator. -/
def filepath_Base (path : String) : String :=
  if path = "" then "."
  else
    let trimmed := (path.toList.reverse.dropWhile (fun c => c = '/')).reverse
    if trimmed = [] then "/"
    else String.mk (trimmed.reverse.takeWhile (fun c => c ≠ '/')).reverse

/-- Equality of characters up to ASCII letter case. -/
def eqFoldASCII (c d : Char) : Bool :=
  let lower := fun (x : Char) => if 'A' ≤ x ∧ x ≤ 'Z' then x.toNat + 32 else x.toNat
  lower c = lower d

/-- SQLite `text LIKE pattern` without an escape character: `%` matches any run of
characters, `_` matches one character, other characters match up to ASCII case. -/
def sqlLike : List Char → List Char → Bool
  | [], text => text.isEmpty
  | c :: pattern, text =>
    if c = '%' then text.tails.any (sqlLike pattern)
    else
      match text with
      | [] => false
      | d :: rest => (c = '_' || eqFoldASCII c d) && sqlLike pattern rest

/-- Rows of `photos p JOIN users u ON p.userID = u.ID WHERE u.login = ?`. -/
def DB.photosJoinUsers (db : DB) (login : String) : List (PhotoRow × UserRow) :=
  db.photos.flatMap (fun p =>
    (db.users.filter (fun u => decide (p.userID = u.ID) && decide (u.login = login))).map
      (fun u => (p, u)))

/-! ## middleware.go -/

/-- Source: `getJWTFromCookie`. -/
def getJWTFromCookie (r : Request) : TokenString × Option Error :=
  match r.Cookie "jwt" with
  | (some c, none) => (c.Value, none)
  | (_, err) => (.malformed, err)

/-- Source: `AuthMiddleware`. -/
def AuthMiddleware (rt : Runtime) (cfg : Config) (now : Time) (next : HandlerFunc) :
    HandlerFunc := fun r w =>
  match getJWTFromCookie r with
  | (_, some _) => (http_Error "Unauthorized" 401, w)
  | (tokenStr, none) =>
    match parseJWT rt cfg now tokenStr with
    | (_, some _) => (http_Error "Unauthorized" 401, w)
    | (claims, none) =>
      match claims.get "user_id" with
      | some (.number userIDFloat) =>
        match claims.get "user_login" with
        | some (.string userLogin) =>
          let ctx := r.ctx.WithValue ctxKeyID (.int64 (toInt64 userIDFloat))
          let ctx := ctx.WithValue ctxKeyLogin (.string userLogin)
          next (r.WithContext ctx) w
        | _ => (http_Error "Unauthorized" 401, w)
      | _ => (http_Error "Unauthorized" 401, w)

/-- Source: the query of `AuthMiddlewareAdministration`,
`SELECT ID, isAdmin, isBanned FROM users WHERE login = ?` scanned with `QueryRow`. -/
def DB.selectUserByLogin (db : DB) (login : String) : Option UserRow × Option Error :=
  match db.users.find? (fun u => decide (u.login = login)) with
  | some u => (some u, none)
  | none => (none, some .ErrNoRows)

/-- Source: `AuthMiddlewareAdministration`. -/
def AuthMiddlewareAdministration (rt : Runtime) (cfg : Config) (now : Time)
    (next : HandlerFunc) : HandlerFunc := fun r w =>
  match r.Cookie "jwt" with
  | (some cookie, none) =>
    match parseJWT rt cfg now cookie.Value with
    | (_, some _) => (http_Error "Unauthorized" 401, w)
    | (claims, none) =>
      match claims.get "user_login" with
      | some (.string userLogin) =>
        match w.db.selectUserByLogin userLogin with
        | (some row, none) =>
          let ctx := r.ctx.WithValue ctxKeyID (.int64 row.ID)
          let ctx := ctx.WithValue ctxKeyLogin (.string userLogin)
          let ctx := ctx.WithValue (.string "isAdmin") (.bool (decide (row.isAdmin ≠ 0)))
          let ctx := ctx.WithValue (.string "isBanned") (.bool (decide (row.isBanned ≠ 0)))
          next (r.WithContext ctx) w
        | _ => (http_Error "Unauthorized" 401, w)
      | _ => (http_Error "Unauthorized" 401, w)
  | _ => (http_Error "Unauthorized" 401, w)

/-! ## handlers.go -/

/-- Source: the single-photo query of `HandleGetPhotos`,
`SELECT imagePath, imageIsPublic FROM photos p JOIN users u ON p.userID=u.ID
WHERE u.login=? AND p.imagePath LIKE ?` with pattern `"%/"+filename`, first row. -/
def DB.selectPhotoLike (db : DB) (userLogin filename : String) : Option PhotoRow × Option Error :=
  match (db.photosJoinUsers userLogin).find?
      (fun pu => sqlLike ("%/" ++ filename).toList pu.1.imagePath.toList) with
  | some pu => (some pu.1, none)
  | none => (none, some .ErrNoRows)

/-- The pieces of a path between slashes and backslashes. -/
def splitSlashes : List Char → List (List Char)
  | [] => [[]]
  | c :: cs =>
    match splitSlashes cs with
    | [] => [[]]
    | p :: ps => if c.toNat = 0x2F ∨ c.toNat = 0x5C then [] :: p :: ps else (c :: p) :: ps

/-- Library `net/http`, `containsDotDot`: some piece of the path between slashes or
backslashes is `..`. -/
def containsDotDot (v : String) : Bool :=
  (splitSlashes v.toList).any (fun ent => decide (ent = ['.', '.']))

/-- Library `http.ServeFile(w, r, name)`: a request path with a `..` element is answered
400, a request path that ends in `/index.html` is redirected to `./`, a file that does not
exist is answered 404, and otherwise the file is served (`File` also stands for the
answers 304 and 206 that the conditional and range headers of the request select). Files
are identified by the path under which they were created. -/
def http_ServeFile (r : Request) (w : World) (name : String) : Response :=
  if containsDotDot r.Path then http_Error "invalid URL path" 400
  else if "/index.html".toList.isSuffixOf r.Path.toList then .Redirect "./" 301
  else if name ∈ w.files then .File name
  else http_Error "404 page not found" 404

/-- Source: the variable `authorized` of `HandleGetPhotos`: false unless the request has
a `jwt` cookie that `parseJWT` accepts, and then `claims["user_login"] == userLogin`
(an interface compared with a string: equal only if it holds that very string). -/
def HandleGetPhotos.authorized (rt : Runtime) (cfg : Config) (now : Time) (r : Request)
    (userLogin : String) : Bool :=
  match r.Cookie "jwt" with
  | (some cookie, none) =>
    match parseJWT rt cfg now cookie.Value with
    | (claims, none) => decide (claims.get "user_login" = some (.string userLogin))
    | _ => false
  | _ => false

/-- Source: the `Photo` value that the listing loop of `HandleGetPhotos` appends for a row. -/
def PhotoRow.toPhoto (p : PhotoRow) : Photo :=
  ⟨filepath_Base p.imagePath, decide (p.imageIsPublic ≠ 0)⟩

/-- Source: `HandleGetPhotos`. -/
def HandleGetPhotos (rt : Runtime) (cfg : Config) (now : Time) : HandlerFunc := fun r w =>
  let parts := strings_Split r.Path '/'
  if parts.length < 4 then (http_Error "Invalid URL" 400, w)
  else
    let userLogin := parts.getD 3 ""
    let filename := if 5 ≤ parts.length then parts.getD 4 "" else ""
    let authorized : Bool := HandleGetPhotos.authorized rt cfg now r userLogin
    if filename ≠ "" then
      match w.db.selectPhotoLike userLogin filename with
      | (some row, none) =>
        if row.imageIsPublic = 0 ∧ authorized = false then
          (http_Error "Forbidden or not found" 403, w)
        else (http_ServeFile r w row.imagePath, w)
      | _ => (http_Error "Forbidden or not found" 403, w)
    else
      let rows := w.db.photosJoinUsers userLogin
      let photos := (rows.filter
          (fun pu => decide (pu.1.imageIsPublic ≠ 0) || authorized)).map
          (fun pu => pu.1.toPhoto)
      (.Photos photos, w)

/-- Source: the owner query of `HandleDeletePhoto`,
`SELECT u.ID FROM users u JOIN photos p ON p.userID=u.ID WHERE u.login=? AND p.imagePath=?`,
first row. -/
def DB.selectOwnerID (db : DB) (userLogin imagePath : String) : Option Int × Option Error :=
  match (db.users.flatMap (fun u =>
      (db.photos.filter (fun p => decide (p.userID = u.ID) && decide (u.login = userLogin)
        && decide (p.imagePath = imagePath))).map (fun _ => u.ID))).head? with
  | some id => (some id, none)
  | none => (none, some .ErrNoRows)

/-- Source: `DELETE FROM photos WHERE imagePath=?`. -/
def DB.deletePhotos (db : DB) (imagePath : String) : DB :=
  { db with photos := db.photos.filter (fun p => decide (p.imagePath ≠ imagePath)) }

/-- Go `os.Remove(name)` on the set of stored files. -/
def os_Remove (files : List String) (name : String) : List String :=
  files.filter (fun f => decide (f ≠ name))

/-- Source: `HandleDeletePhoto`. A failed type assertion on the context value aborts. -/
def HandleDeletePhoto (cfg : Config) : HandlerFunc := fun r w =>
  if r.Method ≠ "DELETE" then (http_Error "Method not allowed" 405, w)
  else
    let parts := strings_Split r.Path '/'
    if parts.length < 5 then (http_Error "Invalid URL" 400, w)
    else
      let userLogin := parts.getD 3 ""
      let filename := parts.getD 4 ""
      match r.ctx.Value ctxKeyID with
      | some (.int64 userID) =>
        let imagePath := cfg.Photos.Directory ++ "/" ++ userLogin ++ "/" ++ filename
        match w.db.selectOwnerID userLogin imagePath with
        | (some dbUserID, none) =>
          if dbUserID ≠ userID then (http_Error "Forbidden" 403, w)
          else
            (.Message 200 [("message", "Photo deleted")],
              { db := w.db.deletePhotos imagePath, files := os_Remove w.files imagePath })
        | _ => (http_Error "Forbidden" 403, w)
      | _ => (.Aborted, w)

/-- Source: the owner query of `HandleTogglePhotoPublic`,
`SELECT userID FROM photos WHERE userID=? AND imagePath=?`, first row. -/
def DB.selectPhotoOwner (db : DB) (userID : Int) (imagePath : String) :
    Option Int × Option Error :=
  match db.photos.find? (fun p => decide (p.userID = userID) && decide (p.imagePath = imagePath)) with
  | some p => (some p.userID, none)
  | none => (none, some .ErrNoRows)

/-- Source: `UPDATE photos SET imageIsPublic=? WHERE userID=? AND imagePath=?`. -/
def DB.updatePhotoPublic (db : DB) (isPublic userID : Int) (imagePath : String) : DB :=
  { db with photos := db.photos.map (fun p =>
      if p.userID = userID ∧ p.imagePath = imagePath then { p with imageIsPublic := isPublic }
      else p) }

/-- Source: `HandleTogglePhotoPublic`. -/
def HandleTogglePhotoPublic (cfg : Config) : HandlerFunc := fun r w =>
  if r.Method ≠ "POST" then (http_Error "Method not allowed" 405, w)
  else
    match r.ctx.Value ctxKeyID, r.ctx.Value ctxKeyLogin with
    | some (.int64 userID), some (.string userLogin) =>
      match r.Body.asUpdatePublicRequest with
      | none => (http_Error "Invalid JSON" 400, w)
      | some req =>
        let imagePath := cfg.Photos.Directory ++ "/" ++ userLogin ++ "/" ++ req.Filename
        match w.db.selectPhotoOwner userID imagePath with
        | (some dbUserID, none) =>
          if dbUserID ≠ userID then (http_Error "Forbidden" 403, w)
          else
            (.Message 200 [("message", "Photo public state updated"),
                ("public", toString req.Public)],
              { w with db := w.db.updatePhotoPublic req.Public userID imagePath })
        | _ => (http_Error "Forbidden" 403, w)
    | _, _ => (.Aborted, w)

/-- SQLite BINARY collation on text, `a ≤ b`: byte order of the UTF-8 encodings, which is
the order of the code points. -/
def binaryLE : List Char → List Char → Bool
  | [], _ => true
  | _ :: _, [] => false
  | c :: cs, d :: ds => decide (c.toNat < d.toNat) || (decide (c.toNat = d.toNat) && binaryLE cs ds)

/-- Source: the loop of `HandleGetUsers` over
`SELECT login, isAdmin, isBanned FROM users ORDER BY login`. -/
def DB.listUsers (db : DB) : List UserResponse :=
  ((db.users.insertionSort
      (fun a b => binaryLE a.login.toList b.login.toList = true)).filter
      (fun u => decide (u.isAdmin = 0))).map
    (fun u => (⟨u.login, decide (u.isBanned ≠ 0)⟩ : UserResponse))

/-- Source: `HandleGetUsers`. -/
def HandleGetUsers : HandlerFunc := fun _ w => (.Users w.db.listUsers, w)

/-- Source: `UPDATE users SET isBanned = ? WHERE login = ?`. -/
def DB.updateBanStatus (db : DB) (banned : Int) (login : String) : DB :=
  { db with users := db.users.map (fun u =>
      if u.login = login then { u with isBanned := banned } else u) }

/-- Source: `HandleManageBanStatus`. -/
def HandleManageBanStatus : HandlerFunc := fun r w =>
  if r.Method ≠ "POST" then (http_Error "Method not allowed" 405, w)
  else
    match r.ctx.Value (.string "isAdmin") with
    | some (.bool isAdmin) =>
      if isAdmin = false then (http_Error "Forbidden" 403, w)
      else
        match r.Body.asManageBanRequest with
        | none => (http_Error "Invalid JSON" 400, w)
        | some req =>
          match r.ctx.Value ctxKeyLogin with
          | some (.string userLogin) =>
            if req.Login = userLogin then (http_Error "Cannot ban yourself" 403, w)
            else
              (.Message 200 [("banned", toString req.Banned), ("login", req.Login),
                  ("message", "Ban status updated")],
                { w with db := w.db.updateBanStatus req.Banned req.Login })
          | _ => (.Aborted, w)
    | _ => (.Aborted, w)

/-! ## main.go: the routes -/

/-- Source: `http.HandleFunc("/api/users", AuthMiddlewareAdministration(cfg, db, HandleGetUsers(db)))`. -/
def routeUsers (rt : Runtime) (cfg : Config) (now : Time) : HandlerFunc :=
  AuthMiddlewareAdministration rt cfg now HandleGetUsers

/-- Source: `http.HandleFunc("/api/manage-ban", AuthMiddlewareAdministration(cfg, db, HandleManageBanStatus(db)))`. -/
def routeManageBan (rt : Runtime) (cfg : Config) (now : Time) : HandlerFunc :=
  AuthMiddlewareAdministration rt cfg now HandleManageBanStatus

/-- Source: `http.HandleFunc("/api/toggle-public", AuthMiddleware(cfg, HandleTogglePhotoPublic(cfg, db)))`. -/
def routeTogglePublic (rt : Runtime) (cfg : Config) (now : Time) : HandlerFunc :=
  AuthMiddleware rt cfg now (HandleTogglePhotoPublic cfg)

/-- Source: `http.HandleFunc("/api/delete-photo/", AuthMiddleware(cfg, HandleDeletePhoto(cfg, db)))`. -/
def routeDeletePhoto (rt : Runtime) (cfg : Config) (now : Time) : HandlerFunc :=
  AuthMiddleware rt cfg now (HandleDeletePhoto cfg)

/-! ## password_validator.go -/

/-- Go `len(s)` of a string: the number of bytes of its UTF-8 encoding. -/
def len (s : String) : Nat := (bytesOf s).length

/-- The range tables of Go's `unicode` package for the code points from U+0080 on, taken
as given: `Upper` (Lu), `Lower` (Ll), `Digit` (Nd), `Letter` (L) and `White_Space`. -/
structure UnicodeTables where
  Upper : Char → Bool
  Lower : Char → Bool
  Digit : Char → Bool
  Letter : Char → Bool
  White_Space : Char → Bool

/-- Go `unicode.IsUpper`: `A` to `Z` in ASCII, the table `Upper` beyond. -/
def unicode_IsUpper (t : UnicodeTables) (c : Char) : Bool :=
  if c.toNat < 0x80 then decide (0x41 ≤ c.toNat ∧ c.toNat ≤ 0x5A) else t.Upper c

/-- Go `unicode.IsLower`: `a` to `z` in ASCII, the table `Lower` beyond. -/
def unicode_IsLower (t : UnicodeTables) (c : Char) : Bool :=
  if c.toNat < 0x80 then decide (0x61 ≤ c.toNat ∧ c.toNat ≤ 0x7A) else t.Lower c

/-- Go `unicode.IsDigit`: `0` to `9` in ASCII, the table `Digit` beyond. -/
def unicode_IsDigit (t : UnicodeTables) (c : Char) : Bool :=
  if c.toNat < 0x80 then decide (0x30 ≤ c.toNat ∧ c.toNat ≤ 0x39) else t.Digit c

/-- Go `unicode.IsLetter`: `A` to `Z` and `a` to `z` in ASCII, the table `Letter` beyond. -/
def unicode_IsLetter (t : UnicodeTables) (c : Char) : Bool :=
  if c.toNat < 0x80 then
    decide ((0x41 ≤ c.toNat ∧ c.toNat ≤ 0x5A) ∨ (0x61 ≤ c.toNat ∧ c.toNat ≤ 0x7A))
  else t.Letter c

/-- Go `unicode.IsSpace`: tab, line feed, vertical tab, form feed, carriage return and
space in ASCII, the table `White_Space` beyond. -/
def unicode_IsSpace (t : UnicodeTables) (c : Char) : Bool :=
  if c.toNat < 0x80 then decide (c.toNat = 0x20 ∨ (0x09 ≤ c.toNat ∧ c.toNat ≤ 0x0D))
  else t.White_Space c

/-- Source: the test `!unicode.IsLetter(char) && !unicode.IsDigit(char) &&
!unicode.IsSpace(char)` of the special-character loops. -/
def isSpecial (t : UnicodeTables) (c : Char) : Bool :=
  !unicode_IsLetter t c && !unicode_IsDigit t c && !unicode_IsSpace t c

/-- Source: `NoValidationValidator.Validate`. A Go `error` made by `fmt.Errorf` is its
message; `none` is the nil error. -/
def NoValidationValidator.Validate (_password : String) : Option String := none

/-- Source: `EasyValidator.Validate`. -/
def EasyValidator.Validate (password : String) : Option String :=
  if len password < 3 then some "password must be at least 3 characters long" else none

/-- Source: the loop of `MediumValidator.Validate` over the runes of the password, with
the variables `hasLetter` and `hasDigit` as its state. -/
def MediumValidator.scan (t : UnicodeTables) (password : String) : Bool × Bool :=
  password.toList.foldl (fun (flags : Bool × Bool) char =>
    (if unicode_IsLetter t char then true else flags.1,
      if unicode_IsDigit t char then true else flags.2)) (false, false)

/-- Source: `MediumValidator.Validate`. -/
def MediumValidator.Validate (t : UnicodeTables) (password : String) : Option String :=
  if len password < 6 then some "password must be at least 6 characters long"
  else
    let flags := MediumValidator.scan t password
    if !flags.1 then some "password must contain at least one letter"
    else if !flags.2 then some "password must contain at least one digit"
    else none

/-- The variables `hasUpper`, `hasLower`, `hasDigit`, `hasSpecial` of
`RestrictValidator.Validate`. -/
structure ClassFlags where
  hasUpper : Bool
  hasLower : Bool
  hasDigit : Bool
  hasSpecial : Bool
  deriving DecidableEq

/-- Source: the loop of `RestrictValidator.Validate` over the runes of the password. -/
def RestrictValidator.scan (t : UnicodeTables) (password : String) : ClassFlags :=
  password.toList.foldl (fun (flags : ClassFlags) char =>
    { hasUpper := if unicode_IsUpper t char then true else flags.hasUpper
      hasLower := if unicode_IsLower t char then true else flags.hasLower
      hasDigit := if unicode_IsDigit t char then true else flags.hasDigit
      hasSpecial := if isSpecial t char then true else flags.hasSpecial })
    ⟨false, false, false, false⟩

/-- Source: the slice `errors` of `RestrictValidator.Validate` after its four appends. -/
def RestrictValidator.errors (t : UnicodeTables) (password : String) : List String :=
  let flags := RestrictValidator.scan t password
  (if !flags.hasUpper then ["at least one uppercase letter"] else []) ++
  (if !flags.hasLower then ["at least one lowercase letter"] else []) ++
  (if !flags.hasDigit then ["at least one digit"] else []) ++
  (if !flags.hasSpecial then ["at least one special character"] else [])

/-- Source: `RestrictValidator.Validate`. `strings.Join(errors, ", ")` is
`String.intercalate`. -/
def RestrictValidator.Validate (t : UnicodeTables) (password : String) : Option String :=
  if len password < 8 then some "password must be at least 8 characters long"
  else
    let errors := RestrictValidator.errors t password
    if 0 < errors.length then
      some ("password must contain: " ++ ", ".intercalate errors)
    else none

/-- A compiled `*regexp.Regexp`, given by what it matches: `matchAt s i j` says that the
pattern matches the characters of `s` from position `i` up to position `j`, in the context
of the whole of `s` (so that `^` and `$` can look at the positions). -/
structure Regexp where
  matchAt : List Char → Nat → Nat → Bool

/-- Library `regexp.Compile`, taken as given: the compiled pattern or the text of the
syntax error. -/
structure RegexpLib where
  Compile : String → Except String Regexp

/-- Library `(*Regexp).MatchString`: whether the string contains any match of the
pattern, at any start and end position. -/
def Regexp.MatchString (re : Regexp) (s : String) : Bool :=
  (List.range (s.toList.length + 1)).any (fun i =>
    (List.range (s.toList.length + 1)).any (fun j =>
      decide (i ≤ j) && re.matchAt s.toList i j))

/-- Source: `type CustomValidator`; `regexCompiled` is nil (`none`) until a pattern has
been compiled. -/
structure CustomValidator where
  MinLength : Int
  MaxLength : Int
  RequireUpper : Bool
  RequireLower : Bool
  RequireDigit : Bool
  RequireSpecial : Bool
  Regex : String
  regexCompiled : Option Regexp

/-- Source: the slice `errors` of `CustomValidator.Validate` after the four class checks;
each loop stops at the first character of the class. -/
def CustomValidator.classErrors (t : UnicodeTables) (v : CustomValidator) (password : String) :
    List String :=
  (if v.RequireUpper ∧ password.toList.any (unicode_IsUpper t) = false then
      ["at least one uppercase letter"] else []) ++
  (if v.RequireLower ∧ password.toList.any (unicode_IsLower t) = false then
      ["at least one lowercase letter"] else []) ++
  (if v.RequireDigit ∧ password.toList.any (unicode_IsDigit t) = false then
      ["at least one digit"] else []) ++
  (if v.RequireSpecial ∧ password.toList.any (isSpecial t) = false then
      ["at least one special character"] else [])

/-- What one call of `CustomValidator.Validate` leaves behind: the returned error, the
validator after the call (the receiver is a pointer and `regexCompiled` may have been
set), and how many times `regexp.Compile` was called. -/
structure ValidateOutcome where
  err : Option String
  v : CustomValidator
  compiles : Nat

/-- Source: the end of `CustomValidator.Validate`, `if len(errors) > 0 ...`. -/
def CustomValidator.finish (errors : List String) : Option String :=
  if 0 < errors.length then some ("password must contain: " ++ ", ".intercalate errors)
  else none

/-- Source: the append of the pattern check of `CustomValidator.Validate`. -/
def CustomValidator.patternErrors (v : CustomValidator) (re : Regexp) (password : String) :
    List String :=
  if re.MatchString password = false then ["password must match pattern: " ++ v.Regex] else []

/-- Source: `CustomValidator.Validate`. -/
def CustomValidator.Validate (t : UnicodeTables) (rx : RegexpLib) (v : CustomValidator)
    (password : String) : ValidateOutcome :=
  if 0 < v.MinLength ∧ (len password : Int) < v.MinLength then
    ⟨some ("password must be at least " ++ toString v.MinLength ++ " characters long"), v, 0⟩
  else if 0 < v.MaxLength ∧ v.MaxLength < (len password : Int) then
    ⟨some ("password must be at most " ++ toString v.MaxLength ++ " characters long"), v, 0⟩
  else
    let errors := v.classErrors t password
    if v.Regex ≠ "" then
      match v.regexCompiled with
      | some re => ⟨CustomValidator.finish (errors ++ v.patternErrors re password), v, 0⟩
      | none =>
        match rx.Compile v.Regex with
        | .error e => ⟨some ("invalid regex pattern: " ++ e), { v with regexCompiled := none }, 1⟩
        | .ok re =>
          ⟨CustomValidator.finish (errors ++ v.patternErrors re password),
            { v with regexCompiled := some re }, 1⟩
    else ⟨CustomValidator.finish errors, v, 0⟩

/-- A sequence of `Validate` calls on one validator instance: the errors returned, the
validator after the last call and the total number of calls of `regexp.Compile`. -/
def CustomValidator.ValidateAll (t : UnicodeTables) (rx : RegexpLib) (v : CustomValidator) :
    List String → List (Option String) × CustomValidator × Nat
  | [] => ([], v, 0)
  | password :: rest =>
    let o := v.Validate t rx password
    let r := CustomValidator.ValidateAll t rx o.v rest
    (o.err :: r.1, r.2.1, o.compiles + r.2.2)

/-- Source: the interface `PasswordValidator` with its five implementations. -/
inductive PasswordValidator
  | NoValidation
  | Easy
  | Medium
  | Restrict
  | Custom (v : CustomValidator)

/-- Source: the methods `GetName`. -/
def PasswordValidator.GetName : PasswordValidator → String
  | .NoValidation => "no-validation"
  | .Easy => "easy"
  | .Medium => "medium"
  | .Restrict => "restrict"
  | .Custom _ => "custom"

/-- Source: the interface method `Validate`, dispatched on the implementation. -/
def PasswordValidator.Validate (t : UnicodeTables) (rx : RegexpLib) :
    PasswordValidator → String → Option String
  | .NoValidation, password => NoValidationValidator.Validate password
  | .Easy, password => EasyValidator.Validate password
  | .Medium, password => MediumValidator.Validate t password
  | .Restrict, password => RestrictValidator.Validate t password
  | .Custom v, password => (v.Validate t rx password).err

/-- Source: `type PasswordConfig`; a nil `Custom` is `none`. -/
structure PasswordConfig where
  Mode : String
  Custom : Option CustomValidator

/-- Source: `GetPasswordValidator`, as a function of the one field of the configuration
that it reads, `cfg.Password` (nil is `none`). -/
def GetPasswordValidator (password : Option PasswordConfig) : PasswordValidator :=
  match password with
  | none => .NoValidation
  | some pc =>
    if pc.Mode = "no-validation" then .NoValidation
    else if pc.Mode = "easy" then .Easy
    else if pc.Mode = "medium" then .Medium
    else if pc.Mode = "restrict" then .Restrict
    else if pc.Mode = "custom" then
      match pc.Custom with
      | some v => .Custom v
      | none => .NoValidation
    else .NoValidation

/-! ## Predicates used to state the claims -/

/-- The requester presents a valid token whose `user_login` is `L`: the request has a
`jwt` cookie, `parseJWT` accepts its value, and the claim `user_login` is the string `L`. -/
def PresentsValidToken (rt : Runtime) (cfg : Config) (now : Time) (r : Request) (L : String) :
    Prop :=
  ∃ c : Cookie, r.Cookie "jwt" = (some c, none) ∧
    (parseJWT rt cfg now c.Value).2 = none ∧
    (parseJWT rt cfg now c.Value).1.get "user_login" = some (.string L)

/-! ## Fixtures from auth_test.go

The configuration of `TestGenerateJWT`, a clock reading, and requests that carry a token
in the `jwt` cookie. They are used to instantiate the theorems below. -/

/-- Source: the configuration of `TestGenerateJWT`, with a photo directory added. -/
def testConfig : Config := ⟨⟨"test_secret_key_for_jwt", 15⟩, ⟨"test_photos"⟩⟩

/-- A clock reading in November 2023. -/
def testNow : Time := 1700000000000000000

/-- A runtime for the examples: the identity stands in for the three digests and the
signing string is the byte string of the login. Every theorem that is applied at this
runtime is proved for all runtimes. -/
def testRuntime : Runtime := ⟨fun b => b, fun b => b, fun b => b, fun _ _ login => login⟩

/-- A runtime with the SHA-256 of `crypto/sha256` behind HS256, the method with which
`GenerateJWT` signs. The digests behind HS384 and HS512 and the signing string are as in
`testRuntime`. -/
def sha256Runtime : Runtime := ⟨sha256_Sum256, fun b => b, fun b => b, fun _ _ login => login⟩

/-- The token `GenerateJWT(testConfig, userID, login)` issued at `testNow`. -/
def testToken (rt : Runtime) (userID : Int) (login : String) : TokenString :=
  (GenerateJWT rt testConfig testNow userID (bytesOf login)).1

/-- A request with the given method, path, token cookie and undecodable body. -/
def testRequest (method path : String) (token : TokenString) : Request :=
  ⟨method, path, [⟨"jwt", token⟩], ⟨none, none⟩, []⟩

/-- A store with the administrator `admin` (id 1) and the user `bob` (id 2), and two
photos of `bob`, one private and one public. -/
def testWorld : World :=
  ⟨⟨[⟨1, "admin", "hash1", 1, 0⟩, ⟨2, "bob", "hash2", 0, 0⟩],
    [⟨1, "test_photos/bob/a.jpg", 0, 2⟩, ⟨2, "test_photos/bob/b.jpg", 1, 2⟩]⟩,
    ["test_photos/bob/a.jpg", "test_photos/bob/b.jpg"]⟩

/-- A store whose only user, `alice`, has the id 2^53 + 1 and owns one photo. -/
def bigIdWorld : World :=
  ⟨⟨[⟨9007199254740993, "alice", "hash", 0, 0⟩],
    [⟨1, "test_photos/alice/a.jpg", 0, 9007199254740993⟩]⟩, ["test_photos/alice/a.jpg"]⟩

/-- A request to `/api/manage-ban` as `HandleManageBanStatus` receives it from
`AuthMiddlewareAdministration`: the body decodes to `target`, the context carries the
resolved role, login and id of the requester. -/
def testBanRequest (method : String) (target : ManageBanRequest) (isAdmin : Bool)
    (login : String) (id : Int) : Request :=
  ⟨method, "/api/manage-ban", [], ⟨some target, none⟩,
    [(.string "isBanned", .bool false), (.string "isAdmin", .bool isAdmin),
      (ctxKeyLogin, .string login), (ctxKeyID, .int64 id)]⟩

/-- A request as `HandleDeletePhoto` and `HandleTogglePhotoPublic` receive it from
`AuthMiddleware`: the context carries the id and login taken from the token. -/
def testPhotoRequest (method path : String) (body : Option UpdatePublicRequest)
    (login : String) (id : Int) : Request :=
  ⟨method, path, [], ⟨none, body⟩, [(ctxKeyLogin, .string login), (ctxKeyID, .int64 id)]⟩

/-- A store with the users of `testWorld` and the given photo rows and files. -/
def photoWorld (photos : List PhotoRow) (files : List String) : World :=
  ⟨⟨testWorld.db.users, photos⟩, files⟩

/-- A request without cookies and without body. -/
def anonymousRequest (method path : String) : Request := ⟨method, path, [], ⟨none, none⟩, []⟩

/-! ## Fixtures for the password validators -/

/-- The uppercase letters of the Latin-1 supplement: U+00C0 to U+00DE without the
multiplication sign U+00D7. -/
def latin1Upper (c : Char) : Bool :=
  decide (0xC0 ≤ c.toNat ∧ c.toNat ≤ 0xD6) || decide (0xD8 ≤ c.toNat ∧ c.toNat ≤ 0xDE)

/-- The lowercase letters of the Latin-1 supplement: the micro sign U+00B5 and U+00DF to
U+00FF without the division sign U+00F7. -/
def latin1Lower (c : Char) : Bool :=
  decide (c.toNat = 0xB5) || decide (0xDF ≤ c.toNat ∧ c.toNat ≤ 0xF6) ||
    decide (0xF8 ≤ c.toNat ∧ c.toNat ≤ 0xFF)

/-- Unicode tables for the examples: the Latin-1 supplement as Go classifies it (its
letters are the uppercase and lowercase ones and the two ordinal indicators, it has no
decimal digit, its spaces are U+0085 and U+00A0), and no code point beyond U+00FF in any
class. -/
def testUnicode : UnicodeTables :=
  ⟨latin1Upper, latin1Lower, fun _ => false,
    fun c => latin1Upper c || latin1Lower c || decide (c.toNat = 0xAA) || decide (c.toNat = 0xBA),
    fun c => decide (c.toNat = 0x85) || decide (c.toNat = 0xA0)⟩

/-- The compiled form of a pattern without metacharacters: it matches the stretches of
the string that spell the pattern. -/
def literalRegexp (text : String) : Regexp :=
  ⟨fun s i j => decide (i ≤ j ∧ j ≤ s.length) && decide ((s.drop i).take (j - i) = text.toList)⟩

/-- A stand-in for `regexp.Compile` in the examples: the pattern `(` is a syntax error, as
in Go, and every other pattern is read as a literal text. -/
def testRegexpLib : RegexpLib :=
  ⟨fun pattern => if pattern = "(" then .error "missing closing )" else .ok (literalRegexp pattern)⟩

/-- A `CustomValidator` without any constraint. -/
def emptyCustomValidator : CustomValidator := ⟨0, 0, false, false, false, false, "", none⟩

/-! ## Numeric lemmas -/

theorem truncate_intCast (n : Int) : truncate (n : Rat) = n := by
  unfold truncate
  split <;> simp

theorem wrapInt64_of_range (n : Int) (h : -(2 ^ 63) ≤ n ∧ n < 2 ^ 63) : wrapInt64 n = n := by
  unfold wrapInt64
  norm_num at h ⊢
  omega

theorem wrapInt64_le_self (n : Int) (h : -(2 ^ 63) ≤ n) : wrapInt64 n ≤ n := by
  unfold wrapInt64
  norm_num at h ⊢
  omega

theorem toInt64_intCast (n : Int) (h : -(2 ^ 63) ≤ n ∧ n < 2 ^ 63) : toInt64 (n : Rat) = n := by
  unfold toInt64
  simp only [truncate_intCast]
  rw [if_pos h]

/-- The conversion `int64(f)` truncates, or yields -2^63 when the value does not fit. -/
theorem toInt64_cases (f : Rat) :
    -(2 ^ 63) ≤ toInt64 f ∧ (toInt64 f = truncate f ∨ toInt64 f = -(2 ^ 63)) := by
  unfold toInt64
  by_cases h : -(2 ^ 63) ≤ truncate f ∧ truncate f < 2 ^ 63
  · simp only [h, and_self, if_true, true_or, and_true]
  · simp only [h, if_false, le_refl, or_true, and_self]

/-- The largest `int64` is written to the token as a JSON number that reads back as the
`float64` 2^63, which `int64(...)` turns into -2^63. -/
theorem toInt64_two_pow_63 : toInt64 9223372036854775808 = -9223372036854775808 := by
  have h : truncate ((9223372036854775808 : Int) : Rat) = 9223372036854775808 :=
    truncate_intCast _
  unfold toInt64
  norm_num at h ⊢
  rw [h]
  norm_num

theorem time_Unix_whole (sec : Int) (h : -(2 ^ 63) ≤ sec ∧ sec < 2 ^ 63 - 62135596800) :
    time_Unix sec 0 = sec * 1000000000 := by
  have hw : wrapInt64 (sec + 62135596800) = sec + 62135596800 := by
    apply wrapInt64_of_range
    norm_num at h ⊢
    omega
  unfold time_Unix
  norm_num
  rw [hw]
  ring

theorem newNumericDateFromSeconds_intCast (n : Int)
    (h : -(2 ^ 63) ≤ n ∧ n < 2 ^ 63 - 62135596800) :
    newNumericDateFromSeconds (n : Rat) = n := by
  have hr : -(2 ^ 63 : Int) ≤ n ∧ n < 2 ^ 63 := by
    norm_num at h ⊢
    omega
  have h0 : toInt64 (((n : Rat) - ((truncate (n : Rat) : Int) : Rat)) * 1000000000) = 0 := by
    rw [truncate_intCast]
    have : ((n : Rat) - (n : Rat)) * 1000000000 = ((0 : Int) : Rat) := by simp
    rw [this]
    exact toInt64_intCast 0 (by norm_num)
  unfold newNumericDateFromSeconds
  simp only [h0]
  rw [truncate_intCast, toInt64_intCast n hr, time_Unix_whole n h]
  unfold Time.Unix
  omega

theorem range_twelve : List.range 12 = [0, 1, 2, 3, 4, 5, 6, 7, 8, 9, 10, 11] := by decide

theorem float64OfInt64_exact (n : Int) (h : n.natAbs ≤ 2 ^ 53) : float64OfInt64 n = (n : Rat) := by
  have key : ∀ m : Nat, m = n.natAbs →
      (if n < 0 then ((-((m : Nat) : Int) : Int) : Rat) else (((m : Nat) : Int) : Rat)) = (n : Rat) := by
    intro m hm
    split
    · have : (-(m : Int)) = n := by omega
      rw [this]
    · have : (m : Int) = n := by omega
      rw [this]
  rcases Nat.lt_or_eq_of_le h with hlt | heq
  · have h0 : ((List.range 12).find? (fun e => decide (n.natAbs < 2 ^ (53 + e)))).getD 11 = 0 := by
      have hlt' : n.natAbs < 9007199254740992 := by simpa using hlt
      rw [range_twelve]
      simp [List.find?, hlt']
    unfold float64OfInt64
    simp only [h0]
    simp only [pow_zero, Nat.div_one, Nat.mod_one, mul_one, mul_zero]
    simp only [show ¬ (1 < 0) from by decide, show ¬ (0 = 1) from by decide, false_and, or_self,
      if_false]
    exact key _ rfl
  · have h0 : ((List.range 12).find? (fun e => decide (n.natAbs < 2 ^ (53 + e)))).getD 11 = 1 := by
      rw [range_twelve, heq]
      decide
    unfold float64OfInt64
    simp only [h0, heq]
    exact key _ (by rw [heq]; decide)

/-! ## SHA-256 and HMAC on published test vectors -/

/-- The digest of `abc` (FIPS 180-4, appendix B.1). -/
theorem sha256_Sum256_abc : sha256_Sum256 [0x61, 0x62, 0x63] =
    [0xba, 0x78, 0x16, 0xbf, 0x8f, 0x01, 0xcf, 0xea, 0x41, 0x41, 0x40, 0xde, 0x5d, 0xae, 0x22, 0x23,
     0xb0, 0x03, 0x61, 0xa3, 0x96, 0x17, 0x7a, 0x9c, 0xb4, 0x10, 0xff, 0x61, 0xf2, 0x00, 0x15, 0xad] := by
  decide

set_option maxRecDepth 100000 in
/-- HMAC-SHA-256 with the key `Jefe` on `what do ya want for nothing?` (RFC 4231, test
case 2). -/
theorem hmac_Sum_rfc4231 :
    hmac_Sum sha256_Sum256 64 [0x4a, 0x65, 0x66, 0x65]
      [0x77, 0x68, 0x61, 0x74, 0x20, 0x64, 0x6f, 0x20, 0x79, 0x61, 0x20, 0x77, 0x61, 0x6e, 0x74,
       0x20, 0x66, 0x6f, 0x72, 0x20, 0x6e, 0x6f, 0x74, 0x68, 0x69, 0x6e, 0x67, 0x3f] =
    [0x5b, 0xdc, 0xc1, 0x46, 0xbf, 0x60, 0x75, 0x4e, 0x6a, 0x04, 0x24, 0x26, 0x08, 0x95, 0x75, 0xc7,
     0x5a, 0x00, 0x3f, 0x08, 0x9d, 0x27, 0x39, 0x83, 0x9d, 0xec, 0x58, 0xb9, 0x64, 0xec, 0x38, 0x43] := by
  decide

/-! ## UTF-8 -/

/-- Decoding the encoding of a code point gives the code point back. -/
theorem utf8_DecodeRune_encode (n : Nat)
    (hv : n < 0xD800 ∨ (0xDFFF < n ∧ n < 0x110000)) (rest : Bytes) :
    utf8_DecodeRune (utf8EncodeRune n ++ rest) = (n, (utf8EncodeRune n).length) := by
  unfold utf8EncodeRune
  by_cases h1 : n < 0x80
  · simp only [h1, if_true, List.singleton_append, utf8_DecodeRune, List.length_singleton]
  · by_cases h2 : n < 0x800
    · simp only [h1, h2, if_false, if_true, List.cons_append, List.nil_append, utf8_DecodeRune,
        utf8_isCont, List.length_cons, List.length_nil]
      rw [if_neg (by omega), if_pos (by omega), if_pos (by simp; omega)]
      simp only [Prod.mk.injEq, and_true]
      omega
    · by_cases h3 : n < 0x10000
      · simp only [h1, h2, h3, if_false, if_true, List.cons_append, List.nil_append,
          utf8_DecodeRune, utf8_isCont, List.length_cons, List.length_nil]
        rw [if_neg (by omega), if_neg (by omega), if_pos (by omega), if_pos]
        · simp only [Prod.mk.injEq, and_true]
          omega
        · refine ⟨?_, ?_, ?_⟩
          · split <;> omega
          · split <;> omega
          · simp; omega
      · simp only [h1, h2, h3, if_false, List.cons_append, List.nil_append,
          utf8_DecodeRune, utf8_isCont, List.length_cons, List.length_nil]
        rw [if_neg (by omega), if_neg (by omega), if_neg (by omega), if_pos (by omega), if_pos]
        · simp only [Prod.mk.injEq, and_true]
          omega
        · refine ⟨?_, ?_, ?_, ?_⟩
          · split <;> omega
          · split <;> omega
          · simp; omega
          · simp; omega

theorem utf8EncodeRune_length_pos (n : Nat) : 0 < (utf8EncodeRune n).length := by
  unfold utf8EncodeRune
  split_ifs <;> simp

theorem runesFrom_encode (cs : List Char) :
    ∀ fuel, (cs.flatMap (fun c => utf8EncodeRune c.toNat)).length ≤ fuel →
      runesFrom fuel (cs.flatMap (fun c => utf8EncodeRune c.toNat)) = cs := by
  induction cs with
  | nil =>
    intro fuel _
    cases fuel <;> rfl
  | cons c cs ih =>
    intro fuel hfuel
    have hv : c.toNat < 0xD800 ∨ (0xDFFF < c.toNat ∧ c.toNat < 0x110000) := c.valid
    have hd := utf8_DecodeRune_encode c.toNat hv (cs.flatMap (fun c => utf8EncodeRune c.toNat))
    have hpos := utf8EncodeRune_length_pos c.toNat
    simp only [List.flatMap_cons, List.length_append] at hfuel ⊢
    cases fuel with
    | zero => omega
    | succ f =>
      cases he : utf8EncodeRune c.toNat with
      | nil => rw [he] at hpos; simp at hpos
      | cons b0 bs =>
        rw [he] at hd hfuel
        simp only [List.cons_append] at hd ⊢
        simp only [runesFrom, hd]
        rw [Char.ofNat_toNat]
        congr 1
        have : (b0 :: (bs ++ cs.flatMap (fun c => utf8EncodeRune c.toNat))).drop (b0 :: bs).length =
            cs.flatMap (fun c => utf8EncodeRune c.toNat) := by
          rw [← List.cons_append]
          exact List.drop_left _ _
        rw [this]
        apply ih
        simp only [List.length_cons] at hfuel
        omega

/-- Valid UTF-8 comes back from JSON unchanged. -/
theorem json_String_bytesOf (s : String) : json_String (bytesOf s) = s := by
  unfold json_String bytesOf
  rw [runesFrom_encode s.toList _ (le_refl _)]
  cases s
  rfl

theorem bytesOf_injective (s t : String) (h : bytesOf s = bytesOf t) : s = t := by
  rw [← json_String_bytesOf s, ← json_String_bytesOf t, h]

/-! ## Parsing issued tokens -/

theorem Validate_issued (now : Time) (e u : Rat) (login : String) :
    Validate [("exp", .number e), ("user_id", .number u), ("user_login", .string login)] now =
      if e = 0 then [] else
        if now < newNumericDateFromSeconds e * 1000000000 then [] else [.ErrTokenExpired] := by
  have h1 : MapClaims.get [("exp", JSONValue.number e), ("user_id", .number u),
      ("user_login", .string login)] "exp" = some (.number e) := by
    simp [MapClaims.get, List.lookup]
  have h2 : MapClaims.get [("exp", JSONValue.number e), ("user_id", .number u),
      ("user_login", .string login)] "nbf" = none := by
    simp [MapClaims.get, List.lookup]
  unfold Validate verifyExpiresAt verifyNotBefore parseNumericDate
  rw [h1, h2]
  by_cases he : e = 0
  · simp [he]
  · by_cases hn : now < newNumericDateFromSeconds e * 1000000000
    · simp [he, hn]
    · simp [he, hn]

/-- Full description of `parseJWT` on a token issued by `GenerateJWT`, possibly under
another configuration and at another time. -/
theorem parseJWT_GenerateJWT (rt : Runtime) (cfg1 cfg2 : Config) (now now' : Time)
    (userID : Int) (login : Bytes) :
    parseJWT rt cfg2 now' (GenerateJWT rt cfg1 now userID login).1 =
      if hmac_Sum rt.SHA256 64 (bytesOf cfg1.JWT.SecretKey)
            (rt.SigningString (Time.Unix (now + cfg1.JWT.Timeout)) userID login) =
          hmac_Sum rt.SHA256 64 (bytesOf cfg2.JWT.SecretKey)
            (rt.SigningString (Time.Unix (now + cfg1.JWT.Timeout)) userID login) then
        if float64OfInt64 (Time.Unix (now + cfg1.JWT.Timeout)) = 0 ∨
            now' < newNumericDateFromSeconds
              (float64OfInt64 (Time.Unix (now + cfg1.JWT.Timeout))) * 1000000000 then
          ([("exp", .number (float64OfInt64 (Time.Unix (now + cfg1.JWT.Timeout)))),
            ("user_id", .number (float64OfInt64 userID)),
            ("user_login", .string (json_String login))], none)
        else ([], some (.ErrTokenInvalidClaims [.ErrTokenExpired]))
      else ([], some .ErrTokenSignatureInvalid) := by
  have halg : List.lookup "alg" [("alg", JSONValue.string "HS256"), ("typ", .string "JWT")] =
      some (.string "HS256") := by simp [List.lookup]
  have hm : GetSigningMethod "HS256" = some .HS256 := by decide
  unfold parseJWT GenerateJWT jwt_Parse
  simp only [halg, hm, SigningMethod.Verify, SigningMethod.Sign, Validate_issued]
  by_cases hs : hmac_Sum rt.SHA256 64 (bytesOf cfg1.JWT.SecretKey)
            (rt.SigningString (Time.Unix (now + cfg1.JWT.Timeout)) userID login) =
          hmac_Sum rt.SHA256 64 (bytesOf cfg2.JWT.SecretKey)
            (rt.SigningString (Time.Unix (now + cfg1.JWT.Timeout)) userID login)
  · by_cases he : float64OfInt64 (Time.Unix (now + cfg1.JWT.Timeout)) = 0
    · simp [hs, he]
    · by_cases hn : now' < newNumericDateFromSeconds
              (float64OfInt64 (Time.Unix (now + cfg1.JWT.Timeout))) * 1000000000
      · simp [hs, he, hn]
      · simp [hs, he, hn]
  · simp [hs]

theorem float64OfInt64_above_2_53 :
    float64OfInt64 9007199254740993 = 9007199254740992 := by
  unfold float64OfInt64
  rw [range_twelve]
  norm_num [List.find?]

theorem float64OfInt64_maxInt64 :
    float64OfInt64 9223372036854775807 = 9223372036854775808 := by
  unfold float64OfInt64
  rw [range_twelve]
  norm_num [List.find?]

theorem testRequest_Cookie (method path : String) (token : TokenString) :
    (testRequest method path token).Cookie "jwt" = (some ⟨"jwt", token⟩, none) := by
  simp [testRequest, Request.Cookie, List.find?]

/-- The token issued to a user with a small id is accepted at the time of issuance and
carries the issued claims. -/
theorem parseJWT_testToken (rt : Runtime) (userID : Int) (login : String)
    (h : userID.natAbs ≤ 2 ^ 53) :
    parseJWT rt testConfig testNow (testToken rt userID login) =
      ([("exp", .number ((1700000900 : Int) : Rat)), ("user_id", .number (userID : Rat)),
        ("user_login", .string login)], none) := by
  have hT : testConfig.JWT.Timeout = 900000000000 := by decide
  have hU : Time.Unix (testNow + 900000000000) = 1700000900 := by decide
  have hE : float64OfInt64 1700000900 = ((1700000900 : Int) : Rat) :=
    float64OfInt64_exact _ (by decide)
  have hD : newNumericDateFromSeconds ((1700000900 : Int) : Rat) = 1700000900 :=
    newNumericDateFromSeconds_intCast _ (by norm_num)
  have hlt : testNow < (1700000900 : Int) * 1000000000 := by decide
  unfold testToken
  rw [parseJWT_GenerateJWT]
  simp only [hT, hU, hE, hD, float64OfInt64_exact userID h, hlt, or_true, if_true,
    json_String_bytesOf]

/-! ## parseJWT on arbitrary token strings -/

theorem parseJWT_malformed (rt : Runtime) (cfg : Config) (now : Time) :
    parseJWT rt cfg now .malformed = ([], some .ErrTokenMalformed) := rfl

/-- Full description of `parseJWT` on a token string with three decodable segments. -/
theorem parseJWT_segments (rt : Runtime) (cfg : Config) (now : Time)
    (header : List (String × JSONValue)) (claims : MapClaims) (ss sig : Bytes) :
    parseJWT rt cfg now (.segments header claims ss sig) =
      match List.lookup "alg" header with
      | some (.string alg) =>
        match GetSigningMethod alg with
        | none => ([], some .ErrTokenUnverifiable)
        | some m =>
          if m.Verify rt ss sig (bytesOf cfg.JWT.SecretKey) then
            match Validate claims now with
            | [] => (claims, none)
            | e :: errs => ([], some (.ErrTokenInvalidClaims (e :: errs)))
          else ([], some .ErrTokenSignatureInvalid)
      | _ => ([], some .ErrTokenUnverifiable) := by
  unfold parseJWT jwt_Parse
  cases hl : List.lookup "alg" header with
  | none => simp [hl]
  | some v =>
    cases v with
    | string alg =>
      cases hg : GetSigningMethod alg with
      | none => simp [hl, hg]
      | some m =>
        cases hv : m.Verify rt ss sig (bytesOf cfg.JWT.SecretKey) with
        | false => simp [hl, hg, hv]
        | true =>
          cases hval : Validate claims now with
          | nil => simp [hl, hg, hv, hval]
          | cons e errs => simp [hl, hg, hv, hval]
    | _ => simp [hl]

theorem truncate_le_of_le (x : Rat) (z : Int) (h : x ≤ z) : truncate x ≤ z := by
  unfold truncate
  split
  · exact le_trans (Int.floor_le_ceil x) (Int.ceil_le.2 h)
  · exact Int.ceil_le.2 h

/-- The fractional part that `math.Modf` returns lies strictly between -1 and 1. -/
theorem truncate_frac_bounds (f : Rat) :
    -1 < f - ((truncate f : Int) : Rat) ∧ f - ((truncate f : Int) : Rat) < 1 := by
  unfold truncate
  split
  · exact ⟨by linarith [Int.floor_le f], by linarith [Int.lt_floor_add_one f]⟩
  · exact ⟨by linarith [Int.ceil_lt_add_one f], by linarith [Int.le_ceil f]⟩

theorem truncate_abs_lt (x : Rat) (z : Int) (h1 : -(z : Rat) < x) (h2 : x < z) :
    -z < truncate x ∧ truncate x < z := by
  have hz : (0 : Rat) < z := by linarith
  have hz' : 0 < z := by exact_mod_cast hz
  unfold truncate
  split
  · rename_i h0
    refine ⟨?_, Int.floor_lt.2 h2⟩
    have := Int.floor_nonneg.2 h0
    omega
  · rename_i h0
    refine ⟨?_, ?_⟩
    · apply Int.lt_ceil.2
      push_cast
      exact h1
    · have : ⌈x⌉ ≤ 0 := Int.ceil_le.2 (by push_cast; linarith)
      omega

/-- A numeric date that lies before the clock reading is not after it once converted,
for a clock that reads no instant before the `UnixNano` range. -/
theorem newNumericDateFromSeconds_le (f : Rat) (now : Int) (hclock : -(2 ^ 63) ≤ now)
    (h : f * 1000000000 < (now : Rat)) :
    newNumericDateFromSeconds f * 1000000000 ≤ now := by
  have h1 : truncate ((f - ((truncate f : Int) : Rat)) * 1000000000) ≤
      now - truncate f * 1000000000 := by
    apply truncate_le_of_le
    push_cast
    linarith
  have hb := truncate_frac_bounds f
  have h2 := truncate_abs_lt ((f - ((truncate f : Int) : Rat)) * 1000000000) 1000000000
    (by push_cast; linarith [hb.1]) (by push_cast; linarith [hb.2])
  have h3 : toInt64 ((f - ((truncate f : Int) : Rat)) * 1000000000) =
      truncate ((f - ((truncate f : Int) : Rat)) * 1000000000) := by
    unfold toInt64
    rw [if_pos]
    norm_num
    omega
  have h4 := toInt64_cases ((truncate f : Int) : Rat)
  rw [truncate_intCast] at h4
  have h5 := wrapInt64_le_self (toInt64 ((truncate f : Int) : Rat) +
    truncate ((f - ((truncate f : Int) : Rat)) * 1000000000) / 1000000000 + 62135596800)
    (by have := h4.1; norm_num at this ⊢; omega)
  unfold newNumericDateFromSeconds time_Unix Time.Unix
  simp only [h3]
  norm_num at hclock h4
  omega

/-- A number that does not fit an `int64` becomes the second -2^63: so do the `exp`
claims 1e19 and -2^63 - 2048. -/
theorem newNumericDateFromSeconds_out_of_range (n : Int)
    (h : n < -(2 ^ 63) ∨ 2 ^ 63 ≤ n) :
    newNumericDateFromSeconds (n : Rat) = -(2 ^ 63) := by
  have h0 : toInt64 (((n : Rat) - ((truncate (n : Rat) : Int) : Rat)) * 1000000000) = 0 := by
    rw [truncate_intCast]
    have : ((n : Rat) - (n : Rat)) * 1000000000 = ((0 : Int) : Rat) := by simp
    rw [this]
    exact toInt64_intCast 0 (by norm_num)
  have h1 : toInt64 (n : Rat) = -(2 ^ 63) := by
    unfold toInt64
    simp only [truncate_intCast]
    rw [if_neg]
    norm_num at h ⊢
    omega
  unfold newNumericDateFromSeconds
  simp only [h0]
  rw [truncate_intCast, h1, time_Unix_whole _ (by norm_num)]
  unfold Time.Unix
  norm_num

theorem Validate_exp_only (now : Time) (f : Rat) (hne : f ≠ 0) :
    Validate [("exp", .number f)] now =
      if now < newNumericDateFromSeconds f * 1000000000 then [] else [.ErrTokenExpired] := by
  have h1 : MapClaims.get [("exp", JSONValue.number f)] "exp" = some (.number f) := by
    simp [MapClaims.get, List.lookup]
  have h2 : MapClaims.get [("exp", JSONValue.number f)] "nbf" = none := by
    simp [MapClaims.get, List.lookup]
  unfold Validate verifyExpiresAt verifyNotBefore parseNumericDate
  rw [h1, h2]
  by_cases hn : now < newNumericDateFromSeconds f * 1000000000
  · simp [hne, hn]
  · simp [hne, hn]

/-- The expiry check needs a clock that does not read an instant before the second
-2^63: the `exp` claim -2^63 - 2048 lies before the clock reading of second -2^63 - 1000,
but the date made of it is the second -2^63, which lies after that reading. -/
theorem Validate_clock_before_range :
    ((-9223372036854777856 : Int) : Rat) * 1000000000 <
      (((-9223372036854776808000000000 : Int)) : Rat) ∧
    Validate [("exp", .number ((-9223372036854777856 : Int) : Rat))]
      (-9223372036854776808000000000) = [] := by
  have hd := newNumericDateFromSeconds_out_of_range (-9223372036854777856) (by norm_num)
  refine ⟨by norm_num, ?_⟩
  have hne : ((-9223372036854777856 : Int) : Rat) ≠ 0 := by norm_num
  rw [Validate_exp_only _ _ hne, hd]
  norm_num

theorem Validate_expired (claims : MapClaims) (now : Int) (f : Rat)
    (hclock : -(2 ^ 63) ≤ now)
    (hexp : claims.get "exp" = some (.number f)) (hne : f ≠ 0)
    (hpast : f * 1000000000 < (now : Rat)) :
    ClaimError.ErrTokenExpired ∈ Validate claims now := by
  have hle := newNumericDateFromSeconds_le f now hclock hpast
  have hnot : ¬ (now < newNumericDateFromSeconds f * 1000000000) := by omega
  unfold Validate verifyExpiresAt parseNumericDate
  rw [hexp]
  simp [hne, hnot]

/-! ## Middleware lemmas -/

theorem Request.Cookie_cases (r : Request) (name : String) :
    (∃ c, r.Cookie name = (some c, none)) ∨ r.Cookie name = (none, some .ErrNoCookie) := by
  unfold Request.Cookie
  cases r.Cookies.find? (fun c => decide (c.Name = name)) with
  | none => exact Or.inr rfl
  | some c => exact Or.inl ⟨c, rfl⟩

theorem AuthMiddleware_forward (rt : Runtime) (cfg : Config) (now : Time) (next : HandlerFunc)
    (r : Request) (w : World) (c : Cookie) (f : Rat) (l : String)
    (hc : r.Cookie "jwt" = (some c, none))
    (hp : (parseJWT rt cfg now c.Value).2 = none)
    (hid : (parseJWT rt cfg now c.Value).1.get "user_id" = some (.number f))
    (hlogin : (parseJWT rt cfg now c.Value).1.get "user_login" = some (.string l)) :
    AuthMiddleware rt cfg now next r w =
      next (r.WithContext ((r.ctx.WithValue ctxKeyID (.int64 (toInt64 f))).WithValue
        ctxKeyLogin (.string l))) w := by
  unfold AuthMiddleware getJWTFromCookie
  rcases hpj : parseJWT rt cfg now c.Value with ⟨claims, err⟩
  rw [hpj] at hp hid hlogin
  simp only at hp hid hlogin
  subst hp
  simp only [hc, hpj, hid, hlogin]

theorem AuthMiddleware_reject (rt : Runtime) (cfg : Config) (now : Time) (next : HandlerFunc)
    (r : Request) (w : World)
    (h : ¬ ∃ (c : Cookie) (f : Rat) (l : String), r.Cookie "jwt" = (some c, none) ∧
      (parseJWT rt cfg now c.Value).2 = none ∧
      (parseJWT rt cfg now c.Value).1.get "user_id" = some (.number f) ∧
      (parseJWT rt cfg now c.Value).1.get "user_login" = some (.string l)) :
    AuthMiddleware rt cfg now next r w = (http_Error "Unauthorized" 401, w) := by
  unfold AuthMiddleware getJWTFromCookie
  rcases Request.Cookie_cases r "jwt" with ⟨c, hc⟩ | hc
  · rcases hpj : parseJWT rt cfg now c.Value with ⟨claims, err⟩
    simp only [hc, hpj]
    cases err with
    | some e => rfl
    | none =>
      cases hid : claims.get "user_id" with
      | none => simp [hid]
      | some v =>
        cases v with
        | number f =>
          cases hl : claims.get "user_login" with
          | none => simp [hid, hl]
          | some u =>
            cases u with
            | string l =>
              exact absurd ⟨c, f, l, hc, by rw [hpj], by rw [hpj]; exact hid,
                by rw [hpj]; exact hl⟩ h
            | _ => simp [hid, hl]
        | _ => simp [hid]
  · simp only [hc]

/-! ## C1 -/

theorem parseJWT_bigIdToken (rt : Runtime) :
    parseJWT rt testConfig testNow (testToken rt 9007199254740993 "alice") =
      ([("exp", .number ((1700000900 : Int) : Rat)), ("user_id", .number 9007199254740992),
        ("user_login", .string "alice")], none) := by
  have hT : testConfig.JWT.Timeout = 900000000000 := by decide
  have hU : Time.Unix (testNow + 900000000000) = 1700000900 := by decide
  have hE : float64OfInt64 1700000900 = ((1700000900 : Int) : Rat) :=
    float64OfInt64_exact _ (by decide)
  have hD : newNumericDateFromSeconds ((1700000900 : Int) : Rat) = 1700000900 :=
    newNumericDateFromSeconds_intCast _ (by norm_num)
  have hlt : testNow < (1700000900 : Int) * 1000000000 := by decide
  unfold testToken
  rw [parseJWT_GenerateJWT]
  simp only [hT, hU, hE, hD, float64OfInt64_above_2_53, hlt, or_true, if_true,
    json_String_bytesOf]

/-- The token issued for a login that is not valid UTF-8, the two bytes FF FE, is
accepted at the time of issuance and carries the login U+FFFD U+FFFD. -/
theorem parseJWT_invalidLoginToken (rt : Runtime) :
    parseJWT rt testConfig testNow (GenerateJWT rt testConfig testNow 123 [0xFF, 0xFE]).1 =
      ([("exp", .number ((1700000900 : Int) : Rat)), ("user_id", .number ((123 : Int) : Rat)),
        ("user_login", .string "\uFFFD\uFFFD")], none) := by
  have hT : testConfig.JWT.Timeout = 900000000000 := by decide
  have hU : Time.Unix (testNow + 900000000000) = 1700000900 := by decide
  have hE : float64OfInt64 1700000900 = ((1700000900 : Int) : Rat) :=
    float64OfInt64_exact _ (by decide)
  have hI : float64OfInt64 123 = ((123 : Int) : Rat) := float64OfInt64_exact _ (by decide)
  have hD : newNumericDateFromSeconds ((1700000900 : Int) : Rat) = 1700000900 :=
    newNumericDateFromSeconds_intCast _ (by norm_num)
  have hlt : testNow < (1700000900 : Int) * 1000000000 := by decide
  have hL : json_String [0xFF, 0xFE] = "\uFFFD\uFFFD" := by decide
  rw [parseJWT_GenerateJWT]
  simp only [hT, hU, hE, hI, hD, hL, hlt, or_true, if_true]

/-- C1, the claim as stated fails, for the user id and for the login.
The token issued for the `int64` user id 2^53 + 1 = 9007199254740993 is accepted at the
time of issuance, but its `user_id` claim reads back as the `float64` 9007199254740992,
which `int64(...)` leaves as it is; behind `AuthMiddleware` the holder of that token, who
owns the photo `a.jpg` under the id 2^53 + 1, is therefore refused the deletion of her own
photo. The token issued for the login made of the two bytes FF FE, which is a Go string
but not valid UTF-8, is accepted as well, and its `user_login` claim reads back as
U+FFFD U+FFFD, whose bytes are not FF FE. -/
theorem C1_roundtrip_fails :
    (parseJWT testRuntime testConfig testNow
      (testToken testRuntime 9007199254740993 "alice")).2 = none ∧
    (parseJWT testRuntime testConfig testNow
      (testToken testRuntime 9007199254740993 "alice")).1.get "user_id"
        = some (.number 9007199254740992) ∧
    toInt64 9007199254740992 = 9007199254740992 ∧
    (9007199254740992 : Int) ≠ 9007199254740993 ∧
    routeDeletePhoto testRuntime testConfig testNow
        (testRequest "DELETE" "/api/delete-photo/alice/a.jpg"
          (testToken testRuntime 9007199254740993 "alice")) bigIdWorld =
      (http_Error "Forbidden" 403, bigIdWorld) ∧
    (parseJWT testRuntime testConfig testNow
      (GenerateJWT testRuntime testConfig testNow 123 [0xFF, 0xFE]).1).2 = none ∧
    (parseJWT testRuntime testConfig testNow
      (GenerateJWT testRuntime testConfig testNow 123 [0xFF, 0xFE]).1).1.get "user_login"
        = some (.string "\uFFFD\uFFFD") ∧
    bytesOf "\uFFFD\uFFFD" ≠ [0xFF, 0xFE] := by
  have hP := parseJWT_bigIdToken testRuntime
  have hQ := parseJWT_invalidLoginToken testRuntime
  have hI : toInt64 9007199254740992 = 9007199254740992 := by
    simpa using toInt64_intCast 9007199254740992 (by norm_num)
  refine ⟨by rw [hP], by rw [hP]; simp [MapClaims.get, List.lookup], hI, by decide, ?_,
    by rw [hQ], by rw [hQ]; simp [MapClaims.get, List.lookup], by decide⟩
  unfold routeDeletePhoto
  rw [AuthMiddleware_forward testRuntime testConfig testNow (HandleDeletePhoto testConfig) _
    bigIdWorld ⟨"jwt", testToken testRuntime 9007199254740993 "alice"⟩ 9007199254740992 "alice"
    (testRequest_Cookie _ _ _) (by rw [hP]) (by rw [hP]; simp [MapClaims.get, List.lookup])
    (by rw [hP]; simp [MapClaims.get, List.lookup]), hI]
  decide

theorem Timeout_of_minutes (j : JWTConfig)
    (h : 0 < j.TimeoutMinutes ∧ j.TimeoutMinutes ≤ 153722867) :
    j.Timeout = j.TimeoutMinutes * 60000000000 := by
  unfold JWTConfig.Timeout time_Minute
  apply wrapInt64_of_range
  norm_num
  omega

/-- The `time.Duration` product of `Timeout` wraps for `TimeoutMinutes = 153722868`
(about 292 years): the timeout is negative and the token is expired when it is issued. -/
theorem GenerateJWT_timeout_wraps (rt : Runtime) :
    JWTConfig.Timeout ⟨"k", 153722868⟩ = -9223371993709551616 ∧
    parseJWT rt ⟨⟨"k", 153722868⟩, ⟨"photos"⟩⟩ testNow
      (GenerateJWT rt ⟨⟨"k", 153722868⟩, ⟨"photos"⟩⟩ testNow 123 (bytesOf "testuser")).1 =
      ([], some (.ErrTokenInvalidClaims [.ErrTokenExpired])) := by
  have hT : JWTConfig.Timeout ⟨"k", 153722868⟩ = -9223371993709551616 := by decide
  have hU : Time.Unix (testNow + -9223371993709551616) = -7523371994 := by decide
  have hE : float64OfInt64 (-7523371994) = ((-7523371994 : Int) : Rat) :=
    float64OfInt64_exact _ (by decide)
  have hD : newNumericDateFromSeconds ((-7523371994 : Int) : Rat) = -7523371994 :=
    newNumericDateFromSeconds_intCast _ (by norm_num)
  have hlt : ¬ (testNow < (-7523371994 : Int) * 1000000000) := by decide
  have hne : ((-7523371994 : Int) : Rat) ≠ 0 := by norm_num
  refine ⟨hT, ?_⟩
  rw [parseJWT_GenerateJWT]
  simp only [hT, hU, hE, hD, hlt, hne, or_self, if_true, if_false]

/-- C1, amended: for every user id of absolute value at most 2^53, every login that is
valid UTF-8 (a text `login`, handed to `GenerateJWT` as its UTF-8 bytes), every
configuration whose `TimeoutMinutes` is positive and small enough for `time.Duration`
not to wrap (at most 153722867), and every clock reading in the `UnixNano` range, the
token returned by `GenerateJWT` comes without error, is accepted by `parseJWT` at any time
from issuance up to 59 seconds later, and `AuthMiddleware` hands the wrapped handler
exactly the issued user id and login. -/
theorem C1_roundtrip (rt : Runtime) (cfg : Config) (now now' : Int) (userID : Int)
    (login : String)
    (hid : -(2 ^ 53) ≤ userID ∧ userID ≤ 2 ^ 53)
    (hcfg : 0 < cfg.JWT.TimeoutMinutes ∧ cfg.JWT.TimeoutMinutes ≤ 153722867)
    (hclock : -(2 ^ 63) ≤ now ∧ now < 2 ^ 63)
    (hsoon : now ≤ now' ∧ now' ≤ now + 59000000000) :
    (GenerateJWT rt cfg now userID (bytesOf login)).2 = none ∧
    (parseJWT rt cfg now' (GenerateJWT rt cfg now userID (bytesOf login)).1).2 = none ∧
    ∀ (next : HandlerFunc) (r : Request) (w : World),
      getJWTFromCookie r = ((GenerateJWT rt cfg now userID (bytesOf login)).1, none) →
      AuthMiddleware rt cfg now' next r w =
        next (r.WithContext ((r.ctx.WithValue ctxKeyID (.int64 userID)).WithValue
          ctxKeyLogin (.string login))) w := by
  have hT := Timeout_of_minutes cfg.JWT hcfg
  have e1 : (2 : Int) ^ 63 = 9223372036854775808 := by norm_num
  have e2 : (2 : Int) ^ 53 = 9007199254740992 := by norm_num
  have hU : -(2 ^ 53 : Int) ≤ Time.Unix (now + cfg.JWT.Timeout) ∧
      Time.Unix (now + cfg.JWT.Timeout) ≤ 2 ^ 53 ∧
      now' < Time.Unix (now + cfg.JWT.Timeout) * 1000000000 := by
    rw [hT]
    unfold Time.Unix
    obtain ⟨hc1, hc2⟩ := hclock
    obtain ⟨hs1, hs2⟩ := hsoon
    obtain ⟨hm1, hm2⟩ := hcfg
    rw [e1] at hc1 hc2
    rw [e2]
    omega
  have hE : float64OfInt64 (Time.Unix (now + cfg.JWT.Timeout)) =
      ((Time.Unix (now + cfg.JWT.Timeout) : Int) : Rat) :=
    float64OfInt64_exact _ (by have := hU.1; have := hU.2.1; norm_num at *; omega)
  have hI : float64OfInt64 userID = ((userID : Int) : Rat) :=
    float64OfInt64_exact _ (by norm_num at *; omega)
  have hD : newNumericDateFromSeconds ((Time.Unix (now + cfg.JWT.Timeout) : Int) : Rat) =
      Time.Unix (now + cfg.JWT.Timeout) :=
    newNumericDateFromSeconds_intCast _
      (by have := hU.1; have := hU.2.1; rw [e2] at *; rw [e1]; omega)
  have hR : toInt64 ((userID : Int) : Rat) = userID :=
    toInt64_intCast userID (by rw [e2] at hid; rw [e1]; omega)
  have hP := parseJWT_GenerateJWT rt cfg cfg now now' userID (bytesOf login)
  simp only [hE, hI, hD, hU.2.2, or_true, if_true, json_String_bytesOf] at hP
  refine ⟨rfl, by rw [hP], ?_⟩
  intro next r w hc
  unfold AuthMiddleware
  simp only [hc, hP]
  simp [MapClaims.get, List.lookup, hR]

/-- C1, witness: the amended round trip applies to user 123 `testuser` with the
configuration of `TestGenerateJWT`, parsed one second after issuance. -/
theorem C1_roundtrip_witness :
    (GenerateJWT testRuntime testConfig 1700000000000000000 123 (bytesOf "testuser")).2 = none ∧
    (parseJWT testRuntime testConfig 1700000001000000000
      (GenerateJWT testRuntime testConfig 1700000000000000000 123
        (bytesOf "testuser")).1).2 = none ∧
    ∀ (next : HandlerFunc) (r : Request) (w : World),
      getJWTFromCookie r =
        ((GenerateJWT testRuntime testConfig 1700000000000000000 123
          (bytesOf "testuser")).1, none) →
      AuthMiddleware testRuntime testConfig 1700000001000000000 next r w =
        next (r.WithContext ((r.ctx.WithValue ctxKeyID (.int64 123)).WithValue
          ctxKeyLogin (.string "testuser"))) w :=
  C1_roundtrip testRuntime testConfig 1700000000000000000 1700000001000000000 123 "testuser"
    (by decide) (by decide) (by decide) (by decide)

/-! ## C2 -/

/-- C2, the claim as stated fails: golang-jwt treats a numeric `exp` of 0 as no
expiry date at all, so a correctly signed token whose `exp` claim is 0 (the epoch, earlier
than the clock reading `testNow` of 2023) is accepted by `parseJWT`: claims and no error. -/
theorem C2_exp_zero_accepted :
    ((0 : Rat) * 1000000000 < ((testNow : Int) : Rat)) ∧
    SigningMethod.Sign testRuntime .HS256 [] (bytesOf testConfig.JWT.SecretKey) =
      some (hmac_Sum testRuntime.SHA256 64 (bytesOf testConfig.JWT.SecretKey) []) ∧
    parseJWT testRuntime testConfig testNow
      (.segments [("alg", .string "HS256"), ("typ", .string "JWT")] [("exp", .number 0)] []
        (hmac_Sum testRuntime.SHA256 64 (bytesOf testConfig.JWT.SecretKey) [])) =
      ([("exp", .number 0)], none) := by
  refine ⟨by norm_num [testNow], rfl, ?_⟩
  rw [parseJWT_segments]
  have hm : GetSigningMethod "HS256" = some .HS256 := by decide
  have hv : Validate [("exp", JSONValue.number 0)] testNow = [] := by
    simp [Validate, verifyExpiresAt, verifyNotBefore, parseNumericDate, MapClaims.get,
      List.lookup]
  simp [List.lookup, hm, SigningMethod.Verify, SigningMethod.Sign, hv]

/-- C2, amended: for every token string that carries a correct signature under the
secret of `cfg` (its `alg` names a signing method whose tag over the signing string under
that secret is the token's signature) and whose `exp` claim is a number other than 0 that
lies before the current time, `parseJWT` returns no claims and an invalid-claims error
that contains `ErrTokenExpired`. The clock reads an instant of the `UnixNano` range or
later (from the year 1677 on); the `exp` claim is any number, also one that does not fit
an `int64`, which `int64(...)` turns into -2^63. -/
theorem C2_expired_rejected (rt : Runtime) (cfg : Config) (now : Int)
    (header : List (String × JSONValue)) (claims : MapClaims) (ss sig : Bytes)
    (alg : String) (m : SigningMethod) (f : Rat)
    (hclock : -(2 ^ 63) ≤ now)
    (halg : List.lookup "alg" header = some (.string alg))
    (hm : GetSigningMethod alg = some m)
    (hsig : m.Sign rt ss (bytesOf cfg.JWT.SecretKey) = some sig)
    (hexp : claims.get "exp" = some (.number f))
    (hne : f ≠ 0)
    (hpast : f * 1000000000 < (now : Rat)) :
    ∃ errs, ClaimError.ErrTokenExpired ∈ errs ∧
      parseJWT rt cfg now (.segments header claims ss sig) =
        ([], some (.ErrTokenInvalidClaims errs)) := by
  have hmem := Validate_expired claims now f hclock hexp hne hpast
  have hv : m.Verify rt ss sig (bytesOf cfg.JWT.SecretKey) = true := by
    simp [SigningMethod.Verify, hsig]
  rw [parseJWT_segments]
  simp only [halg, hm, hv, if_true]
  cases hval : Validate claims now with
  | nil => rw [hval] at hmem; simp at hmem
  | cons e errs => exact ⟨e :: errs, by rw [← hval]; exact hmem, rfl⟩

/-- C2, witness: a correctly signed HS256 token whose `exp` is one second after the
epoch is rejected as expired. -/
theorem C2_expired_rejected_witness :
    ∃ errs, ClaimError.ErrTokenExpired ∈ errs ∧
      parseJWT testRuntime testConfig (1700000000000000000 : Int)
        (.segments [("alg", .string "HS256")] [("exp", .number 1)] []
          (hmac_Sum testRuntime.SHA256 64 (bytesOf testConfig.JWT.SecretKey) [])) =
        ([], some (.ErrTokenInvalidClaims errs)) :=
  C2_expired_rejected testRuntime testConfig 1700000000000000000
    [("alg", .string "HS256")] [("exp", .number 1)] [] _ "HS256" .HS256 1
    (by norm_num) (by simp [List.lookup]) (by decide) rfl (by simp [MapClaims.get, List.lookup])
    (by norm_num) (by norm_num)

/-! ## C3 -/

/-- HMAC pads a short key with zero bytes, so a key and the same key followed by a zero
byte give the same key block and the same tag on every message, whatever the digest is. -/
theorem hmac_Sum_trailing_zero (sum : Bytes → Bytes) (msg : Bytes) :
    hmac_Sum sum 64 (bytesOf "secret") msg = hmac_Sum sum 64 (bytesOf "secret\x00") msg := by
  have hb : hmac_block sum 64 (bytesOf "secret") = hmac_block sum 64 (bytesOf "secret\x00") := by
    have h1 : bytesOf "secret" = [115, 101, 99, 114, 101, 116] := by decide
    have h2 : bytesOf "secret\x00" = [115, 101, 99, 114, 101, 116, 0] := by decide
    unfold hmac_block
    rw [h1, h2]
    simp only [List.length_cons, List.length_nil]
    simp only [show ¬ (64 < 0 + 1 + 1 + 1 + 1 + 1 + 1) from by decide,
      show ¬ (64 < 0 + 1 + 1 + 1 + 1 + 1 + 1 + 1) from by decide, if_false]
    decide
  unfold hmac_Sum hmac_outer
  rw [hb]

theorem hmac_block_length (sum : Bytes → Bytes) (key : Bytes) :
    (hmac_block sum 64 key).length = 64 := by
  unfold hmac_block
  simp only [List.length_take, List.length_append, List.length_replicate]
  omega

theorem map_xor_injective (c : Nat) (l1 l2 : Bytes)
    (h : l1.map (fun b => Nat.xor b c) = l2.map (fun b => Nat.xor b c)) : l1 = l2 := by
  have hc : ∀ l : Bytes, (l.map (fun b => Nat.xor b c)).map (fun b => Nat.xor b c) = l := by
    intro l
    rw [List.map_map]
    have : ((fun b => Nat.xor b c) ∘ fun b => Nat.xor b c) = id := by
      funext b
      exact Nat.xor_cancel_right c b
    rw [this, List.map_id]
  rw [← hc l1, ← hc l2, h]

/-- The key block is the front of the outer message, so two outer messages that are equal
come from the same key block. -/
theorem hmac_block_of_outer (sum : Bytes → Bytes) (k1 k2 msg : Bytes)
    (h : hmac_outer sum 64 k1 msg = hmac_outer sum 64 k2 msg) :
    hmac_block sum 64 k1 = hmac_block sum 64 k2 := by
  unfold hmac_outer at h
  have h1 := congrArg (List.take 64) h
  have l1 : ((hmac_block sum 64 k1).map (fun b => Nat.xor b 0x5c)).length = 64 := by
    rw [List.length_map, hmac_block_length]
  have l2 : ((hmac_block sum 64 k2).map (fun b => Nat.xor b 0x5c)).length = 64 := by
    rw [List.length_map, hmac_block_length]
  rw [List.take_left' l1, List.take_left' l2] at h1
  exact map_xor_injective _ _ _ h1

/-- The tags of two keys on a message agree exactly when the key blocks agree, for a
digest that does not collide on the two outer messages. -/
theorem hmac_Sum_eq_iff (sum : Bytes → Bytes) (k1 k2 msg : Bytes)
    (hcoll : sum (hmac_outer sum 64 k1 msg) = sum (hmac_outer sum 64 k2 msg) →
      hmac_outer sum 64 k1 msg = hmac_outer sum 64 k2 msg) :
    hmac_Sum sum 64 k1 msg = hmac_Sum sum 64 k2 msg ↔
      hmac_block sum 64 k1 = hmac_block sum 64 k2 := by
  constructor
  · intro h
    exact hmac_block_of_outer sum k1 k2 msg (hcoll h)
  · intro h
    unfold hmac_Sum hmac_outer
    rw [h]

theorem replicate_zero_getLast (n : Nat) (c k : Bytes) (hc : c ≠ [])
    (h : ∃ r, List.replicate n 0 = c ++ r) : (k ++ c).getLast? = some 0 := by
  obtain ⟨r, hr⟩ := h
  have hmem : ∀ x ∈ c, x = 0 := by
    intro x hx
    have : x ∈ List.replicate n 0 := by rw [hr]; exact List.mem_append_left _ hx
    exact (List.mem_replicate.1 this).2
  rw [List.getLast?_append_of_ne_nil _ hc]
  rw [List.getLast?_eq_getLast _ hc]
  rw [hmem _ (List.getLast_mem hc)]

/-- Two keys of at most 64 bytes that do not end in a zero byte have the same key block
only if they are equal. -/
theorem hmac_block_eq_of_short (sum : Bytes → Bytes) (k1 k2 : Bytes)
    (h1 : k1.length ≤ 64) (h2 : k2.length ≤ 64)
    (z1 : k1.getLast? ≠ some 0) (z2 : k2.getLast? ≠ some 0)
    (h : hmac_block sum 64 k1 = hmac_block sum 64 k2) : k1 = k2 := by
  unfold hmac_block at h
  simp only [show ¬ 64 < k1.length from by omega, show ¬ 64 < k2.length from by omega,
    if_false] at h
  rw [List.take_of_length_le (by simp; omega), List.take_of_length_le (by simp; omega)] at h
  rcases List.append_eq_append_iff.1 h with ⟨c, hk, hr⟩ | ⟨c, hk, hr⟩
  · by_cases hc : c = []
    · rw [hk, hc, List.append_nil]
    · exfalso
      apply z2
      rw [hk]
      exact replicate_zero_getLast _ c k1 hc ⟨_, hr⟩
  · by_cases hc : c = []
    · rw [hk, hc, List.append_nil]
    · exfalso
      apply z1
      rw [hk]
      exact replicate_zero_getLast _ c k2 hc ⟨_, hr⟩

/-- C3, the claim as stated fails: the secrets `secret` and `secret` followed by a
zero byte are different strings, yet the token issued under the first for user 123
`testuser` is accepted by `parseJWT` under the second, whatever the digest function is. -/
theorem C3_distinct_secret_accepted :
    ("secret" : String) ≠ "secret\x00" ∧
    ∀ rt : Runtime,
      (parseJWT rt ⟨⟨"secret\x00", 15⟩, ⟨"photos"⟩⟩ 1700000000000000000
        (GenerateJWT rt ⟨⟨"secret", 15⟩, ⟨"photos"⟩⟩ 1700000000000000000 123
          (bytesOf "testuser")).1).2 = none := by
  refine ⟨by decide, ?_⟩
  intro rt
  have hT : JWTConfig.Timeout ⟨"secret", 15⟩ = 900000000000 := by decide
  have hU : Time.Unix (1700000000000000000 + 900000000000) = 1700000900 := by decide
  have hE : float64OfInt64 1700000900 = ((1700000900 : Int) : Rat) :=
    float64OfInt64_exact _ (by decide)
  have hD : newNumericDateFromSeconds ((1700000900 : Int) : Rat) = 1700000900 :=
    newNumericDateFromSeconds_intCast _ (by norm_num)
  rw [parseJWT_GenerateJWT]
  simp only [hT, hU, hE, hD, hmac_Sum_trailing_zero, if_true]
  norm_num

/-- C3, amended: take a token produced by `GenerateJWT` under the secret `k1` and a
configuration with the secret `k2`, and a digest that does not collide on the two
messages of the outer digest calls of HMAC under `k1` and under `k2` (every injective
digest is such a digest). Then `parseJWT` with the second configuration returns no claims
and `ErrTokenSignatureInvalid`, at every time and whatever the payload, if and only if
the two secrets give different HMAC key blocks (the secret, or its digest when it is
longer than 64 bytes, filled up with zero bytes to 64 bytes). In particular the token is
rejected whenever the two secrets differ, have at most 64 bytes and do not end in a zero
byte. -/
theorem C3_other_secret_rejected (rt : Runtime) (cfg1 cfg2 : Config) (now now' : Time)
    (userID : Int) (login : Bytes)
    (hcoll :
      rt.SHA256 (hmac_outer rt.SHA256 64 (bytesOf cfg1.JWT.SecretKey)
          (rt.SigningString (Time.Unix (now + cfg1.JWT.Timeout)) userID login)) =
        rt.SHA256 (hmac_outer rt.SHA256 64 (bytesOf cfg2.JWT.SecretKey)
          (rt.SigningString (Time.Unix (now + cfg1.JWT.Timeout)) userID login)) →
      hmac_outer rt.SHA256 64 (bytesOf cfg1.JWT.SecretKey)
          (rt.SigningString (Time.Unix (now + cfg1.JWT.Timeout)) userID login) =
        hmac_outer rt.SHA256 64 (bytesOf cfg2.JWT.SecretKey)
          (rt.SigningString (Time.Unix (now + cfg1.JWT.Timeout)) userID login)) :
    (parseJWT rt cfg2 now' (GenerateJWT rt cfg1 now userID login).1 =
        ([], some .ErrTokenSignatureInvalid) ↔
      hmac_block rt.SHA256 64 (bytesOf cfg1.JWT.SecretKey) ≠
        hmac_block rt.SHA256 64 (bytesOf cfg2.JWT.SecretKey)) ∧
    (cfg1.JWT.SecretKey ≠ cfg2.JWT.SecretKey →
      (bytesOf cfg1.JWT.SecretKey).length ≤ 64 → (bytesOf cfg2.JWT.SecretKey).length ≤ 64 →
      (bytesOf cfg1.JWT.SecretKey).getLast? ≠ some 0 →
      (bytesOf cfg2.JWT.SecretKey).getLast? ≠ some 0 →
      parseJWT rt cfg2 now' (GenerateJWT rt cfg1 now userID login).1 =
        ([], some .ErrTokenSignatureInvalid)) := by
  have htag := hmac_Sum_eq_iff rt.SHA256 (bytesOf cfg1.JWT.SecretKey)
    (bytesOf cfg2.JWT.SecretKey)
    (rt.SigningString (Time.Unix (now + cfg1.JWT.Timeout)) userID login) hcoll
  have key : parseJWT rt cfg2 now' (GenerateJWT rt cfg1 now userID login).1 =
        ([], some .ErrTokenSignatureInvalid) ↔
      hmac_block rt.SHA256 64 (bytesOf cfg1.JWT.SecretKey) ≠
        hmac_block rt.SHA256 64 (bytesOf cfg2.JWT.SecretKey) := by
    rw [parseJWT_GenerateJWT, ne_eq, ← htag]
    by_cases hs : hmac_Sum rt.SHA256 64 (bytesOf cfg1.JWT.SecretKey)
          (rt.SigningString (Time.Unix (now + cfg1.JWT.Timeout)) userID login) =
        hmac_Sum rt.SHA256 64 (bytesOf cfg2.JWT.SecretKey)
          (rt.SigningString (Time.Unix (now + cfg1.JWT.Timeout)) userID login)
    · simp only [hs, if_true, ne_eq, not_true_eq_false, iff_false]
      split <;> simp
    · simp only [hs, if_false, ne_eq, not_false_eq_true]
  refine ⟨key, ?_⟩
  intro hne h1 h2 z1 z2
  apply key.2
  intro hb
  exact hne (bytesOf_injective _ _ (hmac_block_eq_of_short rt.SHA256 _ _ h1 h2 z1 z2 hb))

set_option maxRecDepth 100000 in
/-- C3, witness: with SHA-256 as the digest, the outer messages of HMAC under the secrets
`a` and `b` have different digests, and the token issued under `a` is rejected under `b`.
With the identity as digest, which is injective, the token issued under `a` is rejected
under every secret of at most 64 bytes that differs from `a` and does not end in a zero
byte. -/
theorem C3_other_secret_rejected_witness :
    parseJWT sha256Runtime ⟨⟨"b", 15⟩, ⟨"photos"⟩⟩ 1700000000000000000
      (GenerateJWT sha256Runtime ⟨⟨"a", 15⟩, ⟨"photos"⟩⟩ 1700000000000000000
        123 (bytesOf "testuser")).1 = ([], some .ErrTokenSignatureInvalid) ∧
    ∀ k2 : String, "a" ≠ k2 → (bytesOf k2).length ≤ 64 → (bytesOf k2).getLast? ≠ some 0 →
      parseJWT testRuntime ⟨⟨k2, 15⟩, ⟨"photos"⟩⟩ 1700000000000000000
        (GenerateJWT testRuntime ⟨⟨"a", 15⟩, ⟨"photos"⟩⟩ 1700000000000000000
          123 (bytesOf "testuser")).1 = ([], some .ErrTokenSignatureInvalid) :=
  ⟨(C3_other_secret_rejected sha256Runtime ⟨⟨"a", 15⟩, ⟨"photos"⟩⟩ ⟨⟨"b", 15⟩, ⟨"photos"⟩⟩
      1700000000000000000 1700000000000000000 123 (bytesOf "testuser")
      (fun h => absurd h (by decide))).2
      (by decide) (by decide) (by decide) (by decide) (by decide),
    fun k2 hne hlen hz =>
      (C3_other_secret_rejected testRuntime ⟨⟨"a", 15⟩, ⟨"photos"⟩⟩ ⟨⟨k2, 15⟩, ⟨"photos"⟩⟩
        1700000000000000000 1700000000000000000 123 (bytesOf "testuser") (fun h => h)).2
        hne (by decide) hlen (by decide) hz⟩

/-! ## C4 -/

/-- C4: for every request, `AuthMiddleware` runs the wrapped handler exactly when the
request has a cookie `jwt`, `parseJWT` accepts its value, `user_id` is a number and
`user_login` is a string; the handler is then run on the request whose context carries
that user id converted to `int64` (truncated toward zero, and -2^63 for a number that
does not fit an `int64`) and that login. In every other case the handler is not run (the
result is the same for every handler, and the world is untouched) and the response is
401 `Unauthorized`, whichever check failed. -/
theorem C4_AuthMiddleware (rt : Runtime) (cfg : Config) (now : Time) (r : Request) (w : World) :
    (∀ (c : Cookie) (f : Rat) (l : String),
      r.Cookie "jwt" = (some c, none) →
      (parseJWT rt cfg now c.Value).2 = none →
      (parseJWT rt cfg now c.Value).1.get "user_id" = some (.number f) →
      (parseJWT rt cfg now c.Value).1.get "user_login" = some (.string l) →
      ∀ next : HandlerFunc, AuthMiddleware rt cfg now next r w =
        next (r.WithContext ((r.ctx.WithValue ctxKeyID (.int64 (toInt64 f))).WithValue
          ctxKeyLogin (.string l))) w) ∧
    ((¬ ∃ (c : Cookie) (f : Rat) (l : String), r.Cookie "jwt" = (some c, none) ∧
        (parseJWT rt cfg now c.Value).2 = none ∧
        (parseJWT rt cfg now c.Value).1.get "user_id" = some (.number f) ∧
        (parseJWT rt cfg now c.Value).1.get "user_login" = some (.string l)) →
      ∀ next : HandlerFunc,
        AuthMiddleware rt cfg now next r w = (http_Error "Unauthorized" 401, w)) :=
  ⟨fun c f l hc hp hid hl next => AuthMiddleware_forward rt cfg now next r w c f l hc hp hid hl,
    fun h next => AuthMiddleware_reject rt cfg now next r w h⟩

/-- The token issued for the largest `int64` user id, 2^63 - 1, is accepted at the time
of issuance; its `user_id` claim reads back as the `float64` 2^63. -/
theorem parseJWT_maxIdToken (rt : Runtime) :
    parseJWT rt testConfig testNow (testToken rt 9223372036854775807 "bob") =
      ([("exp", .number ((1700000900 : Int) : Rat)), ("user_id", .number 9223372036854775808),
        ("user_login", .string "bob")], none) := by
  have hT : testConfig.JWT.Timeout = 900000000000 := by decide
  have hU : Time.Unix (testNow + 900000000000) = 1700000900 := by decide
  have hE : float64OfInt64 1700000900 = ((1700000900 : Int) : Rat) :=
    float64OfInt64_exact _ (by decide)
  have hD : newNumericDateFromSeconds ((1700000900 : Int) : Rat) = 1700000900 :=
    newNumericDateFromSeconds_intCast _ (by norm_num)
  have hlt : testNow < (1700000900 : Int) * 1000000000 := by decide
  unfold testToken
  rw [parseJWT_GenerateJWT]
  simp only [hT, hU, hE, hD, float64OfInt64_maxInt64, hlt, or_true, if_true,
    json_String_bytesOf]

/-- C4, witness: `bob` (id 2) asks for the deletion of his photo `a.jpg`. With the token
of user 2 `bob` the handler is run with the identity (2, `bob`) in its context and deletes
the photo. With a token issued for `bob` under the largest `int64` user id the handler is
run with the id that `int64(...)` makes of the `float64` 2^63, which is -2^63, and
refuses. Without cookies the answer is 401. -/
theorem C4_AuthMiddleware_witness :
    AuthMiddleware testRuntime testConfig testNow (HandleDeletePhoto testConfig)
        (testRequest "DELETE" "/api/delete-photo/bob/a.jpg" (testToken testRuntime 2 "bob"))
        testWorld =
      (.Message 200 [("message", "Photo deleted")],
        ⟨⟨testWorld.db.users, [⟨2, "test_photos/bob/b.jpg", 1, 2⟩]⟩,
          ["test_photos/bob/b.jpg"]⟩) ∧
    AuthMiddleware testRuntime testConfig testNow (HandleDeletePhoto testConfig)
        (testRequest "DELETE" "/api/delete-photo/bob/a.jpg"
          (testToken testRuntime 9223372036854775807 "bob")) testWorld =
      HandleDeletePhoto testConfig
        ((testRequest "DELETE" "/api/delete-photo/bob/a.jpg"
          (testToken testRuntime 9223372036854775807 "bob")).WithContext
          [(ctxKeyLogin, .string "bob"), (ctxKeyID, .int64 (-9223372036854775808))])
        testWorld ∧
    HandleDeletePhoto testConfig
        ((testRequest "DELETE" "/api/delete-photo/bob/a.jpg"
          (testToken testRuntime 9223372036854775807 "bob")).WithContext
          [(ctxKeyLogin, .string "bob"), (ctxKeyID, .int64 (-9223372036854775808))])
        testWorld = (http_Error "Forbidden" 403, testWorld) ∧
    AuthMiddleware testRuntime testConfig testNow (HandleDeletePhoto testConfig)
        ⟨"GET", "/", [], ⟨none, none⟩, []⟩ testWorld =
      (http_Error "Unauthorized" 401, testWorld) := by
  have hp := parseJWT_testToken testRuntime 2 "bob" (by decide)
  have hq := parseJWT_maxIdToken testRuntime
  refine ⟨?_, ?_, by decide, ?_⟩
  · have h := (C4_AuthMiddleware testRuntime testConfig testNow
      (testRequest "DELETE" "/api/delete-photo/bob/a.jpg" (testToken testRuntime 2 "bob"))
      testWorld).1
      ⟨"jwt", testToken testRuntime 2 "bob"⟩ ((2 : Int) : Rat) "bob"
      (testRequest_Cookie _ _ _) (by rw [hp]) (by rw [hp]; simp [MapClaims.get, List.lookup])
      (by rw [hp]; simp [MapClaims.get, List.lookup]) (HandleDeletePhoto testConfig)
    rw [toInt64_intCast 2 (by norm_num)] at h
    rw [h]
    decide
  · have h := (C4_AuthMiddleware testRuntime testConfig testNow
      (testRequest "DELETE" "/api/delete-photo/bob/a.jpg"
        (testToken testRuntime 9223372036854775807 "bob")) testWorld).1
      ⟨"jwt", testToken testRuntime 9223372036854775807 "bob"⟩ 9223372036854775808 "bob"
      (testRequest_Cookie _ _ _) (by rw [hq]) (by rw [hq]; simp [MapClaims.get, List.lookup])
      (by rw [hq]; simp [MapClaims.get, List.lookup]) (HandleDeletePhoto testConfig)
    rw [toInt64_two_pow_63] at h
    exact h
  · exact (C4_AuthMiddleware testRuntime testConfig testNow ⟨"GET", "/", [], ⟨none, none⟩, []⟩
      testWorld).2 (by simp [Request.Cookie]) (HandleDeletePhoto testConfig)

/-! ## C5 and C6 -/

theorem selectUserByLogin_none (db : DB) (login : String)
    (h : ∀ u ∈ db.users, u.login ≠ login) :
    db.selectUserByLogin login = (none, some .ErrNoRows) := by
  unfold DB.selectUserByLogin
  have : db.users.find? (fun u => decide (u.login = login)) = none := by
    rw [List.find?_eq_none]
    intro u hu
    simpa using h u hu
  rw [this]

theorem AuthMiddlewareAdministration_unknown_login (rt : Runtime) (cfg : Config) (now : Time)
    (next : HandlerFunc) (r : Request) (w : World) (c : Cookie) (l : String)
    (hc : r.Cookie "jwt" = (some c, none))
    (hp : (parseJWT rt cfg now c.Value).2 = none)
    (hl : (parseJWT rt cfg now c.Value).1.get "user_login" = some (.string l))
    (hno : ∀ u ∈ w.db.users, u.login ≠ l) :
    AuthMiddlewareAdministration rt cfg now next r w = (http_Error "Unauthorized" 401, w) := by
  unfold AuthMiddlewareAdministration
  rcases hpj : parseJWT rt cfg now c.Value with ⟨claims, err⟩
  rw [hpj] at hp hl
  simp only at hp hl
  subst hp
  simp only [hc, hpj, hl, selectUserByLogin_none w.db l hno]

/-- C5: for every request whose `jwt` cookie holds a token that `parseJWT` accepts
(correct signature, not expired) with a string `user_login` that is the login of no row
of `users`, `AuthMiddlewareAdministration` answers 401 `Unauthorized` and leaves the world
as it is, whatever the wrapped handler is: the handler is not run. -/
theorem C5_unknown_login_unauthorized (rt : Runtime) (cfg : Config) (now : Time)
    (next : HandlerFunc) (r : Request) (w : World) (c : Cookie) (l : String)
    (hc : r.Cookie "jwt" = (some c, none))
    (hp : (parseJWT rt cfg now c.Value).2 = none)
    (hl : (parseJWT rt cfg now c.Value).1.get "user_login" = some (.string l))
    (hno : ∀ u ∈ w.db.users, u.login ≠ l) :
    AuthMiddlewareAdministration rt cfg now next r w = (http_Error "Unauthorized" 401, w) :=
  AuthMiddlewareAdministration_unknown_login rt cfg now next r w c l hc hp hl hno

/-- C5, witness: a valid token for the login `carol`, who is not in the store. -/
theorem C5_unknown_login_unauthorized_witness :
    AuthMiddlewareAdministration testRuntime testConfig testNow HandleGetUsers
        (testRequest "GET" "/api/users" (testToken testRuntime 3 "carol")) testWorld =
      (http_Error "Unauthorized" 401, testWorld) :=
  C5_unknown_login_unauthorized testRuntime testConfig testNow HandleGetUsers _ testWorld
    ⟨"jwt", testToken testRuntime 3 "carol"⟩ "carol" (testRequest_Cookie _ _ _)
    (by rw [parseJWT_testToken testRuntime 3 "carol" (by decide)])
    (by rw [parseJWT_testToken testRuntime 3 "carol" (by decide)];
        simp [MapClaims.get, List.lookup])
    (by decide)

theorem selectUserByLogin_some (db : DB) (login : String) (row : UserRow)
    (h : db.selectUserByLogin login = (some row, none)) :
    row ∈ db.users ∧ row.login = login := by
  unfold DB.selectUserByLogin at h
  cases hf : db.users.find? (fun u => decide (u.login = login)) with
  | none => rw [hf] at h; simp at h
  | some u =>
    rw [hf] at h
    simp only [Prod.mk.injEq, Option.some.injEq, and_true] at h
    subst h
    exact ⟨List.mem_of_find?_eq_some hf, by simpa using List.find?_some hf⟩

theorem AuthMiddlewareAdministration_forward (rt : Runtime) (cfg : Config) (now : Time)
    (next : HandlerFunc) (r : Request) (w : World) (c : Cookie) (l : String) (row : UserRow)
    (hrow : w.db.selectUserByLogin l = (some row, none))
    (hc : r.Cookie "jwt" = (some c, none))
    (hp : (parseJWT rt cfg now c.Value).2 = none)
    (hl : (parseJWT rt cfg now c.Value).1.get "user_login" = some (.string l)) :
    AuthMiddlewareAdministration rt cfg now next r w =
      next (r.WithContext ((((r.ctx.WithValue ctxKeyID (.int64 row.ID)).WithValue
        ctxKeyLogin (.string l)).WithValue (.string "isAdmin")
        (.bool (decide (row.isAdmin ≠ 0)))).WithValue (.string "isBanned")
        (.bool (decide (row.isBanned ≠ 0))))) w := by
  unfold AuthMiddlewareAdministration
  rcases hpj : parseJWT rt cfg now c.Value with ⟨claims, err⟩
  rw [hpj] at hp hl
  simp only at hp hl
  subst hp
  simp only [hc, hpj, hl, hrow]

theorem selectUserByLogin_cases (db : DB) (login : String) :
    (∃ row, db.selectUserByLogin login = (some row, none)) ∨
      db.selectUserByLogin login = (none, some .ErrNoRows) := by
  unfold DB.selectUserByLogin
  cases db.users.find? (fun u => decide (u.login = login)) with
  | none => exact Or.inr rfl
  | some u => exact Or.inl ⟨u, rfl⟩

/-- Every request is either answered 401 by `AuthMiddlewareAdministration` without the
handler being run, or forwarded with the context built from the row of the token's login. -/
theorem AuthMiddlewareAdministration_cases (rt : Runtime) (cfg : Config) (now : Time)
    (r : Request) (w : World) :
    (∀ next : HandlerFunc,
      AuthMiddlewareAdministration rt cfg now next r w = (http_Error "Unauthorized" 401, w)) ∨
    (∃ (c : Cookie) (l : String) (row : UserRow),
      r.Cookie "jwt" = (some c, none) ∧
      (parseJWT rt cfg now c.Value).2 = none ∧
      (parseJWT rt cfg now c.Value).1.get "user_login" = some (.string l) ∧
      w.db.selectUserByLogin l = (some row, none)) := by
  rcases Request.Cookie_cases r "jwt" with ⟨c, hc⟩ | hc
  · rcases hpj : parseJWT rt cfg now c.Value with ⟨claims, err⟩
    cases err with
    | some e =>
      left; intro next
      unfold AuthMiddlewareAdministration
      simp only [hc, hpj]
    | none =>
      cases hl : claims.get "user_login" with
      | none =>
        left; intro next
        unfold AuthMiddlewareAdministration
        simp only [hc, hpj, hl]
      | some v =>
        cases v with
        | string l =>
          rcases selectUserByLogin_cases w.db l with ⟨row, hrow⟩ | hrow
          · right
            exact ⟨c, l, row, hc, by rw [hpj], by rw [hpj]; exact hl, hrow⟩
          · left; intro next
            unfold AuthMiddlewareAdministration
            simp only [hc, hpj, hl, hrow]
        | _ =>
          left; intro next
          unfold AuthMiddlewareAdministration
          simp only [hc, hpj, hl]
  · left; intro next
    unfold AuthMiddlewareAdministration
    simp only [hc]

/-- C6: every request that `AuthMiddlewareAdministration` does not answer with 401
carries an accepted token with a string `user_login = l` for which the user query returns
a row `row` (a row of `users` whose login is `l`), and the handler is run on the context
extended with the user id of `row`, the login `l`, `isAdmin` true iff `row.isAdmin` is not
0 and `isBanned` true iff `row.isBanned` is not 0. No other claim of the token enters: for
two accepted tokens with the same `user_login`, on requests with the same base context
and against the same store, either both requests are answered 401 or both are forwarded
with the same injected context. -/
theorem C6_context_from_store (rt : Runtime) (cfg : Config) (now : Time) (w : World) :
    (∀ r : Request,
      (∀ next : HandlerFunc,
        AuthMiddlewareAdministration rt cfg now next r w = (http_Error "Unauthorized" 401, w)) ∨
      (∃ (c : Cookie) (l : String) (row : UserRow),
        r.Cookie "jwt" = (some c, none) ∧
        (parseJWT rt cfg now c.Value).2 = none ∧
        (parseJWT rt cfg now c.Value).1.get "user_login" = some (.string l) ∧
        row ∈ w.db.users ∧ row.login = l ∧
        ∀ next : HandlerFunc, AuthMiddlewareAdministration rt cfg now next r w =
          next (r.WithContext ((((r.ctx.WithValue ctxKeyID (.int64 row.ID)).WithValue
            ctxKeyLogin (.string l)).WithValue (.string "isAdmin")
            (.bool (decide (row.isAdmin ≠ 0)))).WithValue (.string "isBanned")
            (.bool (decide (row.isBanned ≠ 0))))) w)) ∧
    (∀ (r1 r2 : Request) (c1 c2 : Cookie) (l : String),
      r1.Cookie "jwt" = (some c1, none) → r2.Cookie "jwt" = (some c2, none) →
      (parseJWT rt cfg now c1.Value).2 = none → (parseJWT rt cfg now c2.Value).2 = none →
      (parseJWT rt cfg now c1.Value).1.get "user_login" = some (.string l) →
      (parseJWT rt cfg now c2.Value).1.get "user_login" = some (.string l) →
      r1.ctx = r2.ctx →
      (∀ next : HandlerFunc,
        AuthMiddlewareAdministration rt cfg now next r1 w = (http_Error "Unauthorized" 401, w) ∧
        AuthMiddlewareAdministration rt cfg now next r2 w = (http_Error "Unauthorized" 401, w)) ∨
      (∃ ctx : Context, ∀ next : HandlerFunc,
        AuthMiddlewareAdministration rt cfg now next r1 w = next (r1.WithContext ctx) w ∧
        AuthMiddlewareAdministration rt cfg now next r2 w = next (r2.WithContext ctx) w)) := by
  constructor
  · intro r
    rcases AuthMiddlewareAdministration_cases rt cfg now r w with h | ⟨c, l, row, hc, hp, hl, hrow⟩
    · exact Or.inl h
    · right
      refine ⟨c, l, row, hc, hp, hl, (selectUserByLogin_some _ _ _ hrow).1,
        (selectUserByLogin_some _ _ _ hrow).2, fun next => ?_⟩
      exact AuthMiddlewareAdministration_forward rt cfg now next r w c l row hrow hc hp hl
  · intro r1 r2 c1 c2 l hc1 hc2 hp1 hp2 hl1 hl2 hctx
    rcases selectUserByLogin_cases w.db l with ⟨row, hrow⟩ | hrow
    · right
      refine ⟨_, fun next => ⟨AuthMiddlewareAdministration_forward rt cfg now next r1 w c1 l row
        hrow hc1 hp1 hl1, ?_⟩⟩
      rw [hctx]
      exact AuthMiddlewareAdministration_forward rt cfg now next r2 w c2 l row hrow hc2 hp2 hl2
    · left
      intro next
      have hno : ∀ u ∈ w.db.users, u.login ≠ l := by
        intro u hu he
        unfold DB.selectUserByLogin at hrow
        cases hf : w.db.users.find? (fun u => decide (u.login = l)) with
        | none =>
          rw [List.find?_eq_none] at hf
          exact hf u hu (by simpa using he)
        | some u' => rw [hf] at hrow; simp at hrow
      exact ⟨AuthMiddlewareAdministration_unknown_login rt cfg now next r1 w c1 l hc1 hp1 hl1 hno,
        AuthMiddlewareAdministration_unknown_login rt cfg now next r2 w c2 l hc2 hp2 hl2 hno⟩

/-- C6, witness: two tokens for the login `bob`, one issued with user id 2 and one with
user id 999, both reach the handler with user id 2, `isAdmin = false` and
`isBanned = false`, the values of the row of `bob`. -/
theorem C6_context_from_store_witness :
    ∃ ctx : Context, ctx = [(.string "isBanned", .bool false), (.string "isAdmin", .bool false),
        (ctxKeyLogin, .string "bob"), (ctxKeyID, .int64 2)] ∧
      ∀ next : HandlerFunc,
        AuthMiddlewareAdministration testRuntime testConfig testNow next
            (testRequest "POST" "/api/manage-ban" (testToken testRuntime 2 "bob")) testWorld =
          next ((testRequest "POST" "/api/manage-ban" (testToken testRuntime 2 "bob")).WithContext
            ctx) testWorld ∧
        AuthMiddlewareAdministration testRuntime testConfig testNow next
            (testRequest "POST" "/api/manage-ban" (testToken testRuntime 999 "bob")) testWorld =
          next ((testRequest "POST" "/api/manage-ban"
            (testToken testRuntime 999 "bob")).WithContext ctx) testWorld := by
  have hp2 := parseJWT_testToken testRuntime 2 "bob" (by decide)
  have hp9 := parseJWT_testToken testRuntime 999 "bob" (by decide)
  have hrow : testWorld.db.selectUserByLogin "bob" = (some ⟨2, "bob", "hash2", 0, 0⟩, none) := by
    decide
  rcases (C6_context_from_store testRuntime testConfig testNow testWorld).2
    (testRequest "POST" "/api/manage-ban" (testToken testRuntime 2 "bob"))
    (testRequest "POST" "/api/manage-ban" (testToken testRuntime 999 "bob"))
    ⟨"jwt", testToken testRuntime 2 "bob"⟩ ⟨"jwt", testToken testRuntime 999 "bob"⟩ "bob"
    (testRequest_Cookie _ _ _) (testRequest_Cookie _ _ _) (by rw [hp2]) (by rw [hp9])
    (by rw [hp2]; simp [MapClaims.get, List.lookup])
    (by rw [hp9]; simp [MapClaims.get, List.lookup]) rfl with h | ⟨ctx, h⟩
  · exfalso
    have h1 := (h (fun _ w => (.Aborted, w))).1
    rw [AuthMiddlewareAdministration_forward testRuntime testConfig testNow _ _ testWorld
      ⟨"jwt", testToken testRuntime 2 "bob"⟩ "bob" _ hrow (testRequest_Cookie _ _ _)
      (by rw [hp2]) (by rw [hp2]; simp [MapClaims.get, List.lookup])] at h1
    simp [http_Error] at h1
  · refine ⟨_, rfl, fun next => ?_⟩
    exact ⟨AuthMiddlewareAdministration_forward testRuntime testConfig testNow next _ testWorld
        ⟨"jwt", testToken testRuntime 2 "bob"⟩ "bob" _ hrow (testRequest_Cookie _ _ _)
        (by rw [hp2]) (by rw [hp2]; simp [MapClaims.get, List.lookup]),
      AuthMiddlewareAdministration_forward testRuntime testConfig testNow next _ testWorld
        ⟨"jwt", testToken testRuntime 999 "bob"⟩ "bob" _ hrow (testRequest_Cookie _ _ _)
        (by rw [hp9]) (by rw [hp9]; simp [MapClaims.get, List.lookup])⟩

/-! ## C7 -/

/-- C7, the claim as stated fails: the method guard comes before the ban decision, so a
requester whose resolved `isAdmin` is false and who sends a `GET` is answered
405 `Method not allowed`, not 403 `Forbidden`; and an administrator who names another user
in a `GET` is not allowed either. -/
theorem C7_method_guard_first :
    HandleManageBanStatus (testBanRequest "GET" ⟨"admin", 1⟩ false "bob" 2) testWorld =
      (http_Error "Method not allowed" 405, testWorld) ∧
    HandleManageBanStatus (testBanRequest "GET" ⟨"bob", 1⟩ true "admin" 1) testWorld =
      (http_Error "Method not allowed" 405, testWorld) := by
  constructor <;> rfl

theorem updateBanStatus_keeps_others (db : DB) (banned : Int) (target login : String)
    (h : target ≠ login) :
    (db.updateBanStatus banned target).users.filter (fun u => decide (u.login = login)) =
      db.users.filter (fun u => decide (u.login = login)) := by
  unfold DB.updateBanStatus
  simp only
  induction db.users with
  | nil => rfl
  | cons u us ih =>
    simp only [List.map_cons, List.filter_cons]
    by_cases hu : u.login = target
    · have hne : u.login ≠ login := fun e => h (hu.symm.trans e)
      simp [hu, ih, h]
    · simp [hu, ih]

/-- C7, amended: for a request whose context carries the resolved `isAdmin` and login
(as `AuthMiddlewareAdministration` sets them), the ban decision of `HandleManageBanStatus`
on `POST` requests is: 403 `Forbidden` and no change when `isAdmin` is false;
403 `Cannot ban yourself` and no change when the requester is an administrator and the
decoded target login equals the requester's login; allowed, with
`UPDATE users SET isBanned = banned WHERE login = target` carried out, when the requester
is an administrator and the decoded target login differs. For every request, whatever its
method or body, the world changes only if the requester is an administrator and the body
decodes to a target login different from the requester's, and the rows of the requester
are never changed. -/
theorem C7_ban_decision (r : Request) (w : World) (isAdmin : Bool) (userLogin : String)
    (hadm : r.ctx.Value (.string "isAdmin") = some (.bool isAdmin))
    (hlogin : r.ctx.Value ctxKeyLogin = some (.string userLogin)) :
    (r.Method = "POST" → isAdmin = false →
      HandleManageBanStatus r w = (http_Error "Forbidden" 403, w)) ∧
    (∀ req : ManageBanRequest, r.Method = "POST" → isAdmin = true →
      r.Body.asManageBanRequest = some req → req.Login = userLogin →
      HandleManageBanStatus r w = (http_Error "Cannot ban yourself" 403, w)) ∧
    (∀ req : ManageBanRequest, r.Method = "POST" → isAdmin = true →
      r.Body.asManageBanRequest = some req → req.Login ≠ userLogin →
      HandleManageBanStatus r w =
        (.Message 200 [("banned", toString req.Banned), ("login", req.Login),
            ("message", "Ban status updated")],
          { w with db := w.db.updateBanStatus req.Banned req.Login })) ∧
    ((HandleManageBanStatus r w).2 ≠ w →
      r.Method = "POST" ∧ isAdmin = true ∧
        ∃ req, r.Body.asManageBanRequest = some req ∧ req.Login ≠ userLogin) ∧
    ((HandleManageBanStatus r w).2.db.users.filter (fun u => decide (u.login = userLogin)) =
      w.db.users.filter (fun u => decide (u.login = userLogin))) := by
  have key : ∀ req : ManageBanRequest, r.Method = "POST" → isAdmin = true →
      r.Body.asManageBanRequest = some req → req.Login ≠ userLogin →
      HandleManageBanStatus r w =
        (.Message 200 [("banned", toString req.Banned), ("login", req.Login),
            ("message", "Ban status updated")],
          { w with db := w.db.updateBanStatus req.Banned req.Login }) := by
    intro req hm ha hb hne
    simp [HandleManageBanStatus, hm, hadm, ha, hb, hlogin, hne]
  have cases : HandleManageBanStatus r w = (http_Error "Method not allowed" 405, w) ∨
      HandleManageBanStatus r w = (http_Error "Forbidden" 403, w) ∨
      HandleManageBanStatus r w = (http_Error "Invalid JSON" 400, w) ∨
      HandleManageBanStatus r w = (http_Error "Cannot ban yourself" 403, w) ∨
      (r.Method = "POST" ∧ isAdmin = true ∧
        ∃ req, r.Body.asManageBanRequest = some req ∧ req.Login ≠ userLogin) := by
    by_cases hm : r.Method = "POST"
    · cases ha : isAdmin with
      | false =>
        right; left
        simp [HandleManageBanStatus, hm, hadm, ha]
      | true =>
        cases hb : r.Body.asManageBanRequest with
        | none =>
          right; right; left
          simp [HandleManageBanStatus, hm, hadm, ha, hb]
        | some req =>
          by_cases he : req.Login = userLogin
          · right; right; right; left
            simp [HandleManageBanStatus, hm, hadm, ha, hb, hlogin, he]
          · right; right; right; right
            exact ⟨hm, rfl, req, rfl, he⟩
    · left
      simp [HandleManageBanStatus, hm]
  refine ⟨?_, ?_, key, ?_, ?_⟩
  · intro hm ha
    simp [HandleManageBanStatus, hm, hadm, ha]
  · intro req hm ha hb he
    simp [HandleManageBanStatus, hm, hadm, ha, hb, hlogin, he]
  · intro hch
    rcases cases with h | h | h | h | h
    · rw [h] at hch; exact absurd rfl hch
    · rw [h] at hch; exact absurd rfl hch
    · rw [h] at hch; exact absurd rfl hch
    · rw [h] at hch; exact absurd rfl hch
    · exact h
  · rcases cases with h | h | h | h | ⟨hm, ha, req, hb, hne⟩
    · rw [h]
    · rw [h]
    · rw [h]
    · rw [h]
    · rw [key req hm ha hb hne]
      exact updateBanStatus_keeps_others w.db req.Banned req.Login userLogin hne

/-- C7, witness: the administrator bans `bob` (the row of `bob` gets `isBanned = 1`),
`bob` is refused, and the administrator cannot ban `admin`. -/
theorem C7_ban_decision_witness :
    HandleManageBanStatus (testBanRequest "POST" ⟨"bob", 1⟩ true "admin" 1) testWorld =
      (.Message 200 [("banned", "1"), ("login", "bob"), ("message", "Ban status updated")],
        { testWorld with db := ⟨[⟨1, "admin", "hash1", 1, 0⟩, ⟨2, "bob", "hash2", 0, 1⟩],
          testWorld.db.photos⟩ }) ∧
    HandleManageBanStatus (testBanRequest "POST" ⟨"admin", 1⟩ false "bob" 2) testWorld =
      (http_Error "Forbidden" 403, testWorld) ∧
    HandleManageBanStatus (testBanRequest "POST" ⟨"admin", 1⟩ true "admin" 1) testWorld =
      (http_Error "Cannot ban yourself" 403, testWorld) :=
  ⟨((C7_ban_decision (testBanRequest "POST" ⟨"bob", 1⟩ true "admin" 1) testWorld true "admin"
      rfl rfl).2.2.1 ⟨"bob", 1⟩ rfl rfl rfl (by decide)).trans (by decide),
    (C7_ban_decision (testBanRequest "POST" ⟨"admin", 1⟩ false "bob" 2) testWorld false "bob"
      rfl rfl).1 rfl rfl,
    (C7_ban_decision (testBanRequest "POST" ⟨"admin", 1⟩ true "admin" 1) testWorld true "admin"
      rfl rfl).2.1 ⟨"admin", 1⟩ rfl rfl rfl rfl⟩

/-! ## C8 -/

/-- The requester presents a valid token whose `user_login` is `L`. -/
theorem authorized_iff (rt : Runtime) (cfg : Config) (now : Time) (r : Request) (L : String) :
    HandleGetPhotos.authorized rt cfg now r L = true ↔ PresentsValidToken rt cfg now r L := by
  unfold HandleGetPhotos.authorized PresentsValidToken
  rcases Request.Cookie_cases r "jwt" with ⟨c, hc⟩ | hc
  · rcases hpj : parseJWT rt cfg now c.Value with ⟨claims, err⟩
    cases err with
    | some e =>
      simp only [hc, hpj]
      constructor
      · intro h; exact absurd h (by simp)
      · rintro ⟨c', hc', hp', -⟩
        simp only [Prod.mk.injEq, Option.some.injEq, and_true] at hc'
        subst hc'
        rw [hpj] at hp'
        simp at hp'
    | none =>
      simp only [hc, hpj, decide_eq_true_eq]
      constructor
      · intro h; exact ⟨c, rfl, by rw [hpj], by rw [hpj]; exact h⟩
      · rintro ⟨c', hc', -, hl'⟩
        simp only [Prod.mk.injEq, Option.some.injEq, and_true] at hc'
        subst hc'
        rw [hpj] at hl'
        exact hl'
  · simp only [hc]
    constructor
    · intro h; exact absurd h (by simp)
    · rintro ⟨c', hc', -⟩
      simp at hc'

theorem mem_photosJoinUsers (db : DB) (login : String) (pu : PhotoRow × UserRow) :
    pu ∈ db.photosJoinUsers login ↔
      pu.1 ∈ db.photos ∧ pu.2 ∈ db.users ∧ pu.1.userID = pu.2.ID ∧ pu.2.login = login := by
  unfold DB.photosJoinUsers
  simp only [List.mem_flatMap, List.mem_map, List.mem_filter, Bool.and_eq_true,
    decide_eq_true_eq]
  constructor
  · rintro ⟨p, hp, u, ⟨hu, h1, h2⟩, rfl⟩
    exact ⟨hp, hu, h1, h2⟩
  · rintro ⟨hp, hu, h1, h2⟩
    exact ⟨pu.1, hp, pu.2, ⟨hu, h1, h2⟩, rfl⟩

theorem selectPhotoLike_some (db : DB) (login filename : String) (row : PhotoRow)
    (h : db.selectPhotoLike login filename = (some row, none)) :
    row ∈ db.photos ∧ (∃ u ∈ db.users, row.userID = u.ID ∧ u.login = login) ∧
      sqlLike ("%/" ++ filename).toList row.imagePath.toList = true := by
  unfold DB.selectPhotoLike at h
  cases hf : (db.photosJoinUsers login).find?
      (fun pu => sqlLike ("%/" ++ filename).toList pu.1.imagePath.toList) with
  | none => rw [hf] at h; simp at h
  | some pu =>
    rw [hf] at h
    simp only [Prod.mk.injEq, Option.some.injEq, and_true] at h
    subst h
    have hm := (mem_photosJoinUsers db login pu).1 (List.mem_of_find?_eq_some hf)
    have hlike := List.find?_some hf
    exact ⟨hm.1, ⟨pu.2, hm.2.1, hm.2.2.1, hm.2.2.2⟩, hlike⟩

theorem http_ServeFile_ne_forbidden (r : Request) (w : World) (name : String) :
    http_ServeFile r w name ≠ http_Error "Forbidden or not found" 403 := by
  unfold http_ServeFile http_Error
  split_ifs <;> simp

/-- The decision of `HandleGetPhotos`, for a path with an owner login `L` in its fourth
segment. In the single-photo form, when the lookup returns the row `row` (the first row
of `photos` owned by the user with login `L` whose path matches the pattern made of the
file name), `http.ServeFile` is called on the path of that row if and only if that row is
public or the requester presents a valid token whose `user_login` is `L`, and otherwise
the answer is 403. In the listing form the photos of `L` are all listed for a requester
with such a token, and exactly the public ones are listed for everybody else. The world
is never changed. -/
theorem HandleGetPhotos_decision (rt : Runtime) (cfg : Config) (now : Time) (r : Request)
    (w : World) (L : String)
    (hlen : 4 ≤ (strings_Split r.Path '/').length)
    (hL : (strings_Split r.Path '/').getD 3 "" = L) :
    (∀ (filename : String) (row : PhotoRow),
      5 ≤ (strings_Split r.Path '/').length →
      (strings_Split r.Path '/').getD 4 "" = filename → filename ≠ "" →
      w.db.selectPhotoLike L filename = (some row, none) →
        (row ∈ w.db.photos ∧ ∃ u ∈ w.db.users, row.userID = u.ID ∧ u.login = L) ∧
        (HandleGetPhotos rt cfg now r w = (http_ServeFile r w row.imagePath, w) ↔
          (row.imageIsPublic ≠ 0 ∨ PresentsValidToken rt cfg now r L)) ∧
        (HandleGetPhotos rt cfg now r w = (http_Error "Forbidden or not found" 403, w) ↔
          ¬ (row.imageIsPublic ≠ 0 ∨ PresentsValidToken rt cfg now r L))) ∧
    (((strings_Split r.Path '/').length < 5 ∨ (strings_Split r.Path '/').getD 4 "" = "") →
      (PresentsValidToken rt cfg now r L →
        HandleGetPhotos rt cfg now r w =
          (.Photos ((w.db.photosJoinUsers L).map (fun pu => pu.1.toPhoto)), w)) ∧
      (¬ PresentsValidToken rt cfg now r L →
        HandleGetPhotos rt cfg now r w =
          (.Photos (((w.db.photosJoinUsers L).filter
            (fun pu => decide (pu.1.imageIsPublic ≠ 0))).map (fun pu => pu.1.toPhoto)), w))) := by
  have hnot : ¬ ((strings_Split r.Path '/').length < 4) := by omega
  have hval := authorized_iff rt cfg now r L
  constructor
  · intro filename row h5 hfile hne hsel
    have hmem := selectPhotoLike_some w.db L filename row hsel
    refine ⟨⟨hmem.1, hmem.2.1⟩, ?_⟩
    have hres : HandleGetPhotos rt cfg now r w =
        if row.imageIsPublic = 0 ∧ HandleGetPhotos.authorized rt cfg now r L = false then
          (http_Error "Forbidden or not found" 403, w)
        else (http_ServeFile r w row.imagePath, w) := by
      unfold HandleGetPhotos
      simp only [hnot, if_false, hL, h5, if_true, hfile, hne, ne_eq, not_false_eq_true, hsel]
    have hsf := http_ServeFile_ne_forbidden r w row.imagePath
    rw [hres]
    cases hauth : HandleGetPhotos.authorized rt cfg now r L with
    | true =>
      have hv : PresentsValidToken rt cfg now r L := hval.1 hauth
      simp [hv, hsf]
    | false =>
      have hv : ¬ PresentsValidToken rt cfg now r L := fun h => by
        have := hval.2 h
        rw [hauth] at this
        exact absurd this (by simp)
      by_cases hpub : row.imageIsPublic = 0
      · simp [hv, hpub, hsf.symm]
      · simp [hv, hpub, hsf]
  · intro hlist
    have hfn : (if 5 ≤ (strings_Split r.Path '/').length then (strings_Split r.Path '/').getD 4 ""
        else "") = "" := by
      rcases hlist with h | h
      · rw [if_neg (by omega)]
      · rw [h]; simp
    have hres : HandleGetPhotos rt cfg now r w =
        (.Photos (((w.db.photosJoinUsers L).filter
          (fun pu => decide (pu.1.imageIsPublic ≠ 0) ||
            HandleGetPhotos.authorized rt cfg now r L)).map (fun pu => pu.1.toPhoto)), w) := by
      unfold HandleGetPhotos
      simp only [hnot, if_false, hL, hfn, ne_eq, not_true_eq_false, PhotoRow.toPhoto]
    rw [hres]
    constructor
    · intro hv
      have hauth := hval.2 hv
      simp [hauth]
    · intro hv
      have hauth : HandleGetPhotos.authorized rt cfg now r L = false := by
        cases h : HandleGetPhotos.authorized rt cfg now r L with
        | true => exact absurd (hval.1 h) hv
        | false => rfl
      simp [hauth]

theorem split_private_photo :
    strings_Split "/api/photos/bob/a.jpg" '/' = ["", "api", "photos", "bob", "a.jpg"] := by
  decide

theorem select_private_photo :
    testWorld.db.selectPhotoLike "bob" "a.jpg" =
      (some ⟨1, "test_photos/bob/a.jpg", 0, 2⟩, none) := by
  decide

/-- In the store of the examples, where every name of `bob` occurs once, the private photo
`a.jpg` of `bob` is served to a requester with the token of `bob` and refused to a
requester without cookies, and the public photo `b.jpg` is served to the latter. -/
theorem HandleGetPhotos_testWorld :
    HandleGetPhotos testRuntime testConfig testNow
        (testRequest "GET" "/api/photos/bob/a.jpg" (testToken testRuntime 2 "bob")) testWorld =
      (.File "test_photos/bob/a.jpg", testWorld) ∧
    HandleGetPhotos testRuntime testConfig testNow
        (anonymousRequest "GET" "/api/photos/bob/a.jpg") testWorld =
      (http_Error "Forbidden or not found" 403, testWorld) ∧
    HandleGetPhotos testRuntime testConfig testNow
        (anonymousRequest "GET" "/api/photos/bob/b.jpg") testWorld =
      (.File "test_photos/bob/b.jpg", testWorld) := by
  have hp := parseJWT_testToken testRuntime 2 "bob" (by decide)
  have hsplit := split_private_photo
  refine ⟨?_, by decide, by decide⟩
  have hserve : http_ServeFile
      (testRequest "GET" "/api/photos/bob/a.jpg" (testToken testRuntime 2 "bob")) testWorld
      "test_photos/bob/a.jpg" = .File "test_photos/bob/a.jpg" := by
    decide
  rw [← hserve]
  refine (((HandleGetPhotos_decision testRuntime testConfig testNow
    (testRequest "GET" "/api/photos/bob/a.jpg" (testToken testRuntime 2 "bob")) testWorld
    "bob" (by simp [testRequest, hsplit]) (by simp [testRequest, hsplit])).1 "a.jpg"
    ⟨1, "test_photos/bob/a.jpg", 0, 2⟩ (by simp [testRequest, hsplit])
    (by simp [testRequest, hsplit]) (by decide) select_private_photo).2.1).2 (Or.inr ?_)
  exact ⟨⟨"jwt", testToken testRuntime 2 "bob"⟩, testRequest_Cookie _ _ _, by rw [hp],
    by rw [hp]; simp [MapClaims.get, List.lookup]⟩

/-- C8, the code at the failing inputs: the single-photo lookup takes the first row of
the owner whose path matches the pattern made of the file name, with `LIKE`, and decides
on that row, which need not be the photo that is asked for. The requester has no token.
(0) In the store of the examples, where no two names of `bob` match the same pattern, the
public photo `b.jpg` is served and the private photo `a.jpg` is refused.
(1) `bob` has the private photo `A.jpg` and the public photo `a.jpg`, both files exist:
the request for the public `a.jpg` is answered 403, because the row of `A.jpg` matches up
to letter case and comes first.
(2) `bob` uploaded `a.jpg` as private and again as public: the request for the photo,
whose newest row is public, is answered 403 because of the older row.
(3) `bob` uploaded `a.jpg` as public and again as private, over the same file: the
request is answered with the file, which now holds the private photo, because of the older
row. -/
theorem C8_first_match_decides :
    HandleGetPhotos testRuntime testConfig testNow
        (anonymousRequest "GET" "/api/photos/bob/b.jpg") testWorld =
      (.File "test_photos/bob/b.jpg", testWorld) ∧
    HandleGetPhotos testRuntime testConfig testNow
        (anonymousRequest "GET" "/api/photos/bob/a.jpg") testWorld =
      (http_Error "Forbidden or not found" 403, testWorld) ∧
    HandleGetPhotos testRuntime testConfig testNow
        (anonymousRequest "GET" "/api/photos/bob/a.jpg")
        (photoWorld [⟨1, "test_photos/bob/A.jpg", 0, 2⟩, ⟨2, "test_photos/bob/a.jpg", 1, 2⟩]
          ["test_photos/bob/A.jpg", "test_photos/bob/a.jpg"]) =
      (http_Error "Forbidden or not found" 403,
        photoWorld [⟨1, "test_photos/bob/A.jpg", 0, 2⟩, ⟨2, "test_photos/bob/a.jpg", 1, 2⟩]
          ["test_photos/bob/A.jpg", "test_photos/bob/a.jpg"]) ∧
    HandleGetPhotos testRuntime testConfig testNow
        (anonymousRequest "GET" "/api/photos/bob/a.jpg")
        (photoWorld [⟨1, "test_photos/bob/a.jpg", 0, 2⟩, ⟨2, "test_photos/bob/a.jpg", 1, 2⟩]
          ["test_photos/bob/a.jpg"]) =
      (http_Error "Forbidden or not found" 403,
        photoWorld [⟨1, "test_photos/bob/a.jpg", 0, 2⟩, ⟨2, "test_photos/bob/a.jpg", 1, 2⟩]
          ["test_photos/bob/a.jpg"]) ∧
    HandleGetPhotos testRuntime testConfig testNow
        (anonymousRequest "GET" "/api/photos/bob/a.jpg")
        (photoWorld [⟨1, "test_photos/bob/a.jpg", 1, 2⟩, ⟨2, "test_photos/bob/a.jpg", 0, 2⟩]
          ["test_photos/bob/a.jpg"]) =
      (.File "test_photos/bob/a.jpg",
        photoWorld [⟨1, "test_photos/bob/a.jpg", 1, 2⟩, ⟨2, "test_photos/bob/a.jpg", 0, 2⟩]
          ["test_photos/bob/a.jpg"]) := by
  decide

/-! ## C9 -/

/-- C9, the claim as stated fails, in two ways. The guards on the method and on the body
come before the ownership check: `admin` (id 1) asking with `GET` for the deletion of a
photo of `bob` (id 2) is answered 405, and `admin` posting an undecodable body to the
toggle route is answered 400; neither answer is 403 `Forbidden`, although the ids differ
or no photo is named. And `DELETE FROM photos WHERE imagePath=?` names no owner: in a
store where the path `test_photos/bob/a.jpg` has a row owned by `bob` (id 2) and a row
owned by id 1, the deletion asked by `bob` removes both rows. -/
theorem C9_claim_fails :
    HandleDeletePhoto testConfig
        (testPhotoRequest "GET" "/api/delete-photo/bob/a.jpg" none "admin" 1) testWorld =
      (http_Error "Method not allowed" 405, testWorld) ∧
    HandleTogglePhotoPublic testConfig
        (testPhotoRequest "POST" "/api/toggle-public" none "admin" 1) testWorld =
      (http_Error "Invalid JSON" 400, testWorld) ∧
    HandleDeletePhoto testConfig
        (testPhotoRequest "DELETE" "/api/delete-photo/bob/a.jpg" none "bob" 2)
        (photoWorld [⟨1, "test_photos/bob/a.jpg", 0, 2⟩, ⟨2, "test_photos/bob/a.jpg", 0, 1⟩]
          ["test_photos/bob/a.jpg"]) =
      (.Message 200 [("message", "Photo deleted")], photoWorld [] []) := by
  refine ⟨rfl, rfl, by decide⟩

theorem selectOwnerID_cases (db : DB) (login path : String) :
    (∃ id, db.selectOwnerID login path = (some id, none)) ∨
      db.selectOwnerID login path = (none, some .ErrNoRows) := by
  unfold DB.selectOwnerID
  split
  · exact Or.inl ⟨_, rfl⟩
  · exact Or.inr rfl

/-- The id that the owner query of `HandleDeletePhoto` returns is the id of a user with the
requested login who owns a photo row with the requested path. -/
theorem selectOwnerID_some (db : DB) (login path : String) (id : Int)
    (h : db.selectOwnerID login path = (some id, none)) :
    ∃ u ∈ db.users, ∃ p ∈ db.photos,
      u.ID = id ∧ u.login = login ∧ p.userID = id ∧ p.imagePath = path := by
  unfold DB.selectOwnerID at h
  split at h
  · rename_i id' hh
    simp only [Prod.mk.injEq, Option.some.injEq, and_true] at h
    subst h
    have hm := List.mem_of_mem_head? hh
    simp only [List.mem_flatMap, List.mem_map, List.mem_filter, Bool.and_eq_true,
      decide_eq_true_eq] at hm
    obtain ⟨u, hu, p, ⟨hp, ⟨h1, h2⟩, h3⟩, rfl⟩ := hm
    exact ⟨u, hu, p, hp, rfl, h2, h1, h3⟩
  · simp at h

theorem selectPhotoOwner_cases (db : DB) (userID : Int) (path : String) :
    db.selectPhotoOwner userID path = (some userID, none) ∨
      db.selectPhotoOwner userID path = (none, some .ErrNoRows) := by
  unfold DB.selectPhotoOwner
  cases hf : db.photos.find? (fun p => decide (p.userID = userID) && decide (p.imagePath = path)) with
  | none => exact Or.inr rfl
  | some p =>
    have := List.find?_some hf
    simp only [Bool.and_eq_true, decide_eq_true_eq] at this
    left
    simp [this.1]

theorem updatePhotoPublic_keeps_others (db : DB) (isPublic userID : Int) (path : String) :
    (db.updatePhotoPublic isPublic userID path).photos.filter
        (fun p => decide (p.userID ≠ userID)) =
      db.photos.filter (fun p => decide (p.userID ≠ userID)) := by
  unfold DB.updatePhotoPublic
  simp only
  induction db.photos with
  | nil => rfl
  | cons p ps ih =>
    simp only [ne_eq, decide_not] at ih
    simp only [List.map_cons, List.filter_cons, ne_eq, decide_not]
    by_cases hp : p.userID = userID ∧ p.imagePath = path
    · simp [hp, ih]
    · simp [hp, ih]

theorem HandleDeletePhoto_cases (cfg : Config) (r : Request) (w : World) (userID : Int)
    (hid : r.ctx.Value ctxKeyID = some (.int64 userID)) :
    HandleDeletePhoto cfg r w = (http_Error "Method not allowed" 405, w) ∨
    HandleDeletePhoto cfg r w = (http_Error "Invalid URL" 400, w) ∨
    (r.Method = "DELETE" ∧ 5 ≤ (strings_Split r.Path '/').length ∧
      HandleDeletePhoto cfg r w = (http_Error "Forbidden" 403, w) ∧
      w.db.selectOwnerID ((strings_Split r.Path '/').getD 3 "")
        (cfg.Photos.Directory ++ "/" ++ (strings_Split r.Path '/').getD 3 "" ++ "/" ++
          (strings_Split r.Path '/').getD 4 "") ≠ (some userID, none)) ∨
    (r.Method = "DELETE" ∧ 5 ≤ (strings_Split r.Path '/').length ∧
      w.db.selectOwnerID ((strings_Split r.Path '/').getD 3 "")
        (cfg.Photos.Directory ++ "/" ++ (strings_Split r.Path '/').getD 3 "" ++ "/" ++
          (strings_Split r.Path '/').getD 4 "") = (some userID, none) ∧
      HandleDeletePhoto cfg r w =
        (.Message 200 [("message", "Photo deleted")],
          { db := w.db.deletePhotos (cfg.Photos.Directory ++ "/" ++
              (strings_Split r.Path '/').getD 3 "" ++ "/" ++ (strings_Split r.Path '/').getD 4 ""),
            files := os_Remove w.files (cfg.Photos.Directory ++ "/" ++
              (strings_Split r.Path '/').getD 3 "" ++ "/" ++
              (strings_Split r.Path '/').getD 4 "") })) := by
  by_cases hm : r.Method = "DELETE"
  · by_cases hlen : (strings_Split r.Path '/').length < 5
    · right; left
      unfold HandleDeletePhoto
      simp only [hm, ne_eq, not_true_eq_false, if_false, hlen, if_true]
    · have h5 : 5 ≤ (strings_Split r.Path '/').length := by omega
      rcases selectOwnerID_cases w.db ((strings_Split r.Path '/').getD 3 "")
        (cfg.Photos.Directory ++ "/" ++ (strings_Split r.Path '/').getD 3 "" ++ "/" ++
          (strings_Split r.Path '/').getD 4 "") with ⟨id, hsel⟩ | hsel
      · by_cases he : id = userID
        · right; right; right
          subst he
          refine ⟨hm, h5, hsel, ?_⟩
          unfold HandleDeletePhoto
          simp only [hm, ne_eq, not_true_eq_false, if_false, hlen, hid, hsel]
        · right; right; left
          refine ⟨hm, h5, ?_, ?_⟩
          · unfold HandleDeletePhoto
            simp only [hm, ne_eq, not_true_eq_false, if_false, hlen, hid, hsel, he,
              not_false_eq_true, if_true]
          · rw [hsel]
            intro h
            simp only [Prod.mk.injEq, Option.some.injEq, and_true] at h
            exact he h
      · right; right; left
        refine ⟨hm, h5, ?_, ?_⟩
        · unfold HandleDeletePhoto
          simp only [hm, ne_eq, not_true_eq_false, if_false, hlen, hid, hsel]
        · rw [hsel]
          intro h
          simp at h
  · left
    unfold HandleDeletePhoto
    simp only [ne_eq, hm, not_false_eq_true, if_true]

theorem HandleTogglePhotoPublic_cases (cfg : Config) (r : Request) (w : World) (userID : Int)
    (userLogin : String)
    (hid : r.ctx.Value ctxKeyID = some (.int64 userID))
    (hlogin : r.ctx.Value ctxKeyLogin = some (.string userLogin)) :
    HandleTogglePhotoPublic cfg r w = (http_Error "Method not allowed" 405, w) ∨
    HandleTogglePhotoPublic cfg r w = (http_Error "Invalid JSON" 400, w) ∨
    (∃ req, r.Method = "POST" ∧ r.Body.asUpdatePublicRequest = some req ∧
      HandleTogglePhotoPublic cfg r w = (http_Error "Forbidden" 403, w) ∧
      w.db.selectPhotoOwner userID
        (cfg.Photos.Directory ++ "/" ++ userLogin ++ "/" ++ req.Filename) =
          (none, some .ErrNoRows)) ∨
    (∃ req, r.Method = "POST" ∧ r.Body.asUpdatePublicRequest = some req ∧
      w.db.selectPhotoOwner userID
        (cfg.Photos.Directory ++ "/" ++ userLogin ++ "/" ++ req.Filename) =
          (some userID, none) ∧
      HandleTogglePhotoPublic cfg r w =
        (.Message 200 [("message", "Photo public state updated"),
            ("public", toString req.Public)],
          { w with db := (w.db.updatePhotoPublic req.Public userID
            (cfg.Photos.Directory ++ "/" ++ userLogin ++ "/" ++ req.Filename)) })) := by
  by_cases hm : r.Method = "POST"
  · cases hb : r.Body.asUpdatePublicRequest with
    | none =>
      right; left
      unfold HandleTogglePhotoPublic
      simp only [hm, ne_eq, not_true_eq_false, if_false, hid, hlogin, hb]
    | some req =>
      rcases selectPhotoOwner_cases w.db userID
        (cfg.Photos.Directory ++ "/" ++ userLogin ++ "/" ++ req.Filename) with hsel | hsel
      · right; right; right
        refine ⟨req, hm, rfl, hsel, ?_⟩
        unfold HandleTogglePhotoPublic
        simp only [hm, ne_eq, not_true_eq_false, if_false, hid, hlogin, hb, hsel]
      · right; right; left
        refine ⟨req, hm, rfl, ?_, hsel⟩
        unfold HandleTogglePhotoPublic
        simp only [hm, ne_eq, not_true_eq_false, if_false, hid, hlogin, hb, hsel]
  · left
    unfold HandleTogglePhotoPublic
    simp only [ne_eq, hm, not_false_eq_true, if_true]

theorem selectPhotoOwner_none_of_no_owned (db : DB) (userID : Int) (path : String)
    (h : ∀ p ∈ db.photos, p.imagePath = path → p.userID ≠ userID) :
    db.selectPhotoOwner userID path = (none, some .ErrNoRows) := by
  unfold DB.selectPhotoOwner
  have : db.photos.find? (fun p => decide (p.userID = userID) && decide (p.imagePath = path))
      = none := by
    rw [List.find?_eq_none]
    intro p hp
    simp only [Bool.and_eq_true, decide_eq_true_eq, not_and]
    intro h1 h2
    exact h p hp h2 h1
  rw [this]

/-- C9, amended: for a request whose context carries the authenticated user id and login
(as `AuthMiddleware` sets them from the token).
`HandleDeletePhoto`: on a `DELETE` request whose path has at least five segments, if every
user with the requested login who owns a photo row with the requested path has an id other
than the authenticated one (in particular if there is no such photo), the answer is
403 `Forbidden` and the world is unchanged; and for every request, the world changes only
if the method is `DELETE`, the path is well formed and the owner query returns exactly the
authenticated id, in which case the rows with that path, and no others, are deleted. The
authenticated user is then the user with the requested login and owns a row with that
path; and in a store where rows with the same path have the same owner, every deleted row
is owned by the authenticated user.
`HandleTogglePhotoPublic`: on a `POST` request whose body decodes, if no photo row with
the requested path is owned by the authenticated id, the answer is 403 `Forbidden` and the
world is unchanged; for every request, the world changes only if the method is `POST`, the
body decodes and a row with that path owned by the authenticated id exists; and rows owned
by other ids are never changed. Requests stopped by the method, path or body guard are
answered 405 or 400 and change nothing. -/
theorem C9_mutation_owner_only (cfg : Config) (r : Request) (w : World) (userID : Int)
    (userLogin : String)
    (hid : r.ctx.Value ctxKeyID = some (.int64 userID))
    (hlogin : r.ctx.Value ctxKeyLogin = some (.string userLogin)) :
    (r.Method = "DELETE" → 5 ≤ (strings_Split r.Path '/').length →
      (∀ u ∈ w.db.users, ∀ p ∈ w.db.photos,
        u.login = (strings_Split r.Path '/').getD 3 "" → p.userID = u.ID →
        p.imagePath = cfg.Photos.Directory ++ "/" ++ (strings_Split r.Path '/').getD 3 "" ++
          "/" ++ (strings_Split r.Path '/').getD 4 "" → u.ID ≠ userID) →
      HandleDeletePhoto cfg r w = (http_Error "Forbidden" 403, w)) ∧
    ((HandleDeletePhoto cfg r w).2 ≠ w →
      r.Method = "DELETE" ∧ 5 ≤ (strings_Split r.Path '/').length ∧
      w.db.selectOwnerID ((strings_Split r.Path '/').getD 3 "")
        (cfg.Photos.Directory ++ "/" ++ (strings_Split r.Path '/').getD 3 "" ++ "/" ++
          (strings_Split r.Path '/').getD 4 "") = (some userID, none) ∧
      (HandleDeletePhoto cfg r w).2.db = w.db.deletePhotos (cfg.Photos.Directory ++ "/" ++
        (strings_Split r.Path '/').getD 3 "" ++ "/" ++ (strings_Split r.Path '/').getD 4 "")) ∧
    (∀ p ∈ w.db.photos, p ∉ (HandleDeletePhoto cfg r w).2.db.photos →
      p.imagePath = cfg.Photos.Directory ++ "/" ++ (strings_Split r.Path '/').getD 3 "" ++
        "/" ++ (strings_Split r.Path '/').getD 4 "") ∧
    (∀ req : UpdatePublicRequest, r.Method = "POST" →
      r.Body.asUpdatePublicRequest = some req →
      (∀ p ∈ w.db.photos,
        p.imagePath = cfg.Photos.Directory ++ "/" ++ userLogin ++ "/" ++ req.Filename →
        p.userID ≠ userID) →
      HandleTogglePhotoPublic cfg r w = (http_Error "Forbidden" 403, w)) ∧
    ((HandleTogglePhotoPublic cfg r w).2 ≠ w →
      r.Method = "POST" ∧ ∃ req, r.Body.asUpdatePublicRequest = some req ∧
        w.db.selectPhotoOwner userID
          (cfg.Photos.Directory ++ "/" ++ userLogin ++ "/" ++ req.Filename) =
            (some userID, none) ∧
        (HandleTogglePhotoPublic cfg r w).2.db = w.db.updatePhotoPublic req.Public userID
          (cfg.Photos.Directory ++ "/" ++ userLogin ++ "/" ++ req.Filename)) ∧
    ((HandleTogglePhotoPublic cfg r w).2.db.photos.filter (fun p => decide (p.userID ≠ userID)) =
      w.db.photos.filter (fun p => decide (p.userID ≠ userID))) ∧
    ((HandleDeletePhoto cfg r w).2 ≠ w →
      ∃ u ∈ w.db.users, ∃ p ∈ w.db.photos,
        u.ID = userID ∧ u.login = (strings_Split r.Path '/').getD 3 "" ∧ p.userID = userID ∧
        p.imagePath = cfg.Photos.Directory ++ "/" ++ (strings_Split r.Path '/').getD 3 "" ++
          "/" ++ (strings_Split r.Path '/').getD 4 "") ∧
    ((∀ p ∈ w.db.photos, ∀ q ∈ w.db.photos, p.imagePath = q.imagePath → p.userID = q.userID) →
      ∀ p ∈ w.db.photos, p ∉ (HandleDeletePhoto cfg r w).2.db.photos → p.userID = userID) := by
  have hd := HandleDeletePhoto_cases cfg r w userID hid
  have ht := HandleTogglePhotoPublic_cases cfg r w userID userLogin hid hlogin
  refine ⟨?_, ?_, ?_, ?_, ?_, ?_, ?_, ?_⟩
  · intro hm h5 hall
    rcases hd with h | h | ⟨-, -, h, -⟩ | ⟨-, -, hsel, -⟩
    · exfalso
      have : HandleDeletePhoto cfg r w ≠ (http_Error "Method not allowed" 405, w) := by
        unfold HandleDeletePhoto
        simp only [hm, ne_eq, not_true_eq_false, if_false]
        have hlen : ¬ (strings_Split r.Path '/').length < 5 := by omega
        simp only [hlen, if_false, hid]
        split
        · split <;> simp [http_Error]
        · simp [http_Error]
      exact this h
    · exfalso
      have : HandleDeletePhoto cfg r w ≠ (http_Error "Invalid URL" 400, w) := by
        unfold HandleDeletePhoto
        simp only [hm, ne_eq, not_true_eq_false, if_false]
        have hlen : ¬ (strings_Split r.Path '/').length < 5 := by omega
        simp only [hlen, if_false, hid]
        split
        · split <;> simp [http_Error]
        · simp [http_Error]
      exact this h
    · exact h
    · exfalso
      obtain ⟨u, hu, p, hp, h1, h2, h3, h4⟩ := selectOwnerID_some _ _ _ _ hsel
      exact hall u hu p hp h2 (h3.trans h1.symm) h4 h1
  · intro hch
    rcases hd with h | h | ⟨-, -, h, -⟩ | ⟨hm, h5, hsel, h⟩
    · rw [h] at hch; exact absurd rfl hch
    · rw [h] at hch; exact absurd rfl hch
    · rw [h] at hch; exact absurd rfl hch
    · exact ⟨hm, h5, hsel, by rw [h]⟩
  · intro p hp hgone
    rcases hd with h | h | ⟨-, -, h, -⟩ | ⟨-, -, -, h⟩
    · rw [h] at hgone; exact absurd hp hgone
    · rw [h] at hgone; exact absurd hp hgone
    · rw [h] at hgone; exact absurd hp hgone
    · rw [h] at hgone
      by_contra hne
      apply hgone
      simp only [DB.deletePhotos, List.mem_filter, decide_eq_true_eq]
      exact ⟨hp, hne⟩
  · intro req hm hb hall
    have hnone := selectPhotoOwner_none_of_no_owned w.db userID _ hall
    unfold HandleTogglePhotoPublic
    simp only [hm, ne_eq, not_true_eq_false, if_false, hid, hlogin, hb, hnone]
  · intro hch
    rcases ht with h | h | ⟨req, -, -, h, -⟩ | ⟨req, hm, hb, hsel, h⟩
    · rw [h] at hch; exact absurd rfl hch
    · rw [h] at hch; exact absurd rfl hch
    · rw [h] at hch; exact absurd rfl hch
    · exact ⟨hm, req, hb, hsel, by rw [h]⟩
  · rcases ht with h | h | ⟨req, -, -, h, -⟩ | ⟨req, hm, hb, hsel, h⟩
    · rw [h]
    · rw [h]
    · rw [h]
    · rw [h]
      exact updatePhotoPublic_keeps_others w.db req.Public userID _
  · intro hch
    rcases hd with h | h | ⟨-, -, h, -⟩ | ⟨-, -, hsel, -⟩
    · rw [h] at hch; exact absurd rfl hch
    · rw [h] at hch; exact absurd rfl hch
    · rw [h] at hch; exact absurd rfl hch
    · exact selectOwnerID_some _ _ _ _ hsel
  · intro hcons p hp hgone
    rcases hd with h | h | ⟨-, -, h, -⟩ | ⟨-, -, hsel, h⟩
    · rw [h] at hgone; exact absurd hp hgone
    · rw [h] at hgone; exact absurd hp hgone
    · rw [h] at hgone; exact absurd hp hgone
    · obtain ⟨u, -, q, hq, -, -, hqid, hqpath⟩ := selectOwnerID_some _ _ _ _ hsel
      rw [h] at hgone
      have hpath : p.imagePath = cfg.Photos.Directory ++ "/" ++
          (strings_Split r.Path '/').getD 3 "" ++ "/" ++ (strings_Split r.Path '/').getD 4 "" := by
        by_contra hne
        apply hgone
        simp only [DB.deletePhotos, List.mem_filter, decide_eq_true_eq]
        exact ⟨hp, hne⟩
      rw [hcons p hp q hq (hpath.trans hqpath.symm)]
      exact hqid

/-- C9, witness: `admin` (id 1) may neither delete the photo `a.jpg` of `bob` (id 2) nor
toggle a photo `a.jpg` that `admin` does not own; both requests are answered 403 and the
world stays as it is. In the store of the examples no two rows share a path, so every row
that the deletion asked by `bob` removes is owned by `bob` (id 2). -/
theorem C9_mutation_owner_only_witness :
    HandleDeletePhoto testConfig
        (testPhotoRequest "DELETE" "/api/delete-photo/bob/a.jpg" none "admin" 1) testWorld =
      (http_Error "Forbidden" 403, testWorld) ∧
    HandleTogglePhotoPublic testConfig
        (testPhotoRequest "POST" "/api/toggle-public" (some ⟨"a.jpg", 1⟩) "admin" 1) testWorld =
      (http_Error "Forbidden" 403, testWorld) ∧
    (HandleDeletePhoto testConfig
        (testPhotoRequest "DELETE" "/api/delete-photo/bob/a.jpg" none "bob" 2) testWorld).2 ≠
      testWorld ∧
    ∀ p ∈ testWorld.db.photos,
      p ∉ (HandleDeletePhoto testConfig
        (testPhotoRequest "DELETE" "/api/delete-photo/bob/a.jpg" none "bob" 2)
          testWorld).2.db.photos → p.userID = 2 :=
  ⟨(C9_mutation_owner_only testConfig
      (testPhotoRequest "DELETE" "/api/delete-photo/bob/a.jpg" none "admin" 1) testWorld 1
      "admin" rfl rfl).1 rfl (by decide) (by decide),
    (C9_mutation_owner_only testConfig
      (testPhotoRequest "POST" "/api/toggle-public" (some ⟨"a.jpg", 1⟩) "admin" 1) testWorld 1
      "admin" rfl rfl).2.2.2.1 ⟨"a.jpg", 1⟩ rfl rfl (by decide),
    by decide,
    (C9_mutation_owner_only testConfig
      (testPhotoRequest "DELETE" "/api/delete-photo/bob/a.jpg" none "bob" 2) testWorld 2
      "bob" rfl rfl).2.2.2.2.2.2.2 (by decide)⟩

/-! ## C10 -/

/-- C10, the code at the failing input: `bob` is not an administrator (`isAdmin = 0` in
his row), his token is valid, and the user-listing route answers with the user list
instead of refusing; the ban route refuses the same requester with 403 `Forbidden`. -/
theorem C10_non_admin_gets_user_list :
    ∀ rt : Runtime,
      routeUsers rt testConfig testNow
          (testRequest "GET" "/api/users" (testToken rt 2 "bob")) testWorld =
        (.Users [⟨"bob", false⟩], testWorld) ∧
      routeManageBan rt testConfig testNow
          (testRequest "POST" "/api/manage-ban" (testToken rt 2 "bob")) testWorld =
        (http_Error "Forbidden" 403, testWorld) := by
  intro rt
  have hp := parseJWT_testToken rt 2 "bob" (by decide)
  have hrow : testWorld.db.selectUserByLogin "bob" = (some ⟨2, "bob", "hash2", 0, 0⟩, none) := by
    decide
  constructor
  · unfold routeUsers
    rw [AuthMiddlewareAdministration_forward rt testConfig testNow HandleGetUsers _ testWorld
      ⟨"jwt", testToken rt 2 "bob"⟩ "bob" _ hrow (testRequest_Cookie _ _ _) (by rw [hp])
      (by rw [hp]; simp [MapClaims.get, List.lookup])]
    have hlist : testWorld.db.listUsers = [⟨"bob", false⟩] := by decide
    simp only [HandleGetUsers, hlist]
  · unfold routeManageBan
    rw [AuthMiddlewareAdministration_forward rt testConfig testNow HandleManageBanStatus _
      testWorld ⟨"jwt", testToken rt 2 "bob"⟩ "bob" _ hrow (testRequest_Cookie _ _ _)
      (by rw [hp]) (by rw [hp]; simp [MapClaims.get, List.lookup])]
    rfl

/-! ## Password validators: the scanning loops -/

theorem MediumValidator_scan_foldl (t : UnicodeTables) (l : List Char) (a b : Bool) :
    l.foldl (fun (flags : Bool × Bool) char =>
      (if unicode_IsLetter t char then true else flags.1,
        if unicode_IsDigit t char then true else flags.2)) (a, b) =
      (a || l.any (unicode_IsLetter t), b || l.any (unicode_IsDigit t)) := by
  induction l generalizing a b with
  | nil => simp
  | cons c cs ih =>
    rw [List.foldl_cons, ih]
    cases h1 : unicode_IsLetter t c <;> cases h2 : unicode_IsDigit t c <;> simp [h1, h2]

theorem MediumValidator_scan_eq (t : UnicodeTables) (password : String) :
    MediumValidator.scan t password =
      (password.toList.any (unicode_IsLetter t), password.toList.any (unicode_IsDigit t)) := by
  unfold MediumValidator.scan
  rw [MediumValidator_scan_foldl]
  simp

theorem RestrictValidator_scan_foldl (t : UnicodeTables) (l : List Char) (f : ClassFlags) :
    l.foldl (fun (flags : ClassFlags) char =>
      ({ hasUpper := if unicode_IsUpper t char then true else flags.hasUpper
         hasLower := if unicode_IsLower t char then true else flags.hasLower
         hasDigit := if unicode_IsDigit t char then true else flags.hasDigit
         hasSpecial := if isSpecial t char then true else flags.hasSpecial } : ClassFlags)) f =
      ⟨f.hasUpper || l.any (unicode_IsUpper t), f.hasLower || l.any (unicode_IsLower t),
        f.hasDigit || l.any (unicode_IsDigit t), f.hasSpecial || l.any (isSpecial t)⟩ := by
  induction l generalizing f with
  | nil => simp
  | cons c cs ih =>
    rw [List.foldl_cons, ih]
    cases h1 : unicode_IsUpper t c <;> cases h2 : unicode_IsLower t c <;>
      cases h3 : unicode_IsDigit t c <;> cases h4 : isSpecial t c <;> simp [h1, h2, h3, h4]

theorem RestrictValidator_scan_eq (t : UnicodeTables) (password : String) :
    RestrictValidator.scan t password =
      ⟨password.toList.any (unicode_IsUpper t), password.toList.any (unicode_IsLower t),
        password.toList.any (unicode_IsDigit t), password.toList.any (isSpecial t)⟩ := by
  unfold RestrictValidator.scan
  rw [RestrictValidator_scan_foldl]
  simp

theorem any_isSpecial_iff (t : UnicodeTables) (l : List Char) :
    l.any (isSpecial t) = true ↔
      ∃ c ∈ l, unicode_IsLetter t c = false ∧ unicode_IsDigit t c = false ∧
        unicode_IsSpace t c = false := by
  simp [List.any_eq_true, isSpecial, and_assoc]

/-- The slice `errors` of the restrict policy holds a reason exactly when the class is
missing from the password. -/
theorem RestrictValidator.mem_errors (t : UnicodeTables) (password : String) :
    ("at least one uppercase letter" ∈ RestrictValidator.errors t password ↔
      password.toList.any (unicode_IsUpper t) = false) ∧
    ("at least one lowercase letter" ∈ RestrictValidator.errors t password ↔
      password.toList.any (unicode_IsLower t) = false) ∧
    ("at least one digit" ∈ RestrictValidator.errors t password ↔
      password.toList.any (unicode_IsDigit t) = false) ∧
    ("at least one special character" ∈ RestrictValidator.errors t password ↔
      password.toList.any (isSpecial t) = false) := by
  unfold RestrictValidator.errors
  rw [RestrictValidator_scan_eq]
  cases password.toList.any (unicode_IsUpper t) <;>
    cases password.toList.any (unicode_IsLower t) <;>
    cases password.toList.any (unicode_IsDigit t) <;>
    cases password.toList.any (isSpecial t) <;> decide

theorem RestrictValidator.errors_eq_nil (t : UnicodeTables) (password : String) :
    RestrictValidator.errors t password = [] ↔
      password.toList.any (unicode_IsUpper t) = true ∧
      password.toList.any (unicode_IsLower t) = true ∧
      password.toList.any (unicode_IsDigit t) = true ∧
      password.toList.any (isSpecial t) = true := by
  unfold RestrictValidator.errors
  rw [RestrictValidator_scan_eq]
  cases password.toList.any (unicode_IsUpper t) <;>
    cases password.toList.any (unicode_IsLower t) <;>
    cases password.toList.any (unicode_IsDigit t) <;>
    cases password.toList.any (isSpecial t) <;> decide

/-! ## C11 -/

/-- What the code does: for every password, `RestrictValidator.Validate` returns no error
if and only if its length in bytes (`len`) is at least 8 and it contains an uppercase
letter, a lowercase letter, a digit, and a character that is neither a letter, nor a
digit, nor whitespace. -/
theorem RestrictValidator_accepts_iff_bytes (t : UnicodeTables) (password : String) :
    RestrictValidator.Validate t password = none ↔
      8 ≤ len password ∧
      (∃ c ∈ password.toList, unicode_IsUpper t c = true) ∧
      (∃ c ∈ password.toList, unicode_IsLower t c = true) ∧
      (∃ c ∈ password.toList, unicode_IsDigit t c = true) ∧
      (∃ c ∈ password.toList, unicode_IsLetter t c = false ∧ unicode_IsDigit t c = false ∧
        unicode_IsSpace t c = false) := by
  rw [← any_isSpecial_iff]
  simp only [← List.any_eq_true]
  rw [← RestrictValidator.errors_eq_nil]
  unfold RestrictValidator.Validate
  by_cases hlen : len password < 8
  · simp only [hlen, if_true]
    constructor
    · intro h; exact absurd h (by simp)
    · rintro ⟨h8, -⟩; omega
  · simp only [hlen, if_false]
    cases herr : RestrictValidator.errors t password with
    | nil => simp; omega
    | cons e es => simp

/-- C11, the code at the failing input: the password `Aa1!éé` has six characters, its
UTF-8 encoding has eight bytes, and `RestrictValidator.Validate` accepts it, whatever the
Unicode tables say about `é`, because it compares the number of bytes with 8. The
six-character password `Aa1!xy` is rejected with a reason that speaks of characters. -/
theorem C11_six_characters_accepted (t : UnicodeTables) :
    "Aa1!éé".length = 6 ∧ len "Aa1!éé" = 8 ∧
    RestrictValidator.Validate t "Aa1!éé" = none ∧
    "Aa1!xy".length = 6 ∧
    RestrictValidator.Validate t "Aa1!xy" =
      some "password must be at least 8 characters long" := by
  refine ⟨by decide, by decide, ?_, by decide, ?_⟩
  · unfold RestrictValidator.Validate
    rw [if_neg (by decide)]
    have herr : RestrictValidator.errors t "Aa1!éé" = [] := by
      rw [RestrictValidator.errors_eq_nil]
      refine ⟨List.any_eq_true.2 ⟨'A', by decide, rfl⟩, List.any_eq_true.2 ⟨'a', by decide, rfl⟩,
        List.any_eq_true.2 ⟨'1', by decide, rfl⟩, List.any_eq_true.2 ⟨'!', by decide, rfl⟩⟩
    simp [herr]
  · unfold RestrictValidator.Validate
    rw [if_pos (by decide)]

/-! ## C12 -/

/-- What the code does: for every password, `MediumValidator.Validate` returns no error
if and only if its length in bytes (`len`) is at least 6 and it contains a letter and a
digit. The result is always no error or one of three reasons: the length reason is
returned exactly when the length in bytes is below 6, the letter reason exactly when the
length suffices and there is no letter, the digit reason exactly when the length
suffices, there is a letter and there is no digit. -/
theorem MediumValidator_accepts_iff_bytes (t : UnicodeTables) (password : String) :
    (MediumValidator.Validate t password = none ↔
      6 ≤ len password ∧ (∃ c ∈ password.toList, unicode_IsLetter t c = true) ∧
        (∃ c ∈ password.toList, unicode_IsDigit t c = true)) ∧
    (MediumValidator.Validate t password = some "password must be at least 6 characters long" ↔
      len password < 6) ∧
    (MediumValidator.Validate t password = some "password must contain at least one letter" ↔
      6 ≤ len password ∧ ¬ ∃ c ∈ password.toList, unicode_IsLetter t c = true) ∧
    (MediumValidator.Validate t password = some "password must contain at least one digit" ↔
      6 ≤ len password ∧ (∃ c ∈ password.toList, unicode_IsLetter t c = true) ∧
        ¬ ∃ c ∈ password.toList, unicode_IsDigit t c = true) ∧
    (MediumValidator.Validate t password = none ∨
      MediumValidator.Validate t password = some "password must be at least 6 characters long" ∨
      MediumValidator.Validate t password = some "password must contain at least one letter" ∨
      MediumValidator.Validate t password = some "password must contain at least one digit") := by
  simp only [← List.any_eq_true]
  unfold MediumValidator.Validate
  rw [MediumValidator_scan_eq]
  by_cases hlen : len password < 6
  · simp only [hlen, if_true]
    refine ⟨?_, ?_, ?_, ?_, ?_⟩
    · constructor
      · intro h; exact absurd h (by simp)
      · rintro ⟨h6, -⟩; omega
    · simp
    · constructor
      · intro h; exact absurd h (by decide)
      · rintro ⟨h6, -⟩; omega
    · constructor
      · intro h; exact absurd h (by decide)
      · rintro ⟨h6, -⟩; omega
    · right; left; trivial
  · have h6 : 6 ≤ len password := by omega
    simp only [hlen, if_false]
    cases hL : password.toList.any (unicode_IsLetter t) <;>
      cases hD : password.toList.any (unicode_IsDigit t) <;>
      simp [h6]

/-- C12, the code at the failing input: the password `a1éé` has four characters, its
UTF-8 encoding has six bytes, and `MediumValidator.Validate` accepts it, whatever the
Unicode tables say about `é`, because it compares the number of bytes with 6. The
four-character password `a1xy` is rejected with a reason that speaks of characters. -/
theorem C12_four_characters_accepted (t : UnicodeTables) :
    "a1éé".length = 4 ∧ len "a1éé" = 6 ∧
    MediumValidator.Validate t "a1éé" = none ∧
    "a1xy".length = 4 ∧
    MediumValidator.Validate t "a1xy" = some "password must be at least 6 characters long" := by
  refine ⟨by decide, by decide, ?_, by decide, ?_⟩
  · unfold MediumValidator.Validate
    rw [if_neg (by decide), MediumValidator_scan_eq]
    have hL : "a1éé".toList.any (unicode_IsLetter t) = true :=
      List.any_eq_true.2 ⟨'a', by decide, rfl⟩
    have hD : "a1éé".toList.any (unicode_IsDigit t) = true :=
      List.any_eq_true.2 ⟨'1', by decide, rfl⟩
    rw [hL, hD]
    rfl
  · unfold MediumValidator.Validate
    rw [if_pos (by decide)]

/-! ## C13 -/

/-- `EasyValidator.Validate` compares the byte length with 3 and looks at nothing else. -/
theorem EasyValidator.Validate_eq_some_iff (password : String) :
    (∃ e, EasyValidator.Validate password = some e) ↔ len password < 3 := by
  unfold EasyValidator.Validate
  by_cases h : len password < 3 <;> simp [h]

/-- C13, the code at the failing input: the password `éé` has two characters, its UTF-8
encoding has four bytes, and `EasyValidator.Validate` accepts it, while the two-character
password `ab` is rejected with a reason that speaks of characters. -/
theorem C13_two_characters_accepted :
    "éé".length = 2 ∧ len "éé" = 4 ∧ EasyValidator.Validate "éé" = none ∧
    EasyValidator.Validate "ab" = some "password must be at least 3 characters long" := by
  decide

/-! ## C14 -/

theorem CustomValidator.finish_eq_none (errors : List String) :
    CustomValidator.finish errors = none ↔ errors = [] := by
  unfold CustomValidator.finish
  cases errors with
  | nil => simp
  | cons e es => simp

/-- The slice `errors` after the class checks holds a reason exactly when the class is
required and missing. -/
theorem CustomValidator.mem_classErrors (t : UnicodeTables) (v : CustomValidator)
    (password : String) :
    ("at least one uppercase letter" ∈ v.classErrors t password ↔
      v.RequireUpper = true ∧ password.toList.any (unicode_IsUpper t) = false) ∧
    ("at least one lowercase letter" ∈ v.classErrors t password ↔
      v.RequireLower = true ∧ password.toList.any (unicode_IsLower t) = false) ∧
    ("at least one digit" ∈ v.classErrors t password ↔
      v.RequireDigit = true ∧ password.toList.any (unicode_IsDigit t) = false) ∧
    ("at least one special character" ∈ v.classErrors t password ↔
      v.RequireSpecial = true ∧ password.toList.any (isSpecial t) = false) := by
  unfold CustomValidator.classErrors
  cases v.RequireUpper <;> cases v.RequireLower <;> cases v.RequireDigit <;>
    cases v.RequireSpecial <;>
    cases password.toList.any (unicode_IsUpper t) <;>
    cases password.toList.any (unicode_IsLower t) <;>
    cases password.toList.any (unicode_IsDigit t) <;>
    cases password.toList.any (isSpecial t) <;> decide

theorem CustomValidator.classErrors_eq_nil (t : UnicodeTables) (v : CustomValidator)
    (password : String) :
    v.classErrors t password = [] ↔
      (v.RequireUpper = true → password.toList.any (unicode_IsUpper t) = true) ∧
      (v.RequireLower = true → password.toList.any (unicode_IsLower t) = true) ∧
      (v.RequireDigit = true → password.toList.any (unicode_IsDigit t) = true) ∧
      (v.RequireSpecial = true → password.toList.any (isSpecial t) = true) := by
  unfold CustomValidator.classErrors
  cases v.RequireUpper <;> cases v.RequireLower <;> cases v.RequireDigit <;>
    cases v.RequireSpecial <;>
    cases password.toList.any (unicode_IsUpper t) <;>
    cases password.toList.any (unicode_IsLower t) <;>
    cases password.toList.any (unicode_IsDigit t) <;>
    cases password.toList.any (isSpecial t) <;> decide

/-- C14, the claim as stated fails: with `MaxLength = -1` (a bound that is not 0 and
that no length satisfies) and no other constraint, the password `abc` is accepted,
because the guard `v.MaxLength > 0` switches the bound off. -/
theorem C14_negative_max_accepted :
    ¬ (({ emptyCustomValidator with MaxLength := -1 } : CustomValidator).MaxLength = 0 ∨
      (len "abc" : Int) ≤
        ({ emptyCustomValidator with MaxLength := -1 } : CustomValidator).MaxLength) ∧
    (CustomValidator.Validate testUnicode testRegexpLib
      { emptyCustomValidator with MaxLength := -1 } "abc").err = none := by
  decide

/-- C14, amended: for every `CustomValidator` with an empty `Regex` and every password,
`Validate` returns no error if and only if (`MinLength` is 0 or less, or the length is at
least `MinLength`) and (`MaxLength` is 0 or less, or the length is at most `MaxLength`)
and, for each of the four flags that is set, the password contains a character of that
class. A bound of 0 or less means unbounded and an unset flag imposes nothing. -/
theorem C14_custom_accepts_iff (t : UnicodeTables) (rx : RegexpLib) (v : CustomValidator)
    (password : String) (hregex : v.Regex = "") :
    (v.Validate t rx password).err = none ↔
      (v.MinLength ≤ 0 ∨ v.MinLength ≤ (len password : Int)) ∧
      (v.MaxLength ≤ 0 ∨ (len password : Int) ≤ v.MaxLength) ∧
      (v.RequireUpper = true → ∃ c ∈ password.toList, unicode_IsUpper t c = true) ∧
      (v.RequireLower = true → ∃ c ∈ password.toList, unicode_IsLower t c = true) ∧
      (v.RequireDigit = true → ∃ c ∈ password.toList, unicode_IsDigit t c = true) ∧
      (v.RequireSpecial = true → ∃ c ∈ password.toList, unicode_IsLetter t c = false ∧
        unicode_IsDigit t c = false ∧ unicode_IsSpace t c = false) := by
  rw [← any_isSpecial_iff]
  simp only [← List.any_eq_true]
  rw [← CustomValidator.classErrors_eq_nil]
  unfold CustomValidator.Validate
  by_cases hmin : 0 < v.MinLength ∧ (len password : Int) < v.MinLength
  · simp only [hmin, and_self, if_true]
    constructor
    · intro h; exact absurd h (by simp)
    · rintro ⟨h, -⟩; omega
  · by_cases hmax : 0 < v.MaxLength ∧ v.MaxLength < (len password : Int)
    · simp only [hmin, if_false, hmax, and_self, if_true]
      constructor
      · intro h; exact absurd h (by simp)
      · rintro ⟨-, h, -⟩; omega
    · simp only [hmin, if_false, hmax, hregex, ne_eq, not_true_eq_false]
      rw [CustomValidator.finish_eq_none]
      constructor
      · intro h
        exact ⟨by omega, by omega, h⟩
      · rintro ⟨-, -, h⟩
        exact h

/-- C14, witness: the validator of `TestCustomValidator` with `MinLength = 5` accepts
`abcde` and rejects `abcd`. -/
theorem C14_custom_accepts_iff_witness :
    (CustomValidator.Validate testUnicode testRegexpLib
      { emptyCustomValidator with MinLength := 5 } "abcde").err = none ∧
    (CustomValidator.Validate testUnicode testRegexpLib
      { emptyCustomValidator with MinLength := 5 } "abcd").err ≠ none :=
  ⟨(C14_custom_accepts_iff testUnicode testRegexpLib { emptyCustomValidator with MinLength := 5 }
      "abcde" rfl).2 (by decide),
    fun h => absurd ((C14_custom_accepts_iff testUnicode testRegexpLib
      { emptyCustomValidator with MinLength := 5 } "abcd" rfl).1 h) (by decide)⟩

/-! ## C15 -/

/-- Library: `MatchString` holds exactly when some stretch of the string matches. -/
theorem Regexp.MatchString_iff (re : Regexp) (s : String) :
    re.MatchString s = true ↔
      ∃ i j, i ≤ j ∧ j ≤ s.toList.length ∧ re.matchAt s.toList i j = true := by
  unfold Regexp.MatchString
  simp only [List.any_eq_true, List.mem_range, Bool.and_eq_true, decide_eq_true_eq]
  constructor
  · rintro ⟨i, -, j, hj, hij, hm⟩
    exact ⟨i, j, hij, by omega, hm⟩
  · rintro ⟨i, j, hij, hj, hm⟩
    exact ⟨i, by omega, j, by omega, hij, hm⟩

/-- With no flag set the class checks add no reason. -/
theorem CustomValidator.classErrors_of_no_flag (t : UnicodeTables) (v : CustomValidator)
    (password : String) (hu : v.RequireUpper = false) (hl : v.RequireLower = false)
    (hd : v.RequireDigit = false) (hs : v.RequireSpecial = false) :
    v.classErrors t password = [] := by
  rw [CustomValidator.classErrors_eq_nil]
  simp [hu, hl, hd, hs]

/-- C15, the claim as stated fails: with the pattern `a`, which has no anchors, and no
other constraint, the password `xay` is accepted although the whole password does not
match the pattern; the match is the stretch from position 1 to position 2. -/
theorem C15_substring_match_accepted :
    testRegexpLib.Compile "a" = .ok (literalRegexp "a") ∧
    (literalRegexp "a").matchAt "xay".toList 0 "xay".toList.length = false ∧
    (literalRegexp "a").matchAt "xay".toList 1 2 = true ∧
    (CustomValidator.Validate testUnicode testRegexpLib
      { emptyCustomValidator with Regex := "a" } "xay").err = none :=
  ⟨rfl, by decide, by decide, by decide⟩

/-- C15, amended: for every `CustomValidator` with a non-empty `Regex` that compiles to
`re`, no other constraint, and a `regexCompiled` that is nil or holds `re`, and for
every password, `Validate` accepts the password if and only if some stretch of the
password matches the pattern (`MatchString` is an unanchored search). In particular a
password that matches as a whole is accepted; a pattern has to carry the anchors `^`
and `$` itself, as the one of `TestCustomValidator` does, to demand a match of the
whole password. -/
theorem C15_regex_accepts_iff (t : UnicodeTables) (rx : RegexpLib) (v : CustomValidator)
    (re : Regexp) (password : String)
    (hregex : v.Regex ≠ "") (hvalid : rx.Compile v.Regex = .ok re)
    (hcache : v.regexCompiled = none ∨ v.regexCompiled = some re)
    (hmin : v.MinLength = 0) (hmax : v.MaxLength = 0)
    (hu : v.RequireUpper = false) (hl : v.RequireLower = false)
    (hd : v.RequireDigit = false) (hs : v.RequireSpecial = false) :
    ((v.Validate t rx password).err = none ↔
      ∃ i j, i ≤ j ∧ j ≤ password.toList.length ∧ re.matchAt password.toList i j = true) ∧
    (re.matchAt password.toList 0 password.toList.length = true →
      (v.Validate t rx password).err = none) := by
  have key : (v.Validate t rx password).err = none ↔ re.MatchString password = true := by
    unfold CustomValidator.Validate
    have hc := CustomValidator.classErrors_of_no_flag t v password hu hl hd hs
    rcases hcache with hnone | hsome
    · simp only [hmin, hmax, lt_self_iff_false, false_and, if_false, hregex, ne_eq,
        not_false_eq_true, if_true, hnone, hvalid, hc, List.nil_append]
      rw [CustomValidator.finish_eq_none]
      unfold CustomValidator.patternErrors
      cases re.MatchString password <;> simp
    · simp only [hmin, hmax, lt_self_iff_false, false_and, if_false, hregex, ne_eq,
        not_false_eq_true, if_true, hsome, hc, List.nil_append]
      rw [CustomValidator.finish_eq_none]
      unfold CustomValidator.patternErrors
      cases re.MatchString password <;> simp
  refine ⟨key.trans (Regexp.MatchString_iff re password), fun hwhole => key.2 ?_⟩
  exact (Regexp.MatchString_iff re password).2 ⟨0, _, Nat.zero_le _, le_refl _, hwhole⟩

/-- C15, witness: the pattern `abc`, compiled on the first call, accepts the password
`abc`, which matches as a whole. -/
theorem C15_regex_accepts_iff_witness :
    (CustomValidator.Validate testUnicode testRegexpLib
      { emptyCustomValidator with Regex := "abc" } "abc").err = none :=
  (C15_regex_accepts_iff testUnicode testRegexpLib { emptyCustomValidator with Regex := "abc" }
    (literalRegexp "abc") "abc" (by decide) rfl (Or.inl rfl) rfl rfl rfl rfl rfl rfl).2
    (by decide)

/-! ## C16 -/

theorem CustomValidator.finish_eq (errors : List String) :
    CustomValidator.finish errors =
      if errors = [] then none
      else some ("password must contain: " ++ ", ".intercalate errors) := by
  unfold CustomValidator.finish
  cases errors with
  | nil => simp
  | cons e es => simp

/-- C16, the claim as stated fails: a violated length bound is returned at once and
alone. The restrict policy answers `abc` with the length reason only, although `abc`
also lacks an uppercase letter, a digit and a special character; a custom policy with
`MinLength = 5` and `RequireDigit` answers `abcd` with the length reason only, although
`abcd` has no digit. -/
theorem C16_length_reason_alone :
    RestrictValidator.Validate testUnicode "abc" =
      some "password must be at least 8 characters long" ∧
    "abc".toList.any (unicode_IsUpper testUnicode) = false ∧
    "abc".toList.any (unicode_IsDigit testUnicode) = false ∧
    "abc".toList.any (isSpecial testUnicode) = false ∧
    (CustomValidator.Validate testUnicode testRegexpLib
      { emptyCustomValidator with MinLength := 5, RequireDigit := true } "abcd").err =
      some "password must be at least 5 characters long" ∧
    "abcd".toList.any (unicode_IsDigit testUnicode) = false := by
  decide

/-- C16, amended: a violated length bound is reported alone (restrict: length below 8;
custom: the minimum first, then the maximum). When the length bounds hold, the error of
`RestrictValidator` is `password must contain: ` followed by the reasons of the slice
`errors` joined by commas, and that slice holds the reason of a class exactly when the
class is missing; the error of a `CustomValidator` whose pattern is empty or valid is
built the same way from the reasons of the required classes that are missing followed,
when the pattern is not empty and finds no match, by the pattern reason. With no
reason the result is no error. -/
theorem C16_reasons_collected (t : UnicodeTables) (rx : RegexpLib) (v : CustomValidator)
    (re : Regexp) (password : String)
    (hre : v.Regex ≠ "" →
      v.regexCompiled = some re ∨ (v.regexCompiled = none ∧ rx.Compile v.Regex = .ok re)) :
    (len password < 8 → RestrictValidator.Validate t password =
      some "password must be at least 8 characters long") ∧
    (8 ≤ len password → RestrictValidator.Validate t password =
      if RestrictValidator.errors t password = [] then none
      else some ("password must contain: " ++
        ", ".intercalate (RestrictValidator.errors t password))) ∧
    ("at least one uppercase letter" ∈ RestrictValidator.errors t password ↔
      password.toList.any (unicode_IsUpper t) = false) ∧
    ("at least one lowercase letter" ∈ RestrictValidator.errors t password ↔
      password.toList.any (unicode_IsLower t) = false) ∧
    ("at least one digit" ∈ RestrictValidator.errors t password ↔
      password.toList.any (unicode_IsDigit t) = false) ∧
    ("at least one special character" ∈ RestrictValidator.errors t password ↔
      password.toList.any (isSpecial t) = false) ∧
    (0 < v.MinLength ∧ (len password : Int) < v.MinLength →
      (v.Validate t rx password).err =
        some ("password must be at least " ++ toString v.MinLength ++ " characters long")) ∧
    (¬ (0 < v.MinLength ∧ (len password : Int) < v.MinLength) →
      0 < v.MaxLength ∧ v.MaxLength < (len password : Int) →
      (v.Validate t rx password).err =
        some ("password must be at most " ++ toString v.MaxLength ++ " characters long")) ∧
    (¬ (0 < v.MinLength ∧ (len password : Int) < v.MinLength) →
      ¬ (0 < v.MaxLength ∧ v.MaxLength < (len password : Int)) →
      (v.Validate t rx password).err =
        if v.classErrors t password ++
            (if v.Regex ≠ "" ∧ re.MatchString password = false then
              ["password must match pattern: " ++ v.Regex] else []) = [] then none
        else some ("password must contain: " ++ ", ".intercalate
          (v.classErrors t password ++
            (if v.Regex ≠ "" ∧ re.MatchString password = false then
              ["password must match pattern: " ++ v.Regex] else [])))) ∧
    ("at least one uppercase letter" ∈ v.classErrors t password ↔
      v.RequireUpper = true ∧ password.toList.any (unicode_IsUpper t) = false) ∧
    ("at least one lowercase letter" ∈ v.classErrors t password ↔
      v.RequireLower = true ∧ password.toList.any (unicode_IsLower t) = false) ∧
    ("at least one digit" ∈ v.classErrors t password ↔
      v.RequireDigit = true ∧ password.toList.any (unicode_IsDigit t) = false) ∧
    ("at least one special character" ∈ v.classErrors t password ↔
      v.RequireSpecial = true ∧ password.toList.any (isSpecial t) = false) := by
  obtain ⟨r1, r2, r3, r4⟩ := RestrictValidator.mem_errors t password
  obtain ⟨c1, c2, c3, c4⟩ := CustomValidator.mem_classErrors t v password
  refine ⟨?_, ?_, r1, r2, r3, r4, ?_, ?_, ?_, c1, c2, c3, c4⟩
  · intro h
    unfold RestrictValidator.Validate
    simp only [h, if_true]
  · intro h
    have h8 : ¬ len password < 8 := by omega
    unfold RestrictValidator.Validate
    simp only [h8, if_false]
    cases RestrictValidator.errors t password with
    | nil => simp
    | cons e es => simp
  · intro h
    unfold CustomValidator.Validate
    simp only [h, and_self, if_true]
  · intro hmin hmax
    unfold CustomValidator.Validate
    simp only [hmin, if_false, hmax, and_self, if_true]
  · intro hmin hmax
    unfold CustomValidator.Validate
    simp only [hmin, if_false, hmax]
    by_cases hR : v.Regex = ""
    · simp only [hR, ne_eq, not_true_eq_false, if_false, false_and, List.append_nil]
      exact CustomValidator.finish_eq _
    · rcases hre hR with hsome | ⟨hnone, hvalid⟩
      · simp only [ne_eq, hR, not_false_eq_true, if_true, hsome, true_and]
        rw [CustomValidator.finish_eq]
        rfl
      · simp only [ne_eq, hR, not_false_eq_true, if_true, hnone, hvalid, true_and]
        rw [CustomValidator.finish_eq]
        rfl

/-- C16, witness: the validator of `TestCustomValidator` with `MinLength = 6` and three
required classes answers `password` with both missing classes in the one error. -/
theorem C16_reasons_collected_witness :
    (CustomValidator.Validate testUnicode testRegexpLib
      { emptyCustomValidator with
        MinLength := 6, RequireUpper := true, RequireLower := true, RequireDigit := true }
      "password").err =
      some "password must contain: at least one uppercase letter, at least one digit" :=
  ((C16_reasons_collected testUnicode testRegexpLib
      { emptyCustomValidator with
        MinLength := 6, RequireUpper := true, RequireLower := true, RequireDigit := true }
      (literalRegexp "") "password" (fun h => absurd rfl h)).2.2.2.2.2.2.2.2.1
      (by decide) (by decide)).trans (by decide)

/-! ## C17 -/

/-- C17: `GetPasswordValidator` returns the validator named by `cfg.Password.Mode` for
the modes no-validation, easy, medium and restrict, the configured `CustomValidator`
for the mode custom with a custom record, and the no-validation validator in every
other case: any other mode (the empty one included), the mode custom without a custom
record, and a configuration without password section. The no-validation validator
accepts every password, the empty one included. -/
theorem C17_GetPasswordValidator (t : UnicodeTables) (rx : RegexpLib) :
    (∀ custom, GetPasswordValidator (some ⟨"no-validation", custom⟩) = .NoValidation) ∧
    (∀ custom, GetPasswordValidator (some ⟨"easy", custom⟩) = .Easy) ∧
    (∀ custom, GetPasswordValidator (some ⟨"medium", custom⟩) = .Medium) ∧
    (∀ custom, GetPasswordValidator (some ⟨"restrict", custom⟩) = .Restrict) ∧
    (∀ v, GetPasswordValidator (some ⟨"custom", some v⟩) = .Custom v) ∧
    GetPasswordValidator (some ⟨"custom", none⟩) = .NoValidation ∧
    (∀ mode custom, mode ≠ "no-validation" → mode ≠ "easy" → mode ≠ "medium" →
      mode ≠ "restrict" → mode ≠ "custom" →
      GetPasswordValidator (some ⟨mode, custom⟩) = .NoValidation) ∧
    (∀ custom, GetPasswordValidator (some ⟨"", custom⟩) = .NoValidation) ∧
    GetPasswordValidator none = .NoValidation ∧
    (∀ password, PasswordValidator.Validate t rx .NoValidation password = none) ∧
    PasswordValidator.Validate t rx .NoValidation "" = none ∧
    PasswordValidator.GetName .NoValidation = "no-validation" := by
  refine ⟨fun _ => rfl, fun _ => rfl, fun _ => rfl, fun _ => rfl, fun _ => rfl, rfl, ?_,
    fun _ => rfl, rfl, fun _ => rfl, rfl, rfl⟩
  intro mode custom h1 h2 h3 h4 h5
  simp only [GetPasswordValidator, h1, h2, h3, h4, h5, if_false]

/-! ## C18 -/

theorem RestrictValidator_Validate_eq_none_iff (t : UnicodeTables) (password : String) :
    RestrictValidator.Validate t password = none ↔
      8 ≤ len password ∧ password.toList.any (unicode_IsUpper t) = true ∧
        password.toList.any (unicode_IsLower t) = true ∧
        password.toList.any (unicode_IsDigit t) = true ∧
        password.toList.any (isSpecial t) = true := by
  rw [← RestrictValidator.errors_eq_nil]
  unfold RestrictValidator.Validate
  by_cases hlen : len password < 8
  · simp only [hlen, if_true]
    constructor
    · intro h; exact absurd h (by simp)
    · rintro ⟨h8, -⟩; omega
  · simp only [hlen, if_false]
    cases herr : RestrictValidator.errors t password with
    | nil => simp; omega
    | cons e es => simp

theorem MediumValidator_Validate_eq_none_iff (t : UnicodeTables) (password : String) :
    MediumValidator.Validate t password = none ↔
      6 ≤ len password ∧ password.toList.any (unicode_IsLetter t) = true ∧
        password.toList.any (unicode_IsDigit t) = true := by
  unfold MediumValidator.Validate
  rw [MediumValidator_scan_eq]
  by_cases hlen : len password < 6
  · simp only [hlen, if_true]
    constructor
    · intro h; exact absurd h (by simp)
    · rintro ⟨h6, -⟩; omega
  · have h6 : 6 ≤ len password := by omega
    simp only [hlen, if_false]
    cases hL : password.toList.any (unicode_IsLetter t) <;>
      cases hD : password.toList.any (unicode_IsDigit t) <;>
      simp [h6]

theorem EasyValidator_Validate_eq_none_iff (password : String) :
    EasyValidator.Validate password = none ↔ 3 ≤ len password := by
  unfold EasyValidator.Validate
  by_cases h : len password < 3
  · simp [h]
  · simp [h]; omega

/-- An uppercase letter is a letter, when the tables say so beyond ASCII. -/
theorem unicode_IsLetter_of_IsUpper (t : UnicodeTables)
    (hUL : ∀ c, t.Upper c = true → t.Letter c = true) (c : Char)
    (h : unicode_IsUpper t c = true) : unicode_IsLetter t c = true := by
  unfold unicode_IsUpper at h
  unfold unicode_IsLetter
  by_cases hc : c.toNat < 0x80
  · simp only [hc, if_true, decide_eq_true_eq] at h ⊢
    left
    exact h
  · simp only [hc, if_false] at h ⊢
    exact hUL c h

theorem List.any_congr_of_mem {α : Type} (l : List α) (f g : α → Bool)
    (h : ∀ a ∈ l, f a = g a) : l.any f = l.any g := by
  induction l with
  | nil => rfl
  | cons a as ih =>
    simp only [List.any_cons]
    rw [h a (List.mem_cons_self a as), ih (fun b hb => h b (List.mem_cons_of_mem a hb))]

/-- The classes of an ASCII character do not depend on the tables. -/
theorem unicode_ascii (t u : UnicodeTables) (c : Char) (h : c.toNat < 0x80) :
    unicode_IsUpper t c = unicode_IsUpper u c ∧ unicode_IsLower t c = unicode_IsLower u c ∧
    unicode_IsDigit t c = unicode_IsDigit u c ∧ unicode_IsLetter t c = unicode_IsLetter u c ∧
    isSpecial t c = isSpecial u c := by
  simp [unicode_IsUpper, unicode_IsLower, unicode_IsDigit, unicode_IsLetter, unicode_IsSpace,
    isSpecial, h]

theorem MediumValidator_Validate_ascii (t u : UnicodeTables) (password : String)
    (h : ∀ c ∈ password.toList, c.toNat < 0x80) :
    MediumValidator.Validate t password = MediumValidator.Validate u password := by
  unfold MediumValidator.Validate
  rw [MediumValidator_scan_eq, MediumValidator_scan_eq,
    List.any_congr_of_mem _ (unicode_IsLetter t) (unicode_IsLetter u)
      (fun c hc => (unicode_ascii t u c (h c hc)).2.2.2.1),
    List.any_congr_of_mem _ (unicode_IsDigit t) (unicode_IsDigit u)
      (fun c hc => (unicode_ascii t u c (h c hc)).2.2.1)]

theorem RestrictValidator_Validate_ascii (t u : UnicodeTables) (password : String)
    (h : ∀ c ∈ password.toList, c.toNat < 0x80) :
    RestrictValidator.Validate t password = RestrictValidator.Validate u password := by
  unfold RestrictValidator.Validate RestrictValidator.errors
  rw [RestrictValidator_scan_eq, RestrictValidator_scan_eq,
    List.any_congr_of_mem _ (unicode_IsUpper t) (unicode_IsUpper u)
      (fun c hc => (unicode_ascii t u c (h c hc)).1),
    List.any_congr_of_mem _ (unicode_IsLower t) (unicode_IsLower u)
      (fun c hc => (unicode_ascii t u c (h c hc)).2.1),
    List.any_congr_of_mem _ (unicode_IsDigit t) (unicode_IsDigit u)
      (fun c hc => (unicode_ascii t u c (h c hc)).2.2.1),
    List.any_congr_of_mem _ (isSpecial t) (isSpecial u)
      (fun c hc => (unicode_ascii t u c (h c hc)).2.2.2.2)]

/-- C18: for Unicode tables in which every uppercase letter is a letter, every
password accepted by `RestrictValidator` is accepted by `MediumValidator` and by
`EasyValidator`, every password accepted by `MediumValidator` is accepted by
`EasyValidator`, and `NoValidationValidator` accepts every password. The inclusions are
strict: `abc` is accepted by easy and rejected by medium, `abc123` is accepted by medium
and rejected by restrict; `ab` is rejected by all three and `Password1!` is accepted by
restrict. -/
theorem C18_policy_monotonicity (t : UnicodeTables)
    (hUL : ∀ c, t.Upper c = true → t.Letter c = true) :
    (∀ password, RestrictValidator.Validate t password = none →
      MediumValidator.Validate t password = none) ∧
    (∀ password, RestrictValidator.Validate t password = none →
      EasyValidator.Validate password = none) ∧
    (∀ password, MediumValidator.Validate t password = none →
      EasyValidator.Validate password = none) ∧
    (∀ password, NoValidationValidator.Validate password = none) ∧
    (EasyValidator.Validate "abc" = none ∧ MediumValidator.Validate t "abc" ≠ none) ∧
    (MediumValidator.Validate t "abc123" = none ∧
      RestrictValidator.Validate t "abc123" ≠ none) ∧
    (EasyValidator.Validate "ab" ≠ none ∧ MediumValidator.Validate t "ab" ≠ none ∧
      RestrictValidator.Validate t "ab" ≠ none) ∧
    RestrictValidator.Validate t "Password1!" = none := by
  refine ⟨?_, ?_, ?_, fun _ => rfl, ⟨by decide, ?_⟩, ⟨?_, ?_⟩, ⟨by decide, ?_, ?_⟩, ?_⟩
  · intro password h
    rw [RestrictValidator_Validate_eq_none_iff] at h
    rw [MediumValidator_Validate_eq_none_iff]
    obtain ⟨h8, hU, -, hD, -⟩ := h
    refine ⟨by omega, ?_, hD⟩
    rw [List.any_eq_true] at hU ⊢
    obtain ⟨c, hc, hup⟩ := hU
    exact ⟨c, hc, unicode_IsLetter_of_IsUpper t hUL c hup⟩
  · intro password h
    rw [RestrictValidator_Validate_eq_none_iff] at h
    rw [EasyValidator_Validate_eq_none_iff]
    omega
  · intro password h
    rw [MediumValidator_Validate_eq_none_iff] at h
    rw [EasyValidator_Validate_eq_none_iff]
    omega
  · rw [MediumValidator_Validate_ascii t testUnicode "abc" (by decide)]
    decide
  · rw [MediumValidator_Validate_ascii t testUnicode "abc123" (by decide)]
    decide
  · rw [RestrictValidator_Validate_ascii t testUnicode "abc123" (by decide)]
    decide
  · rw [MediumValidator_Validate_ascii t testUnicode "ab" (by decide)]
    decide
  · rw [RestrictValidator_Validate_ascii t testUnicode "ab" (by decide)]
    decide
  · rw [RestrictValidator_Validate_ascii t testUnicode "Password1!" (by decide)]
    decide

/-- C18, witness: in the Latin-1 tables every uppercase letter is a letter, and the
password `ÉÉß1!ÉÉ`, whose letters all lie beyond ASCII, is accepted by restrict and
therefore by medium. -/
theorem C18_policy_monotonicity_witness :
    (∀ c, testUnicode.Upper c = true → testUnicode.Letter c = true) ∧
    RestrictValidator.Validate testUnicode "ÉÉß1!ÉÉ" = none ∧
    MediumValidator.Validate testUnicode "ÉÉß1!ÉÉ" = none :=
  ⟨fun c h => by simp only [testUnicode] at h ⊢; simp [h], by decide,
    (C18_policy_monotonicity testUnicode
      (fun c h => by simp only [testUnicode] at h ⊢; simp [h])).1 "ÉÉß1!ÉÉ" (by decide)⟩

/-! ## C19 -/

/-- A call on a validator that holds a compiled pattern does not compile and leaves the
validator as it is. -/
theorem CustomValidator.Validate_cached (t : UnicodeTables) (rx : RegexpLib)
    (v : CustomValidator) (re : Regexp) (password : String)
    (h : v.regexCompiled = some re) :
    (v.Validate t rx password).compiles = 0 ∧ (v.Validate t rx password).v = v := by
  unfold CustomValidator.Validate
  split_ifs <;> simp [h]

theorem CustomValidator.ValidateAll_cached (t : UnicodeTables) (rx : RegexpLib)
    (v : CustomValidator) (re : Regexp) (h : v.regexCompiled = some re)
    (passwords : List String) :
    (CustomValidator.ValidateAll t rx v passwords).2.2 = 0 := by
  induction passwords with
  | nil => rfl
  | cons p ps ih =>
    obtain ⟨h0, hv⟩ := CustomValidator.Validate_cached t rx v re p h
    simp only [CustomValidator.ValidateAll, h0, hv, ih]

/-- A call that fails a length bound returns before the pattern check. -/
theorem CustomValidator.Validate_length_failure (t : UnicodeTables) (rx : RegexpLib)
    (v : CustomValidator) (password : String)
    (h : (0 < v.MinLength ∧ (len password : Int) < v.MinLength) ∨
      (0 < v.MaxLength ∧ v.MaxLength < (len password : Int))) :
    (v.Validate t rx password).compiles = 0 ∧ (v.Validate t rx password).v = v := by
  unfold CustomValidator.Validate
  by_cases hmin : 0 < v.MinLength ∧ (len password : Int) < v.MinLength
  · simp only [hmin, and_self, if_true]
  · rcases h with h | hmax
    · exact absurd h hmin
    · simp only [hmin, if_false, hmax, and_self, if_true]

/-- The first call that reaches the pattern check on a validator with a valid pattern
compiles it once and stores the result. -/
theorem CustomValidator.Validate_first (t : UnicodeTables) (rx : RegexpLib)
    (v : CustomValidator) (re : Regexp) (password : String)
    (hregex : v.Regex ≠ "") (hfresh : v.regexCompiled = none)
    (hvalid : rx.Compile v.Regex = .ok re)
    (hmin : ¬ (0 < v.MinLength ∧ (len password : Int) < v.MinLength))
    (hmax : ¬ (0 < v.MaxLength ∧ v.MaxLength < (len password : Int))) :
    (v.Validate t rx password).compiles = 1 ∧
      (v.Validate t rx password).v = { v with regexCompiled := some re } := by
  unfold CustomValidator.Validate
  simp only [hmin, hmax, if_false, ne_eq, hregex, not_false_eq_true, if_true, hfresh, hvalid,
    and_self]

/-- A call that reaches the pattern check on a validator with an invalid pattern
compiles, returns the error of the compiler and leaves the validator without compiled
pattern. -/
theorem CustomValidator.Validate_invalid (t : UnicodeTables) (rx : RegexpLib)
    (v : CustomValidator) (e : String) (password : String)
    (hregex : v.Regex ≠ "") (hfresh : v.regexCompiled = none)
    (hinvalid : rx.Compile v.Regex = .error e)
    (hmin : ¬ (0 < v.MinLength ∧ (len password : Int) < v.MinLength))
    (hmax : ¬ (0 < v.MaxLength ∧ v.MaxLength < (len password : Int))) :
    (v.Validate t rx password).err = some ("invalid regex pattern: " ++ e) ∧
      (v.Validate t rx password).compiles = 1 ∧ (v.Validate t rx password).v = v := by
  unfold CustomValidator.Validate
  simp only [hmin, hmax, if_false, ne_eq, hregex, not_false_eq_true, if_true, hfresh, hinvalid,
    true_and]
  cases v
  simp only at hfresh
  subst hfresh
  rfl

theorem CustomValidator.ValidateAll_valid (t : UnicodeTables) (rx : RegexpLib)
    (v : CustomValidator) (re : Regexp) (hregex : v.Regex ≠ "")
    (hfresh : v.regexCompiled = none) (hvalid : rx.Compile v.Regex = .ok re)
    (passwords : List String) :
    (CustomValidator.ValidateAll t rx v passwords).2.2 ≤ 1 := by
  induction passwords with
  | nil => simp [CustomValidator.ValidateAll]
  | cons p ps ih =>
    by_cases hlen : (0 < v.MinLength ∧ (len p : Int) < v.MinLength) ∨
        (0 < v.MaxLength ∧ v.MaxLength < (len p : Int))
    · obtain ⟨h0, hv⟩ := CustomValidator.Validate_length_failure t rx v p hlen
      simp only [CustomValidator.ValidateAll, h0, hv, Nat.zero_add]
      exact ih
    · obtain ⟨h1, hv⟩ := CustomValidator.Validate_first t rx v re p hregex hfresh hvalid
        (fun h => hlen (Or.inl h)) (fun h => hlen (Or.inr h))
      simp only [CustomValidator.ValidateAll, h1, hv]
      rw [CustomValidator.ValidateAll_cached t rx { v with regexCompiled := some re } re rfl ps]

theorem CustomValidator.ValidateAll_invalid (t : UnicodeTables) (rx : RegexpLib)
    (v : CustomValidator) (e : String) (hregex : v.Regex ≠ "")
    (hfresh : v.regexCompiled = none) (hinvalid : rx.Compile v.Regex = .error e)
    (passwords : List String) :
    (CustomValidator.ValidateAll t rx v passwords).2.2 =
      passwords.countP (fun p =>
        decide (¬ (0 < v.MinLength ∧ (len p : Int) < v.MinLength) ∧
          ¬ (0 < v.MaxLength ∧ v.MaxLength < (len p : Int)))) := by
  induction passwords with
  | nil => simp [CustomValidator.ValidateAll]
  | cons p ps ih =>
    by_cases hlen : (0 < v.MinLength ∧ (len p : Int) < v.MinLength) ∨
        (0 < v.MaxLength ∧ v.MaxLength < (len p : Int))
    · obtain ⟨h0, hv⟩ := CustomValidator.Validate_length_failure t rx v p hlen
      have hp : ¬ (¬ (0 < v.MinLength ∧ (len p : Int) < v.MinLength) ∧
          ¬ (0 < v.MaxLength ∧ v.MaxLength < (len p : Int))) := by tauto
      simp only [CustomValidator.ValidateAll, h0, hv, Nat.zero_add, ih]
      rw [List.countP_cons_of_neg]
      simp only [decide_eq_true_eq]
      exact hp
    · obtain ⟨-, h1, hv⟩ := CustomValidator.Validate_invalid t rx v e p hregex hfresh hinvalid
        (fun h => hlen (Or.inl h)) (fun h => hlen (Or.inr h))
      have hp : ¬ (0 < v.MinLength ∧ (len p : Int) < v.MinLength) ∧
          ¬ (0 < v.MaxLength ∧ v.MaxLength < (len p : Int)) := by tauto
      simp only [CustomValidator.ValidateAll, h1, hv, ih]
      rw [List.countP_cons_of_pos]
      · omega
      · simp only [decide_eq_true_eq]
        exact hp

/-- C19, the claim as stated fails: the pattern `(` is invalid, `regexCompiled` stays
nil after the failed compilation, and two calls of `Validate` on the one instance
compile twice. Both calls return the `invalid regex pattern` error. -/
theorem C19_invalid_pattern_compiled_again :
    (CustomValidator.ValidateAll testUnicode testRegexpLib
      { emptyCustomValidator with Regex := "(" } ["abc", "abd"]).2.2 = 2 ∧
    (CustomValidator.ValidateAll testUnicode testRegexpLib
      { emptyCustomValidator with Regex := "(" } ["abc", "abd"]).1 =
      [some "invalid regex pattern: missing closing )",
        some "invalid regex pattern: missing closing )"] := by
  decide

/-- C19, amended: take a `CustomValidator` instance with a non-empty `Regex` and a nil
`regexCompiled`. When the pattern is valid, every sequence of `Validate` calls compiles
at most once: a call that fails a length bound returns before the pattern check, the
first call that reaches the check compiles once and stores the result, and every call
on the instance with the stored result compiles nothing. When the pattern is invalid,
every call that reaches the check returns the `invalid regex pattern` error, compiles
once and stores nothing, so that a sequence of calls compiles as many times as it has
calls that pass the length bounds. -/
theorem C19_compile_memoized (t : UnicodeTables) (rx : RegexpLib) (v : CustomValidator)
    (hregex : v.Regex ≠ "") (hfresh : v.regexCompiled = none) :
    (∀ re, rx.Compile v.Regex = .ok re →
      (∀ passwords, (CustomValidator.ValidateAll t rx v passwords).2.2 ≤ 1) ∧
      (∀ password,
        ¬ (0 < v.MinLength ∧ (len password : Int) < v.MinLength) →
        ¬ (0 < v.MaxLength ∧ v.MaxLength < (len password : Int)) →
        (v.Validate t rx password).compiles = 1 ∧
          (v.Validate t rx password).v = { v with regexCompiled := some re }) ∧
      (∀ password,
        (CustomValidator.Validate t rx { v with regexCompiled := some re } password).compiles
          = 0 ∧
        (CustomValidator.Validate t rx { v with regexCompiled := some re } password).v =
          { v with regexCompiled := some re }) ∧
      (∀ passwords, (CustomValidator.ValidateAll t rx { v with regexCompiled := some re }
        passwords).2.2 = 0)) ∧
    (∀ password,
      (0 < v.MinLength ∧ (len password : Int) < v.MinLength) ∨
        (0 < v.MaxLength ∧ v.MaxLength < (len password : Int)) →
      (v.Validate t rx password).compiles = 0 ∧ (v.Validate t rx password).v = v) ∧
    (∀ e, rx.Compile v.Regex = .error e →
      (∀ password,
        ¬ (0 < v.MinLength ∧ (len password : Int) < v.MinLength) →
        ¬ (0 < v.MaxLength ∧ v.MaxLength < (len password : Int)) →
        (v.Validate t rx password).err = some ("invalid regex pattern: " ++ e) ∧
          (v.Validate t rx password).compiles = 1 ∧ (v.Validate t rx password).v = v) ∧
      (∀ passwords, (CustomValidator.ValidateAll t rx v passwords).2.2 =
        passwords.countP (fun p =>
          decide (¬ (0 < v.MinLength ∧ (len p : Int) < v.MinLength) ∧
            ¬ (0 < v.MaxLength ∧ v.MaxLength < (len p : Int)))))) := by
  refine ⟨fun re hvalid => ⟨?_, ?_, ?_, ?_⟩, ?_, fun e hinvalid => ⟨?_, ?_⟩⟩
  · exact CustomValidator.ValidateAll_valid t rx v re hregex hfresh hvalid
  · intro password hmin hmax
    exact CustomValidator.Validate_first t rx v re password hregex hfresh hvalid hmin hmax
  · intro password
    exact CustomValidator.Validate_cached t rx _ re password rfl
  · intro passwords
    exact CustomValidator.ValidateAll_cached t rx _ re rfl passwords
  · intro password h
    exact CustomValidator.Validate_length_failure t rx v password h
  · intro password hmin hmax
    exact CustomValidator.Validate_invalid t rx v e password hregex hfresh hinvalid hmin hmax
  · exact CustomValidator.ValidateAll_invalid t rx v e hregex hfresh hinvalid

/-- C19, witness: three calls on an instance with the valid pattern `a` and
`MinLength = 2` compile once in all; the first call fails the length bound and does
not compile. -/
theorem C19_compile_memoized_witness :
    (CustomValidator.ValidateAll testUnicode testRegexpLib
      { emptyCustomValidator with MinLength := 2, Regex := "a" } ["a", "ab", "xay"]).2.2 ≤ 1 ∧
    (CustomValidator.ValidateAll testUnicode testRegexpLib
      { emptyCustomValidator with MinLength := 2, Regex := "a" } ["a", "ab", "xay"]).2.2 = 1 :=
  ⟨((C19_compile_memoized testUnicode testRegexpLib
      { emptyCustomValidator with MinLength := 2, Regex := "a" } (by decide) rfl).1
      (literalRegexp "a") rfl).1 ["a", "ab", "xay"], by decide⟩

end PhotoManager
